import Mathlib

/-!
Verification of the firmware block scanner `fwinfo`.

A shallow embedding of `fwinfo.cpp` (Mi Walkie-Talkie firmware information tool).

* A byte is a `Fin 256`; a file is a `List Byte`; the C `FILE*` is the file content
  together with the read/write cursor.
* `unsigned` values are natural numbers; every operation of the source that is applied
  to them (`>>`, `^`, `&`) keeps a 32-bit value inside 32 bits, and `~` is written
  explicitly on 32 bits.
* Headers are records of their fields; the packed little-endian memory image of a
  header is given by `encodeV1` / `encodeV2`, and `fread` into a header is
  `decodeV1` / `decodeV2` of the bytes read.
* `printf` output is kept as a list of `Report` values that carry what each message
  prints.
* Seeking and writing inside an open regular file succeed, so the `exit(1)` branch of
  `RewriteFirmwareBlockHeader` is not reachable in the model.
* The two `while` loops of `main` are unrolled a bounded number of times (`scanLoop`);
  the statements about a run show that the run ends when the bound exceeds the file
  length.
* `mainOpened` is `main` from the first `fread` on; `main` adds the command line and
  `fopen`, with the file system given as a function from name and mode to content.
-/

namespace Fwinfo

/-- One byte of a file or of memory. -/
abbrev Byte := Fin 256

/-! ## CRC-32 engine (fwinfo.cpp lines 53-78) -/

/-- The body of the inner loop of `InitCRC32Table`:
`if (CRC & 1) CRC = (CRC >> 1) ^ 0xEDB88320; else CRC >>= 1;`. -/
def crcTableStep (CRC : Nat) : Nat :=
  if CRC &&& 1 ≠ 0 then (CRC >>> 1) ^^^ 0xEDB88320 else CRC >>> 1

/-- The table `CRC32Tbl` as filled by `InitCRC32Table`: for each `i` in `0..255`, eight
rounds of `crcTableStep` starting from `i`. -/
def InitCRC32Table : List Nat :=
  (List.range 256).map (fun i => crcTableStep^[8] i)

/-- The C expression `~x` on a 32-bit `unsigned`. -/
def not32 (x : Nat) : Nat := 0xFFFFFFFF - x % 2 ^ 32

/-- The stream of a C `FILE*`: the bytes of the file and the cursor. -/
structure FILE where
  data : List Byte
  pos : Nat
deriving DecidableEq, Repr

/-- `fgetc`: the byte under the cursor, moving the cursor by one; `none` (EOF) when the
cursor is at or past the end, in which case the cursor does not move. -/
def fgetc (file : FILE) : Option Byte × FILE :=
  match file.data[file.pos]? with
  | some b => (some b, { file with pos := file.pos + 1 })
  | none => (none, file)

/-- The update of the loop body of `CalculateBlockCRC32`:
`CRC32 = CRC32Tbl[(CRC32 ^ nextByte) & 0xFF] ^ (CRC32 >> 8)`. -/
def crcTblByte (CRC32Tbl : List Nat) (CRC32 : Nat) (nextByte : Byte) : Nat :=
  (CRC32Tbl.getD ((CRC32 ^^^ nextByte.val) &&& 0xFF) 0) ^^^ (CRC32 >>> 8)

/-- The `for` loop of `CalculateBlockCRC32`, with `k` iterations left before `i` reaches
`n`. The state is `(CRC32, DataLength, file)`. -/
def crcLoop (CRC32Tbl : List Nat) :
    Nat → Nat → Nat → Nat → FILE → Nat × Nat × FILE
  | 0, _, CRC32, DataLength, file => (CRC32, DataLength, file)
  | k + 1, i, CRC32, DataLength, file =>
    match fgetc file with
    | (none, file) => (CRC32, i, file)
    | (some nextByte, file) =>
      crcLoop CRC32Tbl k (i + 1) (crcTblByte CRC32Tbl CRC32 nextByte) DataLength file

/-- `CalculateBlockCRC32(file, DataLength)`: returns the CRC, the value left in the
reference parameter `DataLength`, and the stream. -/
def CalculateBlockCRC32 (CRC32Tbl : List Nat) (file : FILE) (DataLength : Nat) :
    Nat × Nat × FILE :=
  let r := crcLoop CRC32Tbl DataLength 0 0xFFFFFFFF DataLength file
  (not32 r.1, r.2.1, r.2.2)

/-! ### Reference CRC-32/ISO-HDLC, bit by bit -/

/-- One bit of the reflected CRC-32 shift register with polynomial `0xEDB88320`. -/
def crc32BitRef (crc : Nat) : Nat :=
  crc / 2 ^^^ (if crc % 2 = 1 then 0xEDB88320 else 0)

/-- One byte of the reference CRC-32: the byte is xored into the low end of the register,
which is then shifted eight times, least significant bit first. -/
def crc32ByteRef (crc : Nat) (b : Byte) : Nat :=
  crc32BitRef^[8] (crc ^^^ b.val)

/-- Reference CRC-32/ISO-HDLC of a byte sequence: initial value `0xFFFFFFFF`, bit-serial
update, final one's complement. -/
def crc32Ref (s : List Byte) : Nat :=
  not32 (s.foldl crc32ByteRef 0xFFFFFFFF)

/-- The bytes between the cursor and the end of the file. -/
def FILE.rest (file : FILE) : List Byte := file.data.drop file.pos

/-! ## Header layouts (fwinfo.cpp lines 5-34) -/

/-- Byte `k` (counted from the least significant) of an unsigned value. -/
def byteAt (x k : Nat) : Byte := ⟨x / 256 ^ k % 256, Nat.mod_lt _ (by decide)⟩

/-- Memory image of an `unsigned char`. -/
def bytes8 (x : Nat) : List Byte := [byteAt x 0]

/-- Little-endian memory image of an `unsigned short`. -/
def bytes16 (x : Nat) : List Byte := [byteAt x 0, byteAt x 1]

/-- Little-endian memory image of an `unsigned int`. -/
def bytes32 (x : Nat) : List Byte := [byteAt x 0, byteAt x 1, byteAt x 2, byteAt x 3]

/-- The `unsigned char` stored at offset `o` of a buffer. -/
def u8At (buf : List Byte) (o : Nat) : Nat := (buf.getD o 0).val

/-- The little-endian `unsigned short` stored at offset `o` of a buffer. -/
def u16At (buf : List Byte) (o : Nat) : Nat := u8At buf o + 256 * u8At buf (o + 1)

/-- The little-endian `unsigned int` stored at offset `o` of a buffer. -/
def u32At (buf : List Byte) (o : Nat) : Nat :=
  u8At buf o + 256 * u8At buf (o + 1) + 65536 * u8At buf (o + 2) + 16777216 * u8At buf (o + 3)

/-- The packed struct `FirmwareBlockHeaderV1` (20 bytes). -/
structure FirmwareBlockHeaderV1 where
  Signature : Nat
  BlockType : Nat
  Unknown3 : Nat
  Unknown4 : Nat
  DataLength : Nat
  DataCRC32 : Nat
  FirmwareVersion : Nat
deriving DecidableEq, Repr

/-- The packed struct `FirmwareBlockHeaderV2` (24 bytes). -/
structure FirmwareBlockHeaderV2 where
  Signature : Nat
  HeaderChecksum : Nat
  BlockType : Nat
  HardwareRevision : Nat
  FirmwareVersion : Nat
  DataCRC32 : Nat
  DataLength : Nat
  Unknown0x14 : Nat
  DeviceType : Nat
deriving DecidableEq, Repr

/-- The constant `FirmwareBlockHeaderV1Signature`. -/
def FirmwareBlockHeaderV1Signature : Nat := 0xAA55

/-- The constant `FirmwareBlockHeaderV2Signature`. -/
def FirmwareBlockHeaderV2Signature : Nat := 0x5A

/-- The 20 bytes of a `FirmwareBlockHeaderV1` in memory (`#pragma pack(1)`, little-endian). -/
def encodeV1 (h : FirmwareBlockHeaderV1) : List Byte :=
  bytes16 h.Signature ++ bytes8 h.BlockType ++ bytes8 h.Unknown3 ++ bytes32 h.Unknown4 ++
    bytes32 h.DataLength ++ bytes32 h.DataCRC32 ++ bytes32 h.FirmwareVersion

/-- The `FirmwareBlockHeaderV1` whose memory holds the given bytes (what `fread` into the
struct gives). Bytes that are missing read as 0; the program never looks at a header that
was not read in full. -/
def decodeV1 (buf : List Byte) : FirmwareBlockHeaderV1 where
  Signature := u16At buf 0
  BlockType := u8At buf 2
  Unknown3 := u8At buf 3
  Unknown4 := u32At buf 4
  DataLength := u32At buf 8
  DataCRC32 := u32At buf 12
  FirmwareVersion := u32At buf 16

/-- The 24 bytes of a `FirmwareBlockHeaderV2` in memory (`#pragma pack(1)`, little-endian). -/
def encodeV2 (h : FirmwareBlockHeaderV2) : List Byte :=
  bytes32 h.Signature ++ bytes8 h.HeaderChecksum ++ bytes8 h.BlockType ++
    bytes16 h.HardwareRevision ++ bytes32 h.FirmwareVersion ++ bytes32 h.DataCRC32 ++
    bytes32 h.DataLength ++ bytes16 h.Unknown0x14 ++ bytes16 h.DeviceType

/-- The `FirmwareBlockHeaderV2` whose memory holds the given bytes. -/
def decodeV2 (buf : List Byte) : FirmwareBlockHeaderV2 where
  Signature := u32At buf 0
  HeaderChecksum := u8At buf 4
  BlockType := u8At buf 5
  HardwareRevision := u16At buf 6
  FirmwareVersion := u32At buf 8
  DataCRC32 := u32At buf 12
  DataLength := u32At buf 16
  Unknown0x14 := u16At buf 20
  DeviceType := u16At buf 22

/-! ## Header checksum engine (fwinfo.cpp lines 37-51) -/

/-- The body of the inner loop of `CalculateHeaderChecksum` on the pair `(result, Data)`:
`bit0 = (result ^ Data) & 1; result >>= 1; if (bit0) result ^= 0x8C; Data >>= 1;`. -/
def checksumBitStep (s : Nat × Nat) : Nat × Nat :=
  let bit0 := (s.1 ^^^ s.2) &&& 1
  let result := s.1 >>> 1
  (if bit0 ≠ 0 then result ^^^ 0x8C else result, s.2 >>> 1)

/-- The body of the outer loop of `CalculateHeaderChecksum`: the byte `*Src` is loaded
into `Data` and the inner loop runs 8 times. -/
def checksumByte (result : Nat) (Src : Byte) : Nat :=
  (checksumBitStep^[8] (result, Src.val)).1

/-- `CalculateHeaderChecksum(Header)`: the outer loop walks the memory of the header from
the byte after `HeaderChecksum` (offset 5) to the end of the struct. -/
def CalculateHeaderChecksum (Header : FirmwareBlockHeaderV2) : Nat :=
  ((encodeV2 Header).drop 5).foldl checksumByte 0

/-! ### Reference bit-serial header checksum -/

/-- The bit-serial rule, `n` times: `bit0 = (result ^ data) & 1; result >>= 1;
if bit0: result ^= 0x8C; data >>= 1`. -/
def headerChecksumBits : Nat → Nat → Nat → Nat
  | 0, result, _ => result
  | n + 1, result, data =>
    let bit0 := (result ^^^ data) % 2
    let shifted := result / 2
    headerChecksumBits n (if bit0 = 1 then shifted ^^^ 0x8C else shifted) (data / 2)

/-- The bit-serial checksum of a byte sequence, starting from `result = 0`, 8 bit
iterations per byte. -/
def headerChecksumRef (bytes : List Byte) : Nat :=
  bytes.foldl (fun result b => headerChecksumBits 8 result b.val) 0

/-- The byte `b` with bit `j` inverted. -/
def flipByte (j : Nat) (b : Byte) : Byte := ⟨(b.val ^^^ 2 ^ j) % 256, Nat.mod_lt _ (by decide)⟩

/-- The byte sequence with bit `p % 8` of byte `p / 8` inverted. -/
def flipBit (bs : List Byte) (p : Nat) : List Byte :=
  bs.modify (flipByte (p % 8)) (p / 8)

/-- The inner loop of `CalculateHeaderChecksum` run on a byte value given as a number. -/
def checksumBits8 (result Data : Nat) : Nat := (checksumBitStep^[8] (result, Data)).1

/-! ## Sample inputs -/

/-- The nine ASCII bytes of `123456789`, the check string of the CRC catalogue. -/
def checkString : List Byte := [0x31, 0x32, 0x33, 0x34, 0x35, 0x36, 0x37, 0x38, 0x39]

/-- A 24-byte V2 header: signature `0x5A`, checksum byte `0x9F`, block type 1, hardware
revision 2, version 1.2.3, CRC `0xCBF43926`, length 9, unknown 0, device type 4. -/
def sampleHeaderV2 : List Byte :=
  [0x5A, 0, 0, 0, 0x9F, 1, 2, 0, 3, 0, 2, 1, 0x26, 0x39, 0xF4, 0xCB, 9, 0, 0, 0, 0, 0, 4, 0]

/-- The header `sampleHeaderV2` with other signature and checksum bytes. -/
def sampleHeaderV2Alt : List Byte :=
  [0xFF, 0xEE, 0xDD, 0xCC, 0x77, 1, 2, 0, 3, 0, 2, 1, 0x26, 0x39, 0xF4, 0xCB, 9, 0, 0, 0, 0, 0,
    4, 0]

/-- A 20-byte V1 header: signature `0xAA55`, block type 1, length 9, CRC `0xCBF43926`,
version 1.2.3. -/
def sampleHeaderV1 : List Byte :=
  [0x55, 0xAA, 1, 0, 0, 0, 0, 0, 9, 0, 0, 0, 0x26, 0x39, 0xF4, 0xCB, 3, 0, 2, 1]

/-! ## Stream operations -/

/-- `fread(buf, 1, n, file)`: the bytes read (at most `n`, fewer at the end of the file)
and the stream with the cursor after them. -/
def fread (n : Nat) (file : FILE) : List Byte × FILE :=
  let buf := (file.data.drop file.pos).take n
  (buf, { file with pos := file.pos + buf.length })

/-- `fseek(file, offset, SEEK_SET)`. -/
def fseek (file : FILE) (offset : Nat) : FILE := { file with pos := offset }

/-- `fwrite(buf, |buf|, 1, file)` on a stream opened `r+b`: the bytes replace the file
content at the cursor (a gap past the end is filled with zero bytes), and the cursor
moves past them. -/
def fwrite (buf : List Byte) (file : FILE) : FILE :=
  { data := file.data.take file.pos ++ List.replicate (file.pos - file.data.length) 0 ++
      buf ++ file.data.drop (file.pos + buf.length),
    pos := file.pos + buf.length }

/-! ## Reports (what the `printf` calls show) -/

/-- One message group written to standard output. -/
inductive Report where
  /-- Line 123: bad firmware block, block header incomplete. -/
  | incompleteHeader (HeaderOffset : Nat)
  /-- Lines 129 and 183: bad firmware block with its header signature. -/
  | badSignature (HeaderOffset Signature : Nat)
  /-- Lines 142-156: a V1 block: offset, header as read, block type tag, observed data
  length, observed CRC-32, printed version and data start offset. -/
  | blockV1 (HeaderOffset : Nat) (Header : FirmwareBlockHeaderV1) (BlockType : String)
      (ActualLength ActualDataCRC32 : Nat) (version : Nat × Nat × Nat) (dataStart : Nat)
  /-- Lines 189-228: a V2 block: offset, header as read, recomputed header checksum, block
  type and device type tags, observed data length, observed CRC-32, printed version and
  data start offset. -/
  | blockV2 (HeaderOffset : Nat) (Header : FirmwareBlockHeaderV2) (HeaderChecksum : Nat)
      (BlockType DeviceType : String) (ActualLength ActualDataCRC32 : Nat)
      (version : Nat × Nat × Nat) (dataStart : Nat)
  /-- Line 111: block header errors fixed. -/
  | headerFixed
  /-- Line 282: error reading firmware block header. -/
  | readError
  /-- Line 295: unknown file signature. -/
  | unknownSignature (Signature : Nat)
deriving DecidableEq, Repr

/-- The three numbers printed by `printFirmwareVersion`:
`(v >> 24) & 0xFF`, `(v >> 16) & 0xFF`, `v & 0xFFFF`. -/
def printFirmwareVersion (FirmwareVersion : Nat) : Nat × Nat × Nat :=
  ((FirmwareVersion >>> 24) &&& 0xFF, (FirmwareVersion >>> 16) &&& 0xFF,
    FirmwareVersion &&& 0xFFFF)

/-! ## Repair writer (fwinfo.cpp lines 102-112) -/

/-- `RewriteFirmwareBlockHeader(fwFile, FirmwareBlockHeader, HeaderOffset)`, where
`FirmwareBlockHeader` is the memory of the header: the cursor is saved, the first
`sizeof(FirmwareBlockHeaderV1)` = 20 bytes of the header are written at `HeaderOffset`,
the cursor is restored and the success message is printed. -/
def RewriteFirmwareBlockHeader (fwFile : FILE) (FirmwareBlockHeader : List Byte)
    (HeaderOffset : Nat) : FILE × List Report :=
  let CurrentPos := fwFile.pos
  let fwFile := fseek fwFile HeaderOffset
  let fwFile := fwrite (FirmwareBlockHeader.take 20) fwFile
  let fwFile := fseek fwFile CurrentPos
  (fwFile, [Report.headerFixed])

/-! ## Block walker (fwinfo.cpp lines 114-241) -/

/-- The `switch` on `BlockType` of `ProcessFirmwareBlockV1`: the tag printed. -/
def blockTypeTagV1 (BlockType : Nat) : String :=
  if BlockType = 1 then " (CPU)" else if BlockType = 2 then " (BLE)" else ""

/-- The `switch` on `BlockType` of `ProcessFirmwareBlockV2`: the tag printed. -/
def blockTypeTagV2 (BlockType : Nat) : String :=
  if BlockType = 0 then " (CPU)"
  else if BlockType = 1 then " (BLE)"
  else if BlockType = 2 then " (Ext. ROM)" else ""

/-- The `switch` on `DeviceType` of `ProcessFirmwareBlockV2`: the tag printed. -/
def deviceTypeTag (DeviceType : Nat) : String :=
  if DeviceType = 4 then " (MJDJJ02FY)" else if DeviceType = 5 then " (MJDJJ03FY)" else ""

/-- `ProcessFirmwareBlockV1(fwFile)` with the globals `CRC32Tbl` and `FixErrors` passed
in: the returned flag (nonzero means "go on"), the stream afterwards and the output. -/
def ProcessFirmwareBlockV1 (CRC32Tbl : List Nat) (FixErrors : Bool) (fwFile : FILE) :
    Bool × FILE × List Report :=
  let HeaderOffset := fwFile.pos
  let rd := fread 20 fwFile
  let HeaderLength := rd.1.length
  let fwFile := rd.2
  if HeaderLength = 0 then (false, fwFile, [])
  else if HeaderLength ≠ 20 then (false, fwFile, [Report.incompleteHeader HeaderOffset])
  else
    let FirmwareBlockHeader := decodeV1 rd.1
    if FirmwareBlockHeader.Signature ≠ FirmwareBlockHeaderV1Signature then
      (false, fwFile, [Report.badSignature HeaderOffset FirmwareBlockHeader.Signature])
    else
      let BlockType := blockTypeTagV1 FirmwareBlockHeader.BlockType
      let OriginalDataLength := FirmwareBlockHeader.DataLength
      let crc := CalculateBlockCRC32 CRC32Tbl fwFile FirmwareBlockHeader.DataLength
      let ActualDataCRC32 := crc.1
      let report := Report.blockV1 HeaderOffset FirmwareBlockHeader BlockType crc.2.1
        ActualDataCRC32 (printFirmwareVersion FirmwareBlockHeader.FirmwareVersion)
        (HeaderOffset + 20)
      let FirmwareBlockHeader := { FirmwareBlockHeader with DataLength := crc.2.1 }
      let fwFile := crc.2.2
      let fix :=
        if FixErrors && (OriginalDataLength != FirmwareBlockHeader.DataLength
            || ActualDataCRC32 != FirmwareBlockHeader.DataCRC32) then
          RewriteFirmwareBlockHeader fwFile
            (encodeV1 { FirmwareBlockHeader with DataCRC32 := ActualDataCRC32 }) HeaderOffset
        else (fwFile, [])
      (OriginalDataLength == FirmwareBlockHeader.DataLength, fix.1, report :: fix.2)

/-- `ProcessFirmwareBlockV2(fwFile)` with the globals `CRC32Tbl` and `FixErrors` passed
in. -/
def ProcessFirmwareBlockV2 (CRC32Tbl : List Nat) (FixErrors : Bool) (fwFile : FILE) :
    Bool × FILE × List Report :=
  let HeaderOffset := fwFile.pos
  let rd := fread 24 fwFile
  let HeaderLength := rd.1.length
  let fwFile := rd.2
  if HeaderLength = 0 then (false, fwFile, [])
  else if HeaderLength ≠ 24 then (false, fwFile, [Report.incompleteHeader HeaderOffset])
  else
    let FirmwareBlockHeader := decodeV2 rd.1
    if FirmwareBlockHeader.Signature ≠ FirmwareBlockHeaderV2Signature then
      (false, fwFile, [Report.badSignature HeaderOffset FirmwareBlockHeader.Signature])
    else
      let HeaderChecksum := CalculateHeaderChecksum FirmwareBlockHeader
      let BlockType := blockTypeTagV2 FirmwareBlockHeader.BlockType
      let OriginalDataLength := FirmwareBlockHeader.DataLength
      let crc := CalculateBlockCRC32 CRC32Tbl fwFile FirmwareBlockHeader.DataLength
      let ActualDataCRC32 := crc.1
      let DeviceType := deviceTypeTag FirmwareBlockHeader.DeviceType
      let report := Report.blockV2 HeaderOffset FirmwareBlockHeader HeaderChecksum BlockType
        DeviceType crc.2.1 ActualDataCRC32
        (printFirmwareVersion FirmwareBlockHeader.FirmwareVersion) (HeaderOffset + 24)
      let FirmwareBlockHeader := { FirmwareBlockHeader with DataLength := crc.2.1 }
      let fwFile := crc.2.2
      let fix :=
        if FixErrors && (OriginalDataLength != FirmwareBlockHeader.DataLength
            || ActualDataCRC32 != FirmwareBlockHeader.DataCRC32
            || HeaderChecksum != FirmwareBlockHeader.HeaderChecksum) then
          let FirmwareBlockHeader := { FirmwareBlockHeader with DataCRC32 := ActualDataCRC32 }
          let FirmwareBlockHeader := { FirmwareBlockHeader with
            HeaderChecksum := CalculateHeaderChecksum FirmwareBlockHeader % 256 }
          RewriteFirmwareBlockHeader fwFile (encodeV2 FirmwareBlockHeader) HeaderOffset
        else (fwFile, [])
      (OriginalDataLength == FirmwareBlockHeader.DataLength, fix.1, report :: fix.2)

/-! ## Scan loop and `main` (fwinfo.cpp lines 276-300) -/

/-- The loop `while (Process(fwFile)) {}`, unrolled at most `fuel` times; `none` when the
loop has not ended by then. The result is the stream at the end and the whole output. -/
def scanLoop (Process : FILE → Bool × FILE × List Report) :
    Nat → FILE → Option (FILE × List Report)
  | 0, _ => none
  | fuel + 1, fwFile =>
    let r := Process fwFile
    if r.1 then
      match scanLoop Process fuel r.2.1 with
      | some s => some (s.1, r.2.2 ++ s.2)
      | none => none
    else some (r.2.1, r.2.2)

/-- The header layout a scan runs with. -/
inductive HeaderVersion where
  | V1
  | V2
deriving DecidableEq, Repr

/-- What a run of the program leaves behind: the exit code, the branch of the signature
test that was taken (`none` when no block scan was started), the content of the file,
the cursor and the output. -/
structure RunResult where
  exitCode : Nat
  mode : Option HeaderVersion
  data : List Byte
  pos : Nat
  out : List Report
deriving DecidableEq, Repr

/-- The part of `main` that follows a successful `fopen` (lines 276-300), on a file
with content `data`; `FixErrors` is the flag set by the command line. The two `while`
loops are unrolled at most `fuel` times, and the result is `none` when that is not
enough. -/
def mainOpened (fuel : Nat) (FixErrors : Bool) (data : List Byte) : Option RunResult :=
  let fwFile : FILE := { data := data, pos := 0 }
  let rd := fread 24 fwFile
  if rd.1.length ≠ 24 then
    some { exitCode := 1, mode := none, data := rd.2.data, pos := rd.2.pos,
           out := [Report.readError] }
  else
    let FirstBlockHeader := rd.1
    let fwFile := fseek rd.2 0
    let CRC32Tbl := InitCRC32Table
    if (decodeV2 FirstBlockHeader).Signature = FirmwareBlockHeaderV2Signature then
      match scanLoop (ProcessFirmwareBlockV2 CRC32Tbl FixErrors) fuel fwFile with
      | some s => some { exitCode := 0, mode := some HeaderVersion.V2, data := s.1.data,
                         pos := s.1.pos, out := s.2 }
      | none => none
    else if (decodeV1 FirstBlockHeader).Signature = FirmwareBlockHeaderV1Signature then
      match scanLoop (ProcessFirmwareBlockV1 CRC32Tbl FixErrors) fuel fwFile with
      | some s => some { exitCode := 0, mode := some HeaderVersion.V1, data := s.1.data,
                         pos := s.1.pos, out := s.2 }
      | none => none
    else
      some { exitCode := 1, mode := none, data := fwFile.data, pos := fwFile.pos,
             out := [Report.unknownSignature (decodeV2 FirstBlockHeader).Signature] }

/-! ## Reading the output -/

/-- The offset of a block report; `none` for the other messages. -/
def Report.blockOffset : Report → Option Nat
  | Report.blockV1 HeaderOffset _ _ _ _ _ _ => some HeaderOffset
  | Report.blockV2 HeaderOffset _ _ _ _ _ _ _ _ => some HeaderOffset
  | _ => none

/-- The offsets of the blocks reported, in order. -/
def blockOffsets (out : List Report) : List Nat := out.filterMap Report.blockOffset

/-- The messages after which a scan stops with an error: an incomplete header, a bad
block signature, or a block report whose observed data length is not the declared one. -/
def Report.stopsOnError : Report → Bool
  | Report.incompleteHeader _ => true
  | Report.badSignature _ _ => true
  | Report.blockV1 _ Header _ ActualLength _ _ _ => Header.DataLength != ActualLength
  | Report.blockV2 _ Header _ _ _ ActualLength _ _ _ => Header.DataLength != ActualLength
  | _ => false

/-- A block report without integrity mismatch: observed length and CRC-32 equal the
declared ones and, for V2, the recomputed header checksum equals the stored one. Other
messages carry no comparison. -/
def Report.noMismatch : Report → Bool
  | Report.blockV1 _ Header _ ActualLength ActualDataCRC32 _ _ =>
    Header.DataLength == ActualLength && ActualDataCRC32 == Header.DataCRC32
  | Report.blockV2 _ Header HeaderChecksum _ _ ActualLength ActualDataCRC32 _ _ =>
    Header.DataLength == ActualLength && ActualDataCRC32 == Header.DataCRC32 &&
      HeaderChecksum == Header.HeaderChecksum
  | _ => true

/-- What the proofs need to know about one call of a block processing function with
headers of `hs` bytes: the file keeps its length, a call that asks to go on has moved the
cursor by at least `hs` and not past the end, the bytes before the cursor are never
touched, and without the message of the repair writer the file is unchanged. -/
structure StepFrame (hs : Nat) (Process : FILE → Bool × FILE × List Report) : Prop where
  length_eq : ∀ f, (Process f).2.1.data.length = f.data.length
  advance : ∀ f, (Process f).1 = true →
    f.pos + hs ≤ (Process f).2.1.pos ∧ (Process f).2.1.pos ≤ f.data.length
  prefix_eq : ∀ f, (Process f).2.1.data.take f.pos = f.data.take f.pos
  unchanged : ∀ f, Report.headerFixed ∉ (Process f).2.2 → (Process f).2.1.data = f.data

/-! ## Vocabulary for the statements about one block -/

/-- The V1 header under the cursor. -/
def headerV1At (f : FILE) : FirmwareBlockHeaderV1 := decodeV1 (f.rest.take 20)

/-- The V2 header under the cursor. -/
def headerV2At (f : FILE) : FirmwareBlockHeaderV2 := decodeV2 (f.rest.take 24)

/-- The number of payload bytes found for a block whose header of `hs` bytes starts at the
cursor and declares `n` bytes. -/
def observedLength (hs : Nat) (f : FILE) (n : Nat) : Nat :=
  min n (f.data.length - (f.pos + hs))

/-- The CRC-32 computed with table `tbl` over the payload bytes found for such a block. -/
def observedCRC (tbl : List Nat) (hs : Nat) (f : FILE) (n : Nat) : Nat :=
  not32 (((f.data.drop (f.pos + hs)).take n).foldl (crcTblByte tbl) 0xFFFFFFFF)

/-- The condition under which `ProcessFirmwareBlockV1` calls the repair writer. -/
def repairsV1 (tbl : List Nat) (fix : Bool) (f : FILE) : Bool :=
  fix && ((headerV1At f).DataLength != observedLength 20 f (headerV1At f).DataLength
    || observedCRC tbl 20 f (headerV1At f).DataLength != (headerV1At f).DataCRC32)

/-- The V1 header handed to the repair writer. -/
def repairedV1 (tbl : List Nat) (f : FILE) : FirmwareBlockHeaderV1 :=
  { headerV1At f with
    DataLength := observedLength 20 f (headerV1At f).DataLength,
    DataCRC32 := observedCRC tbl 20 f (headerV1At f).DataLength }

/-- The message of `ProcessFirmwareBlockV1` for the block under the cursor. -/
def reportV1 (tbl : List Nat) (f : FILE) : Report :=
  Report.blockV1 f.pos (headerV1At f) (blockTypeTagV1 (headerV1At f).BlockType)
    (observedLength 20 f (headerV1At f).DataLength)
    (observedCRC tbl 20 f (headerV1At f).DataLength)
    (printFirmwareVersion (headerV1At f).FirmwareVersion) (f.pos + 20)

/-- The condition under which `ProcessFirmwareBlockV2` calls the repair writer. -/
def repairsV2 (tbl : List Nat) (fix : Bool) (f : FILE) : Bool :=
  fix && ((headerV2At f).DataLength != observedLength 24 f (headerV2At f).DataLength
    || observedCRC tbl 24 f (headerV2At f).DataLength != (headerV2At f).DataCRC32
    || CalculateHeaderChecksum (headerV2At f) != (headerV2At f).HeaderChecksum)

/-- The V2 header handed to the repair writer. -/
def repairedV2 (tbl : List Nat) (f : FILE) : FirmwareBlockHeaderV2 :=
  { headerV2At f with
    DataLength := observedLength 24 f (headerV2At f).DataLength,
    DataCRC32 := observedCRC tbl 24 f (headerV2At f).DataLength,
    HeaderChecksum := CalculateHeaderChecksum
      { headerV2At f with
        DataLength := observedLength 24 f (headerV2At f).DataLength,
        DataCRC32 := observedCRC tbl 24 f (headerV2At f).DataLength } % 256 }

/-- The message of `ProcessFirmwareBlockV2` for the block under the cursor. -/
def reportV2 (tbl : List Nat) (f : FILE) : Report :=
  Report.blockV2 f.pos (headerV2At f) (CalculateHeaderChecksum (headerV2At f))
    (blockTypeTagV2 (headerV2At f).BlockType) (deviceTypeTag (headerV2At f).DeviceType)
    (observedLength 24 f (headerV2At f).DataLength)
    (observedCRC tbl 24 f (headerV2At f).DataLength)
    (printFirmwareVersion (headerV2At f).FirmwareVersion) (f.pos + 24)

/-- A V2 file of 33 bytes: one block whose header declares 19 payload bytes (header
checksum `0x67` and CRC-32 `0xCBF43926` are those of the header and of the 9 bytes
present) followed by only 9 payload bytes, 10 fewer than declared. -/
def truncatedV2File : List Byte :=
  [0x5A, 0, 0, 0, 0x67, 1, 2, 0, 3, 0, 2, 1, 0x26, 0x39, 0xF4, 0xCB, 19, 0, 0, 0, 0, 0, 4, 0] ++
    checkString

/-- A V1 file of 29 bytes: the header `sampleHeaderV1` and its 9 payload bytes. -/
def sampleFileV1 : List Byte := sampleHeaderV1 ++ checkString

/-- A V2 file of 33 bytes: the header `sampleHeaderV2` and its 9 payload bytes. -/
def sampleFileV2 : List Byte := sampleHeaderV2 ++ checkString

/-! ## Files built from blocks -/

/-- A block as a pair of its 20 header bytes and its payload bytes, well formed for the
V1 layout: the header has the V1 signature and declares exactly the payload length. -/
def wellFormedBlockV1 (b : List Byte × List Byte) : Prop :=
  b.1.length = 20 ∧ (decodeV1 b.1).Signature = FirmwareBlockHeaderV1Signature ∧
    b.2.length = (decodeV1 b.1).DataLength

/-- The file made of the given blocks, one after the other. -/
def concatBlocks : List (List Byte × List Byte) → List Byte
  | [] => []
  | b :: bs => b.1 ++ b.2 ++ concatBlocks bs

/-- The offsets at which the blocks of `concatBlocks` start when the first one starts at
`o`: each is the total size of the blocks before it. -/
def blockStarts : Nat → List (List Byte × List Byte) → List Nat
  | _, [] => []
  | o, b :: bs => o :: blockStarts (o + (b.1.length + b.2.length)) bs

/-- A V1 header of 20 bytes with the V1 signature that declares no payload. -/
def emptyBlockHeaderV1 : List Byte :=
  [0x55, 0xAA, 1, 0, 0, 0, 0, 0, 0, 0, 0, 0, 0, 0, 0, 0, 3, 0, 2, 1]

/-- A V1 file of 29 bytes: the block of `sampleFileV1` with a wrong declared CRC-32
(`0xDEADBEEF` instead of `0xCBF43926`). -/
def wrongCrcFileV1 : List Byte :=
  [0x55, 0xAA, 1, 0, 0, 0, 0, 0, 9, 0, 0, 0, 0xEF, 0xBE, 0xAD, 0xDE, 3, 0, 2, 1] ++ checkString

/-- The fields of a V1 header fit their C types. -/
def FirmwareBlockHeaderV1.inRange (h : FirmwareBlockHeaderV1) : Prop :=
  h.Signature < 2 ^ 16 ∧ h.BlockType < 2 ^ 8 ∧ h.Unknown3 < 2 ^ 8 ∧ h.Unknown4 < 2 ^ 32 ∧
    h.DataLength < 2 ^ 32 ∧ h.DataCRC32 < 2 ^ 32 ∧ h.FirmwareVersion < 2 ^ 32

/-- The fields of a V2 header fit their C types. -/
def FirmwareBlockHeaderV2.inRange (h : FirmwareBlockHeaderV2) : Prop :=
  h.Signature < 2 ^ 32 ∧ h.HeaderChecksum < 2 ^ 8 ∧ h.BlockType < 2 ^ 8 ∧
    h.HardwareRevision < 2 ^ 16 ∧ h.FirmwareVersion < 2 ^ 32 ∧ h.DataCRC32 < 2 ^ 32 ∧
    h.DataLength < 2 ^ 32 ∧ h.Unknown0x14 < 2 ^ 16 ∧ h.DeviceType < 2 ^ 16

/-- A V1 file of 29 bytes: one block whose header declares 19 payload bytes, followed by
only 9 payload bytes. -/
def truncatedV1File : List Byte :=
  [0x55, 0xAA, 1, 0, 0, 0, 0, 0, 19, 0, 0, 0, 0x26, 0x39, 0xF4, 0xCB, 3, 0, 2, 1] ++
    checkString

/-- What the proof of idempotence needs to know about one repair-mode call of a block
processing function: at the end of the file it does nothing; otherwise either it stops
the scan without touching the file and without showing a mismatch, or it has handled a
block that ends at the new cursor `q` (the end of the file when the call stops the
scan), and a call at the same offset on any file of the same length that agrees with the
file it left up to `q` goes on to `q` without writing and without showing a mismatch. -/
structure StepSettles (Process : FILE → Bool × FILE × List Report) : Prop where
  at_end : ∀ f, f.data.length ≤ f.pos → Process f = (false, f, [])
  step : ∀ f,
    ((Process f).1 = false ∧ (Process f).2.1.data = f.data ∧
      (∀ e ∈ (Process f).2.2, e.noMismatch = true) ∧
      Report.headerFixed ∉ (Process f).2.2) ∨
    (f.pos < (Process f).2.1.pos ∧ (Process f).2.1.pos ≤ f.data.length ∧
      ((Process f).1 = false → (Process f).2.1.pos = f.data.length) ∧
      ∀ D : List Byte, D.length = f.data.length →
        D.take (Process f).2.1.pos = (Process f).2.1.data.take (Process f).2.1.pos →
        ∃ out, Process { data := D, pos := f.pos } =
            (true, { data := D, pos := (Process f).2.1.pos }, out) ∧
          (∀ e ∈ out, e.noMismatch = true) ∧ Report.headerFixed ∉ out)

/-- The loop of `CalculateBlockCRC32` (the function `crcLoop`) together with a count of
the times its body is entered. -/
def crcLoopCount (CRC32Tbl : List Nat) :
    Nat → Nat → Nat → Nat → FILE → (Nat × Nat × FILE) × Nat
  | 0, _, CRC32, DataLength, file => ((CRC32, DataLength, file), 0)
  | k + 1, i, CRC32, DataLength, file =>
    match fgetc file with
    | (none, file) => ((CRC32, i, file), 1)
    | (some nextByte, file) =>
      let r := crcLoopCount CRC32Tbl k (i + 1) (crcTblByte CRC32Tbl CRC32 nextByte)
        DataLength file
      (r.1, r.2 + 1)

/-- What the bound on the number of blocks needs to know about one call of a block
processing function with headers of `hs` bytes: it reports at most one block, and only
when a whole header lies between the cursor and the end of the file. -/
structure StepCount (hs : Nat) (Process : FILE → Bool × FILE × List Report) : Prop where
  at_most_one : ∀ f, (blockOffsets (Process f).2.2).length ≤ 1
  header_read : ∀ f, blockOffsets (Process f).2.2 ≠ [] → f.pos + hs ≤ f.data.length

/-! ## Command line and `fopen` (fwinfo.cpp lines 243-274) -/

/-- The C string held in a buffer: the bytes before the first zero byte. -/
def cstring (mem : List Byte) : List Byte := mem.takeWhile (fun b => b ≠ 0)

/-- The memory of the argument `Flag` after `*((short*)Flag) &= 0xDFFD;` on a
little-endian machine. The memory is the bytes of the string, its terminating zero byte
and the byte after it (which an empty string makes the statement touch; it is taken as 0
and has no effect on the string). -/
def maskFlag (Flag : List Byte) : List Byte :=
  let mem := Flag ++ [0, 0]
  bytes16 (u16At mem 0 &&& 0xDFFD) ++ mem.drop 2

/-- The test `!strcmp(Flag, "-F")` made after the mask was applied. -/
def flagIsF (Flag : List Byte) : Bool := cstring (maskFlag Flag) == [0x2D, 0x46]

/-- How a run of the program ends. -/
inductive Outcome where
  /-- Lines 256-265: the usage text is printed, after the words "bad command line" when
  `argc > 1`, and `main` returns 1 (no file was opened). -/
  | usage (badCommandLine : Bool)
  /-- Lines 271-274: `fopen(fwFileName, mode)` failed and `main` returns 1. -/
  | openError (fwFileName : List Byte) (mode : String)
  /-- Lines 276-300: the file was opened with `mode` and `main` went on as `mainOpened`. -/
  | scanned (fwFileName : List Byte) (mode : String) (run : RunResult)
deriving DecidableEq, Repr

/-- The value returned by `main`. -/
def Outcome.exitCode : Outcome → Nat
  | Outcome.usage _ => 1
  | Outcome.openError _ _ => 1
  | Outcome.scanned _ _ run => run.exitCode

/-- The `fopen` call made by the run: file name and mode; `none` when there was none. -/
def Outcome.opened : Outcome → Option (List Byte × String)
  | Outcome.usage _ => none
  | Outcome.openError fwFileName mode => some (fwFileName, mode)
  | Outcome.scanned fwFileName mode _ => some (fwFileName, mode)

/-- The function `main(argc, arg)` with `argc = arg.length`; the arguments are the bytes
of the C strings, `fopen name mode` gives the content of the file when it can be opened
with that mode, and the scan loops are unrolled at most `fuel` times (`none` when that is
not enough). The global `FixErrors` starts as `false`. -/
def main (fuel : Nat) (fopen : List Byte → String → Option (List Byte))
    (arg : List (List Byte)) : Option Outcome :=
  let argc := arg.length
  let usage : Option Outcome := some (Outcome.usage (decide (argc > 1)))
  let run (FixErrors : Bool) (mode : String) : Option Outcome :=
    let fwFileName := arg.getD 1 []
    match fopen fwFileName mode with
    | none => some (Outcome.openError fwFileName mode)
    | some data => (mainOpened fuel FixErrors data).map (Outcome.scanned fwFileName mode)
  if argc = 2 then run false "rb"
  else if argc = 3 then
    if flagIsF (arg.getD 2 []) then run true "r+b" else usage
  else usage

/-- The four arguments that switch repair on: `-F`, `-f`, `/F` and `/f`. -/
def repairFlags : List (List Byte) :=
  [[0x2D, 0x46], [0x2D, 0x66], [0x2F, 0x46], [0x2F, 0x66]]

/-! # Properties -/

/-! ## Properties of the CRC-32 engine -/

theorem fgetc_of_rest_nil (file : FILE) (h : file.rest = []) : fgetc file = (none, file) := by
  have hlen : file.data.length ≤ file.pos := by
    simpa [FILE.rest, List.drop_eq_nil_iff] using h
  simp [fgetc, List.getElem?_eq_none hlen]

theorem fgetc_of_rest_cons (file : FILE) (b : Byte) (t : List Byte) (h : file.rest = b :: t) :
    fgetc file = (some b, { file with pos := file.pos + 1 }) ∧
      FILE.rest { file with pos := file.pos + 1 } = t := by
  have hlt : file.pos < file.data.length := by
    by_contra hc
    have : file.rest = [] := by
      simp [FILE.rest, List.drop_eq_nil_iff]; omega
    simp [this] at h
  have hd : file.data.drop file.pos = file.data[file.pos] :: file.data.drop (file.pos + 1) :=
    List.drop_eq_getElem_cons hlt
  have h2 : file.data[file.pos] :: file.data.drop (file.pos + 1) = b :: t := by
    rw [← hd]; exact h
  injection h2 with hb ht
  refine ⟨?_, ht⟩
  simp [fgetc, List.getElem?_eq_getElem hlt, hb]

/-- What the loop of `CalculateBlockCRC32` computes: the CRC register folded over the
bytes it could read, the reported length, and the cursor. -/
theorem crcLoop_eq (tbl : List Nat) (k : Nat) :
    ∀ (i crc dl : Nat) (file : FILE),
      crcLoop tbl k i crc dl file =
        ((file.rest.take k).foldl (crcTblByte tbl) crc,
         if k ≤ file.rest.length then dl else i + file.rest.length,
         { file with pos := file.pos + min k file.rest.length }) := by
  induction k with
  | zero => intro i crc dl file; simp [crcLoop]
  | succ k ih =>
    intro i crc dl file
    cases hr : file.rest with
    | nil =>
      simp [crcLoop, fgetc_of_rest_nil file hr]
    | cons b t =>
      obtain ⟨hg, hrest⟩ := fgetc_of_rest_cons file b t hr
      simp only [crcLoop, hg]
      rw [ih]
      simp only [hrest, List.take_succ_cons, List.foldl_cons, List.length_cons]
      refine Prod.ext ?_ (Prod.ext ?_ ?_)
      · rfl
      · simp only [Nat.add_le_add_iff_right]
        split <;> simp only [Nat.add_assoc, Nat.add_comm 1]
      · simp only [FILE.mk.injEq, true_and]
        omega

theorem FILE.rest_length (file : FILE) : file.rest.length = file.data.length - file.pos := by
  simp [FILE.rest]

/-! ### The table-driven update is the bit-serial update -/

theorem crcTableStep_eq (x : Nat) : crcTableStep x = crc32BitRef x := by
  unfold crcTableStep crc32BitRef
  rw [Nat.and_one_is_mod, Nat.shiftRight_one]
  rcases Nat.mod_two_eq_zero_or_one x with h | h <;> simp [h]

theorem crc32BitRef_xor (a b : Nat) :
    crc32BitRef (a ^^^ b) = crc32BitRef a ^^^ crc32BitRef b := by
  unfold crc32BitRef
  rw [Nat.xor_div_two, Nat.xor_mod_two_eq]
  rcases Nat.mod_two_eq_zero_or_one a with ha | ha <;>
  rcases Nat.mod_two_eq_zero_or_one b with hb | hb <;>
  · have hab : (a + b) % 2 = (a % 2 + b % 2) % 2 := Nat.add_mod a b 2
    rw [hab, ha, hb]
    apply Nat.eq_of_testBit_eq
    intro i
    simp only [Nat.testBit_xor, Nat.reduceAdd, Nat.reduceMod, if_true, if_false,
      Nat.zero_ne_one, Nat.xor_zero] <;>
    cases (a / 2).testBit i <;> cases (b / 2).testBit i <;>
      cases (3988292384 : Nat).testBit i <;> rfl

theorem crc32BitRef_iter_xor (k : Nat) :
    ∀ a b : Nat, crc32BitRef^[k] (a ^^^ b) = crc32BitRef^[k] a ^^^ crc32BitRef^[k] b := by
  induction k with
  | zero => intro a b; rfl
  | succ k ih =>
    intro a b
    simp only [Function.iterate_succ, Function.comp_apply]
    rw [crc32BitRef_xor, ih]

theorem xor_right_comm3 (a b c : Nat) : (a ^^^ b) ^^^ c = (a ^^^ c) ^^^ b := by
  apply Nat.eq_of_testBit_eq
  intro i
  simp only [Nat.testBit_xor]
  cases a.testBit i <;> cases b.testBit i <;> cases c.testBit i <;> rfl

theorem crc32BitRef_iter_split (k : Nat) :
    ∀ x : Nat, crc32BitRef^[k] x = crc32BitRef^[k] (x % 2 ^ k) ^^^ x / 2 ^ k := by
  induction k with
  | zero => intro x; simp [Nat.mod_one]
  | succ k ih =>
    intro x
    have h1 : x % 2 ^ (k + 1) % 2 = x % 2 :=
      Nat.mod_mod_of_dvd x (Dvd.intro_left (2 ^ k) rfl)
    have h2 : x % 2 ^ (k + 1) / 2 = x / 2 % 2 ^ k := by
      rw [Nat.pow_succ, Nat.mod_mul_left_div_self]
    have h3 : x / 2 / 2 ^ k = x / 2 ^ (k + 1) := by
      rw [Nat.div_div_eq_div_mul, Nat.pow_succ, Nat.mul_comm]
    simp only [Function.iterate_succ, Function.comp_apply]
    rw [show crc32BitRef (x % 2 ^ (k + 1)) =
          x / 2 % 2 ^ k ^^^ (if x % 2 = 1 then 0xEDB88320 else 0) by
        simp only [crc32BitRef, h1, h2],
      show crc32BitRef x = x / 2 ^^^ (if x % 2 = 1 then 0xEDB88320 else 0) from rfl,
      crc32BitRef_iter_xor, crc32BitRef_iter_xor, ih (x / 2), h3]
    exact xor_right_comm3 _ _ _

theorem xor_byte_div (crc : Nat) (b : Byte) : (crc ^^^ b.val) / 2 ^ 8 = crc / 2 ^ 8 := by
  apply Nat.eq_of_testBit_eq
  intro i
  rw [← Nat.shiftRight_eq_div_pow, ← Nat.shiftRight_eq_div_pow, Nat.testBit_shiftRight,
    Nat.testBit_shiftRight, Nat.testBit_xor]
  have hb : b.val.testBit (8 + i) = false := by
    apply Nat.testBit_lt_two_pow
    calc b.val < 2 ^ 8 := b.isLt
      _ ≤ 2 ^ (8 + i) := Nat.pow_le_pow_right (by decide) (by omega)
  simp [hb]

theorem InitCRC32Table_getD (j : Nat) (hj : j < 256) :
    InitCRC32Table.getD j 0 = crc32BitRef^[8] j := by
  have hf : crcTableStep = crc32BitRef := funext crcTableStep_eq
  unfold InitCRC32Table
  rw [hf, List.getD_eq_getElem _ _ (by simpa using hj)]
  simp

/-- With the table of `InitCRC32Table`, one step of the table-driven loop is one byte of
the bit-serial reference. -/
theorem crcTblByte_eq_ref (crc : Nat) (b : Byte) :
    crcTblByte InitCRC32Table crc b = crc32ByteRef crc b := by
  unfold crcTblByte crc32ByteRef
  have hand : (crc ^^^ b.val) &&& 0xFF = (crc ^^^ b.val) % 2 ^ 8 :=
    Nat.and_pow_two_sub_one_eq_mod _ 8
  rw [hand, InitCRC32Table_getD ((crc ^^^ b.val) % 2 ^ 8) (Nat.mod_lt _ (by decide)),
    Nat.shiftRight_eq_div_pow,
    crc32BitRef_iter_split 8 (crc ^^^ b.val), xor_byte_div]

theorem CalculateBlockCRC32_eq (tbl : List Nat) (file : FILE) (n : Nat) :
    CalculateBlockCRC32 tbl file n =
      (not32 ((file.rest.take n).foldl (crcTblByte tbl) 0xFFFFFFFF),
       if n ≤ file.rest.length then n else file.rest.length,
       { file with pos := file.pos + min n file.rest.length }) := by
  simp [CalculateBlockCRC32, crcLoop_eq]

theorem CalculateBlockCRC32_ref (file : FILE) (n : Nat) :
    (CalculateBlockCRC32 InitCRC32Table file n).1 = crc32Ref (file.rest.take n) := by
  rw [CalculateBlockCRC32_eq]
  have hf : crcTblByte InitCRC32Table = crc32ByteRef :=
    funext fun c => funext fun b => crcTblByte_eq_ref c b
  simp [crc32Ref, hf]

theorem byteAt_u16_0 (a b : Byte) : byteAt (a.val + 256 * b.val) 0 = a := by
  apply Fin.ext; simp only [byteAt]; omega
theorem byteAt_u16_1 (a b : Byte) : byteAt (a.val + 256 * b.val) 1 = b := by
  apply Fin.ext; simp only [byteAt]; omega
theorem byteAt_u8 (a : Byte) : byteAt a.val 0 = a := by
  apply Fin.ext; simp only [byteAt]; omega
theorem byteAt_u32_0 (a b c d : Byte) :
    byteAt (a.val + 256 * b.val + 65536 * c.val + 16777216 * d.val) 0 = a := by
  apply Fin.ext; simp only [byteAt]; omega
theorem byteAt_u32_1 (a b c d : Byte) :
    byteAt (a.val + 256 * b.val + 65536 * c.val + 16777216 * d.val) 1 = b := by
  apply Fin.ext; simp only [byteAt]; omega
theorem byteAt_u32_2 (a b c d : Byte) :
    byteAt (a.val + 256 * b.val + 65536 * c.val + 16777216 * d.val) 2 = c := by
  apply Fin.ext; simp only [byteAt]; omega
theorem byteAt_u32_3 (a b c d : Byte) :
    byteAt (a.val + 256 * b.val + 65536 * c.val + 16777216 * d.val) 3 = d := by
  apply Fin.ext; simp only [byteAt]; omega

theorem encodeV1_decodeV1 (bs : List Byte) (h : bs.length = 20) :
    encodeV1 (decodeV1 bs) = bs := by
  match bs, h with
  | [b0, b1, b2, b3, b4, b5, b6, b7, b8, b9, b10, b11, b12, b13, b14, b15, b16, b17, b18, b19], _ =>
    simp [encodeV1, decodeV1, bytes8, bytes16, bytes32, u8At, u16At, u32At, byteAt_u8,
      byteAt_u16_0, byteAt_u16_1, byteAt_u32_0, byteAt_u32_1, byteAt_u32_2, byteAt_u32_3]

theorem encodeV2_decodeV2 (bs : List Byte) (h : bs.length = 24) :
    encodeV2 (decodeV2 bs) = bs := by
  match bs, h with
  | [b0, b1, b2, b3, b4, b5, b6, b7, b8, b9, b10, b11, b12, b13, b14, b15, b16, b17, b18, b19,
      b20, b21, b22, b23], _ =>
    simp [encodeV2, decodeV2, bytes8, bytes16, bytes32, u8At, u16At, u32At, byteAt_u8,
      byteAt_u16_0, byteAt_u16_1, byteAt_u32_0, byteAt_u32_1, byteAt_u32_2, byteAt_u32_3]

/-! ## Properties of the header checksum -/

theorem checksumBitStep_iter_fst (n : Nat) :
    ∀ r d : Nat, (checksumBitStep^[n] (r, d)).1 = headerChecksumBits n r d := by
  induction n with
  | zero => intro r d; rfl
  | succ n ih =>
    intro r d
    simp only [Function.iterate_succ, Function.comp_apply, headerChecksumBits]
    have hs : checksumBitStep (r, d) =
        (if (r ^^^ d) % 2 = 1 then r / 2 ^^^ 0x8C else r / 2, d / 2) := by
      simp only [checksumBitStep, Nat.and_one_is_mod, Nat.shiftRight_one]
      rcases Nat.mod_two_eq_zero_or_one (r ^^^ d) with h | h <;> simp [h]
    rw [hs, ih]

theorem checksumByte_eq_bits (r : Nat) (b : Byte) :
    checksumByte r b = headerChecksumBits 8 r b.val :=
  checksumBitStep_iter_fst 8 r b.val

theorem CalculateHeaderChecksum_decodeV2 (bs : List Byte) (h : bs.length = 24) :
    CalculateHeaderChecksum (decodeV2 bs) = headerChecksumRef (bs.drop 5) := by
  unfold CalculateHeaderChecksum headerChecksumRef
  rw [encodeV2_decodeV2 bs h]
  have hf : checksumByte = fun result b => headerChecksumBits 8 result b.val :=
    funext fun r => funext fun b => checksumByte_eq_bits r b
  rw [hf]

/-- Componentwise xor of two `(result, Data)` pairs. -/
theorem checksumBitStep_xor (r1 d1 r2 d2 : Nat) :
    checksumBitStep (r1 ^^^ r2, d1 ^^^ d2) =
      ((checksumBitStep (r1, d1)).1 ^^^ (checksumBitStep (r2, d2)).1,
       (checksumBitStep (r1, d1)).2 ^^^ (checksumBitStep (r2, d2)).2) := by
  have hx : (r1 ^^^ r2 ^^^ (d1 ^^^ d2)) % 2 = ((r1 ^^^ d1) % 2 + (r2 ^^^ d2) % 2) % 2 := by
    have h1 := @Nat.xor_mod_two_eq (r1 ^^^ r2) (d1 ^^^ d2)
    have h2 := @Nat.xor_mod_two_eq r1 r2
    have h3 := @Nat.xor_mod_two_eq d1 d2
    have h4 := @Nat.xor_mod_two_eq r1 d1
    have h5 := @Nat.xor_mod_two_eq r2 d2
    omega
  simp only [checksumBitStep, Nat.and_one_is_mod, Nat.shiftRight_one, Nat.xor_div_two, hx]
  refine Prod.ext ?_ rfl
  rcases Nat.mod_two_eq_zero_or_one (r1 ^^^ d1) with h1 | h1 <;>
  rcases Nat.mod_two_eq_zero_or_one (r2 ^^^ d2) with h2 | h2 <;>
  · simp only [h1, h2]
    apply Nat.eq_of_testBit_eq
    intro i
    simp only [Nat.testBit_xor, Nat.reduceAdd, Nat.reduceMod, ne_eq, not_true_eq_false,
      not_false_eq_true, if_true, if_false, Nat.zero_ne_one, Nat.one_ne_zero] <;>
    cases (r1 / 2).testBit i <;> cases (r2 / 2).testBit i <;>
      cases (140 : Nat).testBit i <;> rfl

theorem checksumBitStep_iter_xor (n : Nat) :
    ∀ r1 d1 r2 d2 : Nat,
      checksumBitStep^[n] (r1 ^^^ r2, d1 ^^^ d2) =
        ((checksumBitStep^[n] (r1, d1)).1 ^^^ (checksumBitStep^[n] (r2, d2)).1,
         (checksumBitStep^[n] (r1, d1)).2 ^^^ (checksumBitStep^[n] (r2, d2)).2) := by
  induction n with
  | zero => intro r1 d1 r2 d2; rfl
  | succ n ih =>
    intro r1 d1 r2 d2
    simp only [Function.iterate_succ, Function.comp_apply]
    rw [checksumBitStep_xor, ih]

theorem checksumBits8_xor (r1 d1 r2 d2 : Nat) :
    checksumBits8 (r1 ^^^ r2) (d1 ^^^ d2) = checksumBits8 r1 d1 ^^^ checksumBits8 r2 d2 := by
  unfold checksumBits8
  rw [checksumBitStep_iter_xor]

theorem foldl_checksumByte_xor (t : List Byte) :
    ∀ x e : Nat,
      t.foldl checksumByte (x ^^^ e) =
        t.foldl checksumByte x ^^^ (fun c => checksumBits8 c 0)^[t.length] e := by
  induction t with
  | nil => intro x e; rfl
  | cons b t ih =>
    intro x e
    have hb : checksumByte (x ^^^ e) b = checksumByte x b ^^^ checksumBits8 e 0 := by
      have := checksumBits8_xor x b.val e 0
      rwa [Nat.xor_zero] at this
    simp only [List.foldl_cons, List.length_cons, Function.iterate_succ, Function.comp_apply]
    rw [hb, ih]

set_option maxRecDepth 100000 in
theorem checksumBits8_zero_state :
    ∀ e < 256, e ≠ 0 → checksumBits8 e 0 ≠ 0 ∧ checksumBits8 e 0 < 256 := by
  decide

theorem checksumBits8_unit_data :
    ∀ j < 8, checksumBits8 0 (2 ^ j) ≠ 0 ∧ checksumBits8 0 (2 ^ j) < 256 := by
  decide

theorem checksumBits8_iter_ne_zero (n : Nat) :
    ∀ e : Nat, e < 256 → e ≠ 0 →
      (fun c => checksumBits8 c 0)^[n] e ≠ 0 := by
  induction n with
  | zero => intro e _ h; exact h
  | succ n ih =>
    intro e hlt hne
    simp only [Function.iterate_succ, Function.comp_apply]
    exact ih _ (checksumBits8_zero_state e hlt hne).2 (checksumBits8_zero_state e hlt hne).1

theorem flipBit_cons_lt (b : Byte) (t : List Byte) (p : Nat) (hp : p < 8) :
    flipBit (b :: t) p = flipByte p b :: t := by
  simp [flipBit, Nat.div_eq_of_lt hp, Nat.mod_eq_of_lt hp]

theorem flipBit_cons_ge (b : Byte) (t : List Byte) (q : Nat) :
    flipBit (b :: t) (q + 8) = b :: flipBit t q := by
  simp [flipBit]

/-- Inverting one bit of the input changes the folded checksum by a nonzero difference. -/
theorem foldl_checksumByte_flipBit (l : List Byte) :
    ∀ (r p : Nat), p < 8 * l.length →
      ∃ D : Nat, D ≠ 0 ∧
        (flipBit l p).foldl checksumByte r = l.foldl checksumByte r ^^^ D := by
  induction l with
  | nil => intro r p hp; simp at hp
  | cons b t ih =>
    intro r p hp
    by_cases h8 : p < 8
    · rw [flipBit_cons_lt b t p h8]
      have hpow : 2 ^ p < 2 ^ 8 := Nat.pow_lt_pow_right (by decide) h8
      have hval : (b.val ^^^ 2 ^ p) % 256 = b.val ^^^ 2 ^ p :=
        Nat.mod_eq_of_lt (Nat.xor_lt_two_pow (n := 8) b.isLt hpow)
      have hb : checksumBits8 r (b.val ^^^ 2 ^ p) =
          checksumByte r b ^^^ checksumBits8 0 (2 ^ p) := by
        have := checksumBits8_xor r b.val 0 (2 ^ p)
        rwa [Nat.xor_zero] at this
      refine ⟨(fun c => checksumBits8 c 0)^[t.length] (checksumBits8 0 (2 ^ p)),
        checksumBits8_iter_ne_zero _ _ (checksumBits8_unit_data p h8).2
          (checksumBits8_unit_data p h8).1, ?_⟩
      simp only [List.foldl_cons]
      rw [← foldl_checksumByte_xor, ← hb]
      simp only [checksumByte, checksumBits8, flipByte, hval]
    · obtain ⟨q, rfl⟩ : ∃ q, p = q + 8 := ⟨p - 8, by omega⟩
      rw [flipBit_cons_ge]
      simp only [List.foldl_cons]
      exact ih _ q (by simp only [List.length_cons] at hp; omega)

theorem xor_ne_self (a D : Nat) (h : D ≠ 0) : a ^^^ D ≠ a := by
  intro hc
  apply h
  have : a ^^^ (a ^^^ D) = a ^^^ a := by rw [hc]
  rwa [← Nat.xor_assoc, Nat.xor_self, Nat.zero_xor] at this

theorem drop_modify_add {α : Type} (f : α → α) (k : Nat) :
    ∀ (l : List α) (n : Nat), (List.modify f (n + k) l).drop k = List.modify f n (l.drop k) := by
  induction k with
  | zero => intro l n; rfl
  | succ k ih =>
    intro l n
    cases l with
    | nil =>
      have hnil : ∀ m, List.modify f m ([] : List α) = [] := fun m => by cases m <;> rfl
      simp [hnil]
    | cons a t =>
      rw [← Nat.add_assoc, List.modify_succ_cons, List.drop_succ_cons, List.drop_succ_cons]
      exact ih t n

theorem flipBit_length (bs : List Byte) (p : Nat) : (flipBit bs p).length = bs.length := by
  simp [flipBit]

theorem flipBit_drop_five (bs : List Byte) (p : Nat) :
    (flipBit bs (40 + p)).drop 5 = flipBit (bs.drop 5) p := by
  have h1 : (40 + p) / 8 = p / 8 + 5 := by omega
  have h2 : (40 + p) % 8 = p % 8 := by omega
  unfold flipBit
  rw [h1, h2, drop_modify_add]

theorem CalculateHeaderChecksum_decodeV2_foldl (bs : List Byte) (h : bs.length = 24) :
    CalculateHeaderChecksum (decodeV2 bs) = (bs.drop 5).foldl checksumByte 0 := by
  unfold CalculateHeaderChecksum
  rw [encodeV2_decodeV2 bs h]

/-! ## The CRC-32 engine and the header codecs: main statements -/

/-- C1: with the table built by `InitCRC32Table`, `CalculateBlockCRC32` returns the
bit-serial reflected CRC-32 (initial value `0xFFFFFFFF`, polynomial `0xEDB88320`, least
significant bit first, final complement) of the first `min maxBytes |s|` bytes of the
byte sequence `s` under the cursor; and the check string `123456789` gives `0xCBF43926`. -/
theorem CalculateBlockCRC32_is_crc32 :
    (∀ (file : FILE) (maxBytes : Nat),
      (CalculateBlockCRC32 InitCRC32Table file maxBytes).1 =
        crc32Ref ((file.data.drop file.pos).take
          (min maxBytes (file.data.drop file.pos).length))) ∧
    (CalculateBlockCRC32 InitCRC32Table ⟨checkString, 0⟩ 9).1 = 0xCBF43926 := by
  refine ⟨?_, by decide⟩
  intro file maxBytes
  rw [CalculateBlockCRC32_ref]
  congr 1
  rcases Nat.le_total maxBytes (file.data.drop file.pos).length with hle | hle
  · rw [Nat.min_eq_left hle]; rfl
  · rw [Nat.min_eq_right hle, List.take_length]
    exact List.take_of_length_le hle

/-- C2: on a stream with `k` bytes left after the cursor and a declared length `n`,
`CalculateBlockCRC32` leaves the file content alone, moves the cursor by exactly
`min n k`, and leaves `min n k` in `DataLength`: `n` itself when `n ≤ k`, and `k` when
`k < n`. -/
theorem CalculateBlockCRC32_consumed (CRC32Tbl : List Nat) (file : FILE) (n : Nat) :
    (CalculateBlockCRC32 CRC32Tbl file n).2.2.data = file.data ∧
    (CalculateBlockCRC32 CRC32Tbl file n).2.2.pos =
      file.pos + min n (file.data.length - file.pos) ∧
    (CalculateBlockCRC32 CRC32Tbl file n).2.1 = min n (file.data.length - file.pos) ∧
    (CalculateBlockCRC32 CRC32Tbl file n).2.1 =
      (if n ≤ file.data.length - file.pos then n else file.data.length - file.pos) := by
  rw [CalculateBlockCRC32_eq, FILE.rest_length]
  refine ⟨rfl, rfl, ?_, rfl⟩
  simp only
  split <;> omega

/-- C3: for a 24-byte V2 header, `CalculateHeaderChecksum` is the bit-serial checksum
(start at 0; per byte, 8 times: `bit0 = (result ^ data) & 1`, shift `result`, xor `0x8C`
when `bit0`, shift `data`) folded over the 19 bytes at offsets 5..23; so two headers that
agree on bytes 5..23 have the same checksum, whatever bytes 0..4 are. -/
theorem CalculateHeaderChecksum_covers_bytes_5_to_23 :
    (∀ bs : List Byte, bs.length = 24 →
      CalculateHeaderChecksum (decodeV2 bs) = headerChecksumRef (bs.drop 5) ∧
        (bs.drop 5).length = 19) ∧
    (∀ bs bs' : List Byte, bs.length = 24 → bs'.length = 24 →
      (∀ i, 5 ≤ i → i < 24 → bs.getD i 0 = bs'.getD i 0) →
      CalculateHeaderChecksum (decodeV2 bs) = CalculateHeaderChecksum (decodeV2 bs')) := by
  refine ⟨fun bs h => ⟨CalculateHeaderChecksum_decodeV2 bs h, by simp [h]⟩, ?_⟩
  intro bs bs' h h' hagree
  rw [CalculateHeaderChecksum_decodeV2 bs h, CalculateHeaderChecksum_decodeV2 bs' h']
  congr 1
  apply List.ext_getElem?
  intro j
  by_cases hj : j < 19
  · have := hagree (5 + j) (by omega) (by omega)
    have h1 : 5 + j < bs.length := by omega
    have h2 : 5 + j < bs'.length := by omega
    simp only [List.getD_eq_getElem?_getD, List.getElem?_eq_getElem h1,
      List.getElem?_eq_getElem h2, Option.getD_some] at this
    simp [List.getElem?_drop, List.getElem?_eq_getElem h1, List.getElem?_eq_getElem h2, this]
  · rw [List.getElem?_eq_none (by simp [h]; omega), List.getElem?_eq_none (by simp [h']; omega)]

/-- Witness of C3 on `sampleHeaderV2` and `sampleHeaderV2Alt`. -/
theorem CalculateHeaderChecksum_covers_bytes_5_to_23_witness :
    (CalculateHeaderChecksum (decodeV2 sampleHeaderV2) =
        headerChecksumRef (sampleHeaderV2.drop 5) ∧ (sampleHeaderV2.drop 5).length = 19) ∧
    CalculateHeaderChecksum (decodeV2 sampleHeaderV2) =
      CalculateHeaderChecksum (decodeV2 sampleHeaderV2Alt) :=
  ⟨CalculateHeaderChecksum_covers_bytes_5_to_23.1 sampleHeaderV2 rfl,
   CalculateHeaderChecksum_covers_bytes_5_to_23.2 sampleHeaderV2 sampleHeaderV2Alt rfl rfl
     (by intro i h5 h24; interval_cases i <;> rfl)⟩

/-- C4: in a 24-byte V2 header, inverting any single one of the 152 bits of the 19 bytes
at offsets 5..23 (bit positions 40..191 of the header) changes the value returned by
`CalculateHeaderChecksum`. -/
theorem CalculateHeaderChecksum_single_bit_flip (bs : List Byte) (h : bs.length = 24)
    (p : Nat) (hp : p < 152) :
    CalculateHeaderChecksum (decodeV2 (flipBit bs (40 + p))) ≠
      CalculateHeaderChecksum (decodeV2 bs) := by
  rw [CalculateHeaderChecksum_decodeV2_foldl bs h,
    CalculateHeaderChecksum_decodeV2_foldl _ (by rw [flipBit_length]; exact h),
    flipBit_drop_five]
  obtain ⟨D, hD, hEq⟩ := foldl_checksumByte_flipBit (bs.drop 5) 0 p (by simp [h]; omega)
  rw [hEq]
  exact xor_ne_self _ D hD

/-- Witness of C4: bit 3 of byte 16 (bit 131 of the 19-byte range) of `sampleHeaderV2`. -/
theorem CalculateHeaderChecksum_single_bit_flip_witness :
    sampleHeaderV2.length = 24 ∧ 91 < 152 ∧
    CalculateHeaderChecksum (decodeV2 (flipBit sampleHeaderV2 (40 + 91))) ≠
      CalculateHeaderChecksum (decodeV2 sampleHeaderV2) :=
  ⟨rfl, by decide, CalculateHeaderChecksum_single_bit_flip sampleHeaderV2 rfl 91 (by decide)⟩

/-- C5: the 20 bytes of a V1 header and the 24 bytes of a V2 header, decoded into the
packed little-endian fields of the struct and encoded again unchanged, give back the same
bytes. -/
theorem header_decode_encode_roundtrip :
    (∀ bs : List Byte, bs.length = 20 → encodeV1 (decodeV1 bs) = bs) ∧
    (∀ bs : List Byte, bs.length = 24 → encodeV2 (decodeV2 bs) = bs) :=
  ⟨encodeV1_decodeV1, encodeV2_decodeV2⟩

/-- Witness of C5 on `sampleHeaderV1` and `sampleHeaderV2`. -/
theorem header_decode_encode_roundtrip_witness :
    (sampleHeaderV1.length = 20 ∧ encodeV1 (decodeV1 sampleHeaderV1) = sampleHeaderV1) ∧
    (sampleHeaderV2.length = 24 ∧ encodeV2 (decodeV2 sampleHeaderV2) = sampleHeaderV2) :=
  ⟨⟨rfl, header_decode_encode_roundtrip.1 sampleHeaderV1 rfl⟩,
   ⟨rfl, header_decode_encode_roundtrip.2 sampleHeaderV2 rfl⟩⟩

/-! ## Properties of the stream operations and of the repair writer -/

theorem fread_fst (n : Nat) (f : FILE) : (fread n f).1 = f.rest.take n := rfl

theorem fread_snd (n : Nat) (f : FILE) :
    (fread n f).2 = { f with pos := f.pos + min n f.rest.length } := by
  simp [fread, FILE.rest]

theorem fread_length (n : Nat) (f : FILE) :
    (fread n f).1.length = min n (f.data.length - f.pos) := by
  simp [fread]

theorem encodeV1_length (h : FirmwareBlockHeaderV1) : (encodeV1 h).length = 20 := rfl

theorem encodeV2_length (h : FirmwareBlockHeaderV2) : (encodeV2 h).length = 24 := rfl

/-- The repair writer, when the header lies inside the file: 20 bytes at `HeaderOffset`
are replaced, the cursor is where it was. -/
theorem RewriteFirmwareBlockHeader_eq (f : FILE) (hdr : List Byte) (off : Nat)
    (hoff : off + 20 ≤ f.data.length) (hhdr : 20 ≤ hdr.length) :
    RewriteFirmwareBlockHeader f hdr off =
      ({ data := f.data.take off ++ hdr.take 20 ++ f.data.drop (off + 20), pos := f.pos },
       [Report.headerFixed]) := by
  have h0 : off - f.data.length = 0 := by omega
  have h1 : (hdr.take 20).length = 20 := by simp; omega
  simp [RewriteFirmwareBlockHeader, fseek, fwrite, h0, h1]

theorem rewritten_length (data hdr : List Byte) (off : Nat)
    (hoff : off + 20 ≤ data.length) (hhdr : 20 ≤ hdr.length) :
    (data.take off ++ hdr.take 20 ++ data.drop (off + 20)).length = data.length := by
  simp; omega

theorem rewritten_take (data hdr : List Byte) (off : Nat) (hoff : off + 20 ≤ data.length) :
    (data.take off ++ hdr.take 20 ++ data.drop (off + 20)).take off = data.take off := by
  rw [List.append_assoc, List.take_append_of_le_length (by simp; omega)]
  simp

/-! ## One call of `ProcessFirmwareBlockV1` -/

theorem ProcessFirmwareBlockV1_at_end (tbl : List Nat) (fix : Bool) (f : FILE)
    (h : f.data.length ≤ f.pos) : ProcessFirmwareBlockV1 tbl fix f = (false, f, []) := by
  have hl : (fread 20 f).1.length = 0 := by rw [fread_length]; omega
  have hs : (fread 20 f).2 = f := by
    rw [fread_snd, FILE.rest_length]
    have : min 20 (f.data.length - f.pos) = 0 := by omega
    simp [this]
  simp only [ProcessFirmwareBlockV1, hl, hs, if_true]

theorem ProcessFirmwareBlockV1_incomplete (tbl : List Nat) (fix : Bool) (f : FILE)
    (h1 : f.pos < f.data.length) (h2 : f.data.length < f.pos + 20) :
    ProcessFirmwareBlockV1 tbl fix f =
      (false, { f with pos := f.data.length }, [Report.incompleteHeader f.pos]) := by
  have hm : min 20 (f.data.length - f.pos) = f.data.length - f.pos := by omega
  have hl : (fread 20 f).1.length = f.data.length - f.pos := by rw [fread_length, hm]
  have hs : (fread 20 f).2 = { f with pos := f.data.length } := by
    rw [fread_snd, FILE.rest_length, hm]
    simp only [FILE.mk.injEq, true_and]; omega
  have hne0 : ¬ (f.data.length - f.pos = 0) := by omega
  have hne20 : f.data.length - f.pos ≠ 20 := by omega
  simp only [ProcessFirmwareBlockV1, hl, hs, if_neg hne0, if_pos hne20]

theorem ProcessFirmwareBlockV1_badSignature (tbl : List Nat) (fix : Bool) (f : FILE)
    (h : f.pos + 20 ≤ f.data.length)
    (hsig : (decodeV1 (f.rest.take 20)).Signature ≠ FirmwareBlockHeaderV1Signature) :
    ProcessFirmwareBlockV1 tbl fix f =
      (false, { f with pos := f.pos + 20 },
        [Report.badSignature f.pos (decodeV1 (f.rest.take 20)).Signature]) := by
  have hm : min 20 (f.data.length - f.pos) = 20 := by omega
  have hl : (fread 20 f).1.length = 20 := by rw [fread_length, hm]
  have hs : (fread 20 f).2 = { f with pos := f.pos + 20 } := by
    rw [fread_snd, FILE.rest_length, hm]
  simp only [ProcessFirmwareBlockV1, hl, hs]
  rw [if_neg (by decide), if_neg (by decide)]
  simp only [fread_fst]
  rw [if_pos hsig]

/-- The data CRC computed by a block processing call at header offset `pos` with header
size `hs` and declared length `n`. -/
theorem CalculateBlockCRC32_after_header (tbl : List Nat) (f : FILE) (hs n : Nat) :
    CalculateBlockCRC32 tbl { f with pos := f.pos + hs } n =
      (not32 (((f.data.drop (f.pos + hs)).take n).foldl (crcTblByte tbl) 0xFFFFFFFF),
       min n (f.data.length - (f.pos + hs)),
       { f with pos := f.pos + hs + min n (f.data.length - (f.pos + hs)) }) := by
  rw [CalculateBlockCRC32_eq, FILE.rest_length]
  refine Prod.ext rfl (Prod.ext ?_ rfl)
  simp only
  split <;> omega

theorem encodeV1_take (h : FirmwareBlockHeaderV1) : (encodeV1 h).take 20 = encodeV1 h := rfl

theorem RewriteFirmwareBlockHeader_mk (data : List Byte) (pos : Nat) (hdr : List Byte)
    (off : Nat) (hoff : off + 20 ≤ data.length) (hhdr : 20 ≤ hdr.length) :
    RewriteFirmwareBlockHeader { data := data, pos := pos } hdr off =
      ({ data := data.take off ++ hdr.take 20 ++ data.drop (off + 20), pos := pos },
       [Report.headerFixed]) :=
  RewriteFirmwareBlockHeader_eq { data := data, pos := pos } hdr off hoff hhdr

/-- A call of `ProcessFirmwareBlockV1` on a complete header with the V1 signature. -/
theorem ProcessFirmwareBlockV1_block (tbl : List Nat) (fix : Bool) (f : FILE)
    (h : f.pos + 20 ≤ f.data.length)
    (hsig : (headerV1At f).Signature = FirmwareBlockHeaderV1Signature) :
    ProcessFirmwareBlockV1 tbl fix f =
      ((headerV1At f).DataLength == observedLength 20 f (headerV1At f).DataLength,
       { data := if repairsV1 tbl fix f then
             f.data.take f.pos ++ encodeV1 (repairedV1 tbl f) ++ f.data.drop (f.pos + 20)
           else f.data,
         pos := f.pos + 20 + observedLength 20 f (headerV1At f).DataLength },
       reportV1 tbl f :: (if repairsV1 tbl fix f then [Report.headerFixed] else [])) := by
  have hm : min 20 (f.data.length - f.pos) = 20 := by omega
  have hl : (fread 20 f).1.length = 20 := by rw [fread_length, hm]
  have hs : (fread 20 f).2 = { f with pos := f.pos + 20 } := by
    rw [fread_snd, FILE.rest_length, hm]
  simp only [ProcessFirmwareBlockV1, hl, hs]
  rw [if_neg (by decide), if_neg (by decide)]
  simp only [fread_fst]
  rw [if_neg (show ¬ ((decodeV1 (f.rest.take 20)).Signature ≠ FirmwareBlockHeaderV1Signature)
    from fun hne => hne hsig)]
  simp only [CalculateBlockCRC32_after_header]
  by_cases hr : repairsV1 tbl fix f = true
  · have hr' := hr
    simp only [repairsV1, headerV1At, observedLength, observedCRC] at hr'
    rw [if_pos hr', RewriteFirmwareBlockHeader_mk _ _ _ _ h (by rw [encodeV1_length])]
    simp only [hr, if_true]
    rw [encodeV1_take]
    rfl
  · have hr' := hr
    simp only [repairsV1, headerV1At, observedLength, observedCRC] at hr'
    rw [if_neg hr']
    simp only [hr]
    rfl

/-! ## One call of `ProcessFirmwareBlockV2` -/

theorem ProcessFirmwareBlockV2_at_end (tbl : List Nat) (fix : Bool) (f : FILE)
    (h : f.data.length ≤ f.pos) : ProcessFirmwareBlockV2 tbl fix f = (false, f, []) := by
  have hl : (fread 24 f).1.length = 0 := by rw [fread_length]; omega
  have hs : (fread 24 f).2 = f := by
    rw [fread_snd, FILE.rest_length]
    have : min 24 (f.data.length - f.pos) = 0 := by omega
    simp [this]
  simp only [ProcessFirmwareBlockV2, hl, hs, if_true]

theorem ProcessFirmwareBlockV2_incomplete (tbl : List Nat) (fix : Bool) (f : FILE)
    (h1 : f.pos < f.data.length) (h2 : f.data.length < f.pos + 24) :
    ProcessFirmwareBlockV2 tbl fix f =
      (false, { f with pos := f.data.length }, [Report.incompleteHeader f.pos]) := by
  have hm : min 24 (f.data.length - f.pos) = f.data.length - f.pos := by omega
  have hl : (fread 24 f).1.length = f.data.length - f.pos := by rw [fread_length, hm]
  have hs : (fread 24 f).2 = { f with pos := f.data.length } := by
    rw [fread_snd, FILE.rest_length, hm]
    simp only [FILE.mk.injEq, true_and]; omega
  have hne0 : ¬ (f.data.length - f.pos = 0) := by omega
  have hne24 : f.data.length - f.pos ≠ 24 := by omega
  simp only [ProcessFirmwareBlockV2, hl, hs, if_neg hne0, if_pos hne24]

theorem ProcessFirmwareBlockV2_badSignature (tbl : List Nat) (fix : Bool) (f : FILE)
    (h : f.pos + 24 ≤ f.data.length)
    (hsig : (decodeV2 (f.rest.take 24)).Signature ≠ FirmwareBlockHeaderV2Signature) :
    ProcessFirmwareBlockV2 tbl fix f =
      (false, { f with pos := f.pos + 24 },
        [Report.badSignature f.pos (decodeV2 (f.rest.take 24)).Signature]) := by
  have hm : min 24 (f.data.length - f.pos) = 24 := by omega
  have hl : (fread 24 f).1.length = 24 := by rw [fread_length, hm]
  have hs : (fread 24 f).2 = { f with pos := f.pos + 24 } := by
    rw [fread_snd, FILE.rest_length, hm]
  simp only [ProcessFirmwareBlockV2, hl, hs]
  rw [if_neg (by decide), if_neg (by decide)]
  simp only [fread_fst]
  rw [if_pos hsig]

/-- A call of `ProcessFirmwareBlockV2` on a complete header with the V2 signature. -/
theorem ProcessFirmwareBlockV2_block (tbl : List Nat) (fix : Bool) (f : FILE)
    (h : f.pos + 24 ≤ f.data.length)
    (hsig : (headerV2At f).Signature = FirmwareBlockHeaderV2Signature) :
    ProcessFirmwareBlockV2 tbl fix f =
      ((headerV2At f).DataLength == observedLength 24 f (headerV2At f).DataLength,
       { data := if repairsV2 tbl fix f then
             f.data.take f.pos ++ (encodeV2 (repairedV2 tbl f)).take 20 ++ f.data.drop (f.pos + 20)
           else f.data,
         pos := f.pos + 24 + observedLength 24 f (headerV2At f).DataLength },
       reportV2 tbl f :: (if repairsV2 tbl fix f then [Report.headerFixed] else [])) := by
  have hm : min 24 (f.data.length - f.pos) = 24 := by omega
  have hl : (fread 24 f).1.length = 24 := by rw [fread_length, hm]
  have hs : (fread 24 f).2 = { f with pos := f.pos + 24 } := by
    rw [fread_snd, FILE.rest_length, hm]
  simp only [ProcessFirmwareBlockV2, hl, hs]
  rw [if_neg (by decide), if_neg (by decide)]
  simp only [fread_fst]
  rw [if_neg (show ¬ ((decodeV2 (f.rest.take 24)).Signature ≠ FirmwareBlockHeaderV2Signature)
    from fun hne => hne hsig)]
  simp only [CalculateBlockCRC32_after_header]
  by_cases hr : repairsV2 tbl fix f = true
  · have hr' := hr
    simp only [repairsV2, headerV2At, observedLength, observedCRC] at hr'
    rw [if_pos hr', RewriteFirmwareBlockHeader_mk _ _ _ _ (by omega)
      (by rw [encodeV2_length]; decide)]
    simp only [hr, if_true]
    rfl
  · have hr' := hr
    simp only [repairsV2, headerV2At, observedLength, observedCRC] at hr'
    rw [if_neg hr']
    simp only [hr]
    rfl

/-! ## Frame properties of one block processing call -/

theorem spliced_length (data w : List Byte) (off : Nat) (hoff : off + 20 ≤ data.length)
    (hw : w.length = 20) :
    (data.take off ++ w ++ data.drop (off + 20)).length = data.length := by
  simp [hw]; omega

theorem spliced_take (data w : List Byte) (off : Nat) (hoff : off + 20 ≤ data.length) :
    (data.take off ++ w ++ data.drop (off + 20)).take off = data.take off := by
  rw [List.append_assoc, List.take_append_of_le_length (by simp; omega)]
  simp

theorem observedLength_le (hs : Nat) (f : FILE) (n : Nat) (h : f.pos + hs ≤ f.data.length) :
    f.pos + hs + observedLength hs f n ≤ f.data.length := by
  unfold observedLength; omega

theorem stepFrame_V1 (tbl : List Nat) (fix : Bool) :
    StepFrame 20 (ProcessFirmwareBlockV1 tbl fix) := by
  have key : ∀ f : FILE,
      (ProcessFirmwareBlockV1 tbl fix f).2.1.data.length = f.data.length ∧
      ((ProcessFirmwareBlockV1 tbl fix f).1 = true →
        f.pos + 20 ≤ (ProcessFirmwareBlockV1 tbl fix f).2.1.pos ∧
          (ProcessFirmwareBlockV1 tbl fix f).2.1.pos ≤ f.data.length) ∧
      (ProcessFirmwareBlockV1 tbl fix f).2.1.data.take f.pos = f.data.take f.pos ∧
      (Report.headerFixed ∉ (ProcessFirmwareBlockV1 tbl fix f).2.2 →
        (ProcessFirmwareBlockV1 tbl fix f).2.1.data = f.data) := by
    intro f
    by_cases h1 : f.data.length ≤ f.pos
    · rw [ProcessFirmwareBlockV1_at_end tbl fix f h1]; simp
    by_cases h2 : f.data.length < f.pos + 20
    · rw [ProcessFirmwareBlockV1_incomplete tbl fix f (by omega) h2]; simp
    have h3 : f.pos + 20 ≤ f.data.length := by omega
    by_cases hsig : (headerV1At f).Signature = FirmwareBlockHeaderV1Signature
    · rw [ProcessFirmwareBlockV1_block tbl fix f h3 hsig]
      have hobs := observedLength_le 20 f (headerV1At f).DataLength h3
      by_cases hr : repairsV1 tbl fix f = true
      · simp only [hr, if_true]
        refine ⟨spliced_length _ _ _ h3 (encodeV1_length _), fun _ => ⟨by omega, hobs⟩,
          spliced_take _ _ _ h3, ?_⟩
        intro hnot
        exact absurd (by simp) hnot
      · simp only [hr]
        exact ⟨rfl, fun _ => ⟨by omega, hobs⟩, rfl, fun _ => rfl⟩
    · rw [ProcessFirmwareBlockV1_badSignature tbl fix f h3 hsig]; simp
  exact ⟨fun f => (key f).1, fun f => (key f).2.1, fun f => (key f).2.2.1,
    fun f => (key f).2.2.2⟩

theorem stepFrame_V2 (tbl : List Nat) (fix : Bool) :
    StepFrame 24 (ProcessFirmwareBlockV2 tbl fix) := by
  have key : ∀ f : FILE,
      (ProcessFirmwareBlockV2 tbl fix f).2.1.data.length = f.data.length ∧
      ((ProcessFirmwareBlockV2 tbl fix f).1 = true →
        f.pos + 24 ≤ (ProcessFirmwareBlockV2 tbl fix f).2.1.pos ∧
          (ProcessFirmwareBlockV2 tbl fix f).2.1.pos ≤ f.data.length) ∧
      (ProcessFirmwareBlockV2 tbl fix f).2.1.data.take f.pos = f.data.take f.pos ∧
      (Report.headerFixed ∉ (ProcessFirmwareBlockV2 tbl fix f).2.2 →
        (ProcessFirmwareBlockV2 tbl fix f).2.1.data = f.data) := by
    intro f
    by_cases h1 : f.data.length ≤ f.pos
    · rw [ProcessFirmwareBlockV2_at_end tbl fix f h1]; simp
    by_cases h2 : f.data.length < f.pos + 24
    · rw [ProcessFirmwareBlockV2_incomplete tbl fix f (by omega) h2]; simp
    have h3 : f.pos + 24 ≤ f.data.length := by omega
    by_cases hsig : (headerV2At f).Signature = FirmwareBlockHeaderV2Signature
    · rw [ProcessFirmwareBlockV2_block tbl fix f h3 hsig]
      have hobs := observedLength_le 24 f (headerV2At f).DataLength h3
      by_cases hr : repairsV2 tbl fix f = true
      · simp only [hr, if_true]
        refine ⟨spliced_length _ _ _ (by omega) rfl, fun _ => ⟨by omega, hobs⟩,
          spliced_take _ _ _ (by omega), ?_⟩
        intro hnot
        exact absurd (by simp) hnot
      · simp only [hr]
        exact ⟨rfl, fun _ => ⟨by omega, hobs⟩, rfl, fun _ => rfl⟩
    · rw [ProcessFirmwareBlockV2_badSignature tbl fix f h3 hsig]; simp
  exact ⟨fun f => (key f).1, fun f => (key f).2.1, fun f => (key f).2.2.1,
    fun f => (key f).2.2.2⟩

/-! ## The scan loop -/

/-- With enough unrolling the scan loop ends: every call that asks to go on moves the
cursor forward inside the file. -/
theorem scanLoop_terminates {hs : Nat} {P : FILE → Bool × FILE × List Report}
    (hP : StepFrame hs P) (hpos : 0 < hs) :
    ∀ (fuel : Nat) (f : FILE), f.data.length - f.pos < fuel →
      ∃ s, scanLoop P fuel f = some s := by
  intro fuel
  induction fuel with
  | zero => intro f h; omega
  | succ fuel ih =>
    intro f h
    simp only [scanLoop]
    by_cases hc : (P f).1 = true
    · have hadv := hP.advance f hc
      have hlen := hP.length_eq f
      obtain ⟨s, hs'⟩ := ih (P f).2.1 (by omega)
      simp [hc, hs']
    · simp [hc]

/-- The scan loop keeps the length of the file and the bytes before its starting
cursor; without a message of the repair writer it leaves the file as it was. -/
theorem scanLoop_frame {hs : Nat} {P : FILE → Bool × FILE × List Report}
    (hP : StepFrame hs P) :
    ∀ (fuel : Nat) (f : FILE) (s : FILE × List Report), scanLoop P fuel f = some s →
      s.1.data.length = f.data.length ∧ s.1.data.take f.pos = f.data.take f.pos ∧
        (Report.headerFixed ∉ s.2 → s.1.data = f.data) := by
  intro fuel
  induction fuel with
  | zero => intro f s h; simp [scanLoop] at h
  | succ fuel ih =>
    intro f s h
    simp only [scanLoop] at h
    by_cases hc : (P f).1 = true
    · simp only [hc, if_true] at h
      cases hrec : scanLoop P fuel (P f).2.1 with
      | none => simp [hrec] at h
      | some s' =>
        simp only [hrec, Option.some.injEq] at h
        subst h
        obtain ⟨i1, i2, i3⟩ := ih _ _ hrec
        have hadv := hP.advance f hc
        refine ⟨by rw [i1, hP.length_eq], ?_, ?_⟩
        · have := congrArg (List.take f.pos) i2
          rw [List.take_take, List.take_take, Nat.min_eq_left (by omega)] at this
          rw [this, hP.prefix_eq]
        · intro hnot
          simp only [List.mem_append, not_or] at hnot
          rw [i3 hnot.2, hP.unchanged f hnot.1]
    · simp only [hc] at h
      simp only [Bool.false_eq_true, if_false, Option.some.injEq] at h
      subst h
      exact ⟨hP.length_eq f, hP.prefix_eq f, hP.unchanged f⟩

/-! ## The start of `main` -/

theorem u8At_take (l : List Byte) (n i : Nat) (h : i < n) : u8At (l.take n) i = u8At l i := by
  simp [u8At, List.getElem?_take, h]

theorem u16At_take (l : List Byte) (n i : Nat) (h : i + 1 < n) :
    u16At (l.take n) i = u16At l i := by
  simp only [u16At, u8At_take l n i (by omega), u8At_take l n (i + 1) h]

theorem u32At_take (l : List Byte) (n i : Nat) (h : i + 3 < n) :
    u32At (l.take n) i = u32At l i := by
  simp only [u32At, u8At_take l n i (by omega), u8At_take l n (i + 1) (by omega),
    u8At_take l n (i + 2) (by omega), u8At_take l n (i + 3) h]

theorem u8At_lt (l : List Byte) (i : Nat) : u8At l i < 256 := (l.getD i 0).isLt

/-- A buffer that starts with the V1 signature does not start with the V2 signature. -/
theorem u32At_ne_of_u16At (l : List Byte)
    (h : u16At l 0 = FirmwareBlockHeaderV1Signature) :
    u32At l 0 ≠ FirmwareBlockHeaderV2Signature := by
  have h0 := u8At_lt l 0
  have h1 := u8At_lt l (0 + 1)
  simp only [u16At, u32At, FirmwareBlockHeaderV1Signature, FirmwareBlockHeaderV2Signature] at *
  omega

theorem mainOpened_short (fuel : Nat) (fix : Bool) (data : List Byte)
    (h : data.length < 24) :
    mainOpened fuel fix data =
      some { exitCode := 1, mode := none, data := data, pos := data.length,
             out := [Report.readError] } := by
  have hl : (fread 24 { data := data, pos := 0 }).1.length = data.length := by
    rw [fread_length]; simp only [Nat.sub_zero]; omega
  have hs : (fread 24 { data := data, pos := 0 }).2 = { data := data, pos := data.length } := by
    rw [fread_snd, FILE.rest_length]
    simp only [Nat.sub_zero, Nat.zero_add, FILE.mk.injEq, true_and]; omega
  have hne : data.length ≠ 24 := by omega
  simp only [mainOpened, hl, hs, if_pos hne]

theorem mainOpened_long (fuel : Nat) (fix : Bool) (data : List Byte)
    (h : 24 ≤ data.length) :
    mainOpened fuel fix data =
      if u32At data 0 = FirmwareBlockHeaderV2Signature then
        (scanLoop (ProcessFirmwareBlockV2 InitCRC32Table fix) fuel { data := data, pos := 0 }).map
          fun s => { exitCode := 0, mode := some HeaderVersion.V2, data := s.1.data,
                     pos := s.1.pos, out := s.2 }
      else if u16At data 0 = FirmwareBlockHeaderV1Signature then
        (scanLoop (ProcessFirmwareBlockV1 InitCRC32Table fix) fuel { data := data, pos := 0 }).map
          fun s => { exitCode := 0, mode := some HeaderVersion.V1, data := s.1.data,
                     pos := s.1.pos, out := s.2 }
      else
        some { exitCode := 1, mode := none, data := data, pos := 0,
               out := [Report.unknownSignature (u32At data 0)] } := by
  have hl : (fread 24 { data := data, pos := 0 }).1.length = 24 := by
    rw [fread_length]; simp only [Nat.sub_zero]; omega
  have hf : (fread 24 { data := data, pos := 0 }).1 = data.take 24 := by
    rw [fread_fst]; rfl
  have h2 : (decodeV2 (data.take 24)).Signature = u32At data 0 := u32At_take data 24 0 (by omega)
  have h1 : (decodeV1 (data.take 24)).Signature = u16At data 0 := u16At_take data 24 0 (by omega)
  have hs : (fread 24 { data := data, pos := 0 }).2 = { data := data, pos := 24 } := by
    rw [fread_snd, FILE.rest_length]
    simp only [Nat.sub_zero, Nat.zero_add, FILE.mk.injEq, true_and]; omega
  simp only [mainOpened, hl]
  rw [if_neg (by decide)]
  simp only [hf, hs, h2, h1, fseek]
  split
  · cases scanLoop (ProcessFirmwareBlockV2 InitCRC32Table fix) fuel { data := data, pos := 0 } <;>
      rfl
  · split
    · cases scanLoop (ProcessFirmwareBlockV1 InitCRC32Table fix) fuel
        { data := data, pos := 0 } <;> rfl
    · rfl

theorem scanLoop_out_prefix (P : FILE → Bool × FILE × List Report) (fuel : Nat) (f : FILE)
    (s : FILE × List Report) (h : scanLoop P fuel f = some s) :
    ∃ tail, s.2 = (P f).2.2 ++ tail := by
  cases fuel with
  | zero => simp [scanLoop] at h
  | succ fuel =>
    simp only [scanLoop] at h
    by_cases hc : (P f).1 = true
    · simp only [hc, if_true] at h
      cases hrec : scanLoop P fuel (P f).2.1 with
      | none => simp [hrec] at h
      | some s' =>
        simp only [hrec, Option.some.injEq] at h
        exact ⟨s'.2, by rw [← h]⟩
    · simp only [hc, Bool.false_eq_true, if_false, Option.some.injEq] at h
      exact ⟨[], by rw [← h]; simp⟩

theorem headerV2At_start (data : List Byte) :
    (headerV2At { data := data, pos := 0 }).Signature = u32At data 0 :=
  u32At_take data 24 0 (by omega)

theorem headerV1At_start (data : List Byte) :
    (headerV1At { data := data, pos := 0 }).Signature = u16At data 0 :=
  u16At_take data 20 0 (by omega)

/-- The run of `mainOpened` on a file with the V2 signature. -/
theorem mainOpened_V2 (fuel : Nat) (fix : Bool) (data : List Byte)
    (hfuel : data.length < fuel) (hlen : 24 ≤ data.length)
    (hsig : u32At data 0 = FirmwareBlockHeaderV2Signature) :
    ∃ s, scanLoop (ProcessFirmwareBlockV2 InitCRC32Table fix) fuel { data := data, pos := 0 }
          = some s ∧
      mainOpened fuel fix data =
        some { exitCode := 0, mode := some HeaderVersion.V2, data := s.1.data,
               pos := s.1.pos, out := s.2 } ∧
      s.2.head? = some (reportV2 InitCRC32Table { data := data, pos := 0 }) := by
  obtain ⟨s, hs⟩ := scanLoop_terminates (stepFrame_V2 InitCRC32Table fix) (by decide) fuel
    { data := data, pos := 0 } (by simpa using hfuel)
  refine ⟨s, hs, ?_, ?_⟩
  · rw [mainOpened_long fuel fix data hlen, if_pos hsig, hs]; rfl
  · obtain ⟨tail, ht⟩ := scanLoop_out_prefix _ _ _ _ hs
    rw [ht, ProcessFirmwareBlockV2_block InitCRC32Table fix { data := data, pos := 0 }
      (by simpa using hlen) (by rw [headerV2At_start data]; exact hsig)]
    rfl

/-- The run of `mainOpened` on a file with the V1 signature. -/
theorem mainOpened_V1 (fuel : Nat) (fix : Bool) (data : List Byte)
    (hfuel : data.length < fuel) (hlen : 24 ≤ data.length)
    (hsig : u16At data 0 = FirmwareBlockHeaderV1Signature) :
    ∃ s, scanLoop (ProcessFirmwareBlockV1 InitCRC32Table fix) fuel { data := data, pos := 0 }
          = some s ∧
      mainOpened fuel fix data =
        some { exitCode := 0, mode := some HeaderVersion.V1, data := s.1.data,
               pos := s.1.pos, out := s.2 } ∧
      s.2.head? = some (reportV1 InitCRC32Table { data := data, pos := 0 }) := by
  obtain ⟨s, hs⟩ := scanLoop_terminates (stepFrame_V1 InitCRC32Table fix) (by decide) fuel
    { data := data, pos := 0 } (by simpa using hfuel)
  refine ⟨s, hs, ?_, ?_⟩
  · rw [mainOpened_long fuel fix data hlen, if_neg (u32At_ne_of_u16At data hsig), if_pos hsig,
      hs]; rfl
  · obtain ⟨tail, ht⟩ := scanLoop_out_prefix _ _ _ _ hs
    rw [ht, ProcessFirmwareBlockV1_block InitCRC32Table fix { data := data, pos := 0 }
      (by simp only [Nat.zero_add]; omega)
      (by rw [headerV1At_start data]; exact hsig)]
    rfl

/-! ## Mode selection and exit code: main statements -/

/-- C6: on a file of at least 24 bytes the scan runs in V2 mode exactly when the
little-endian 32-bit value of bytes 0..3 is `0x5A`; otherwise in V1 mode exactly when the
little-endian 16-bit value of bytes 0..1 is `0xAA55`; otherwise no block is scanned and
the exit code is 1. In V2 (V1) mode the first message is the V2 (V1) report of the block
at offset 0. -/
theorem signature_selects_scan_mode (fuel : Nat) (fix : Bool) (data : List Byte)
    (hfuel : data.length < fuel) (hlen : 24 ≤ data.length) :
    ∃ r, mainOpened fuel fix data = some r ∧
      (r.mode = some HeaderVersion.V2 ↔ u32At data 0 = 0x5A) ∧
      (r.mode = some HeaderVersion.V1 ↔ u32At data 0 ≠ 0x5A ∧ u16At data 0 = 0xAA55) ∧
      (r.mode = some HeaderVersion.V2 →
        r.out.head? = some (reportV2 InitCRC32Table { data := data, pos := 0 })) ∧
      (r.mode = some HeaderVersion.V1 →
        r.out.head? = some (reportV1 InitCRC32Table { data := data, pos := 0 })) ∧
      (u32At data 0 ≠ 0x5A → u16At data 0 ≠ 0xAA55 →
        r.mode = none ∧ r.exitCode = 1 ∧ blockOffsets r.out = [] ∧ r.data = data) := by
  by_cases h2 : u32At data 0 = 0x5A
  · obtain ⟨s, _, hm, hh⟩ := mainOpened_V2 fuel fix data hfuel hlen h2
    exact ⟨_, hm, by simp [h2], by simp [h2], fun _ => hh, by simp, fun hne => absurd h2 hne⟩
  · by_cases h1 : u16At data 0 = 0xAA55
    · obtain ⟨s, _, hm, hh⟩ := mainOpened_V1 fuel fix data hfuel hlen h1
      exact ⟨_, hm, by simp [h2], by simp [h2, h1], by simp, fun _ => hh,
        fun _ hne => absurd h1 hne⟩
    · refine ⟨{ exitCode := 1, mode := none, data := data, pos := 0,
                out := [Report.unknownSignature (u32At data 0)] }, ?_, ?_⟩
      · rw [mainOpened_long fuel fix data hlen,
          if_neg (show ¬ (u32At data 0 = FirmwareBlockHeaderV2Signature) from h2),
          if_neg (show ¬ (u16At data 0 = FirmwareBlockHeaderV1Signature) from h1)]
      · simp [h2, h1, blockOffsets, Report.blockOffset]

/-- Witness of C6 on `sampleFileV2`, which starts with `5A 00 00 00`. -/
theorem signature_selects_scan_mode_witness :
    sampleFileV2.length < 34 ∧ 24 ≤ sampleFileV2.length ∧
      ∃ r, mainOpened 34 false sampleFileV2 = some r ∧ r.mode = some HeaderVersion.V2 := by
  obtain ⟨r, hr, hv2, _⟩ :=
    signature_selects_scan_mode 34 false sampleFileV2 (by decide) (by decide)
  exact ⟨by decide, by decide, r, hr, hv2.2 (by decide)⟩

set_option maxRecDepth 100000 in
/-- C7 as stated fails: on `truncatedV2File`, a V2 block whose payload is 10 bytes
shorter than the 19 bytes declared, the scan stops on the short payload and the program
exits with 0, not 1. -/
theorem exit_code_truncated_payload_is_zero :
    mainOpened 34 false truncatedV2File =
      some { exitCode := 0, mode := some HeaderVersion.V2, data := truncatedV2File, pos := 33,
             out := [Report.blockV2 0
               { Signature := 0x5A, HeaderChecksum := 0x67, BlockType := 1,
                 HardwareRevision := 2, FirmwareVersion := 0x01020003,
                 DataCRC32 := 0xCBF43926, DataLength := 19, Unknown0x14 := 0,
                 DeviceType := 4 }
               0x67 " (BLE)" " (MJDJJ02FY)" 9 0xCBF43926 (1, 2, 3) 24] } ∧
    (Report.blockV2 0
        { Signature := 0x5A, HeaderChecksum := 0x67, BlockType := 1,
          HardwareRevision := 2, FirmwareVersion := 0x01020003,
          DataCRC32 := 0xCBF43926, DataLength := 19, Unknown0x14 := 0,
          DeviceType := 4 }
        0x67 " (BLE)" " (MJDJJ02FY)" 9 0xCBF43926 (1, 2, 3) 24).stopsOnError = true := by
  constructor
  · decide
  · decide

/-- C7, amended: for every recognised firmware file (at least 24 bytes, starting with the
V2 or the V1 signature) the program exits with 0, however the scan stops. -/
theorem exit_code_zero_after_scan (fuel : Nat) (fix : Bool) (data : List Byte)
    (hfuel : data.length < fuel) (hlen : 24 ≤ data.length)
    (hsig : u32At data 0 = 0x5A ∨ u16At data 0 = 0xAA55) :
    ∃ r, mainOpened fuel fix data = some r ∧ r.exitCode = 0 := by
  rcases hsig with h2 | h1
  · obtain ⟨s, _, hm, _⟩ := mainOpened_V2 fuel fix data hfuel hlen h2
    exact ⟨_, hm, rfl⟩
  · obtain ⟨s, _, hm, _⟩ := mainOpened_V1 fuel fix data hfuel hlen h1
    exact ⟨_, hm, rfl⟩

/-- Witness of the amended C7 on `truncatedV2File` with repair enabled. -/
theorem exit_code_zero_after_scan_witness :
    truncatedV2File.length < 34 ∧ 24 ≤ truncatedV2File.length ∧
      (u32At truncatedV2File 0 = 0x5A ∨ u16At truncatedV2File 0 = 0xAA55) ∧
      ∃ r, mainOpened 34 true truncatedV2File = some r ∧ r.exitCode = 0 :=
  ⟨by decide, by decide, Or.inl (by decide),
    exit_code_zero_after_scan 34 true truncatedV2File (by decide) (by decide)
      (Or.inl (by decide))⟩

/-! ## A file made of well-formed V1 blocks -/

theorem concatBlocks_length_cons (b : List Byte × List Byte) (bs : List (List Byte × List Byte)) :
    (concatBlocks (b :: bs)).length = b.1.length + b.2.length + (concatBlocks bs).length := by
  simp [concatBlocks]; omega

/-- One call of `ProcessFirmwareBlockV1` at the start of a well-formed block that follows
the bytes `pre`: the block is reported at offset `|pre|` with its full payload, the call
asks to go on, and the file is again some bytes followed by the remaining blocks, with
the cursor between them. -/
theorem ProcessFirmwareBlockV1_wellFormed (tbl : List Nat) (fix : Bool) (pre : List Byte)
    (b : List Byte × List Byte) (rest : List Byte) (hb : wellFormedBlockV1 b) :
    ∃ (pre' : List Byte) (out : List Report),
      ProcessFirmwareBlockV1 tbl fix { data := pre ++ (b.1 ++ b.2 ++ rest), pos := pre.length } =
        (true, { data := pre' ++ rest, pos := pre'.length }, out) ∧
      pre'.length = pre.length + (b.1.length + b.2.length) ∧
      blockOffsets out = [pre.length] ∧ out.all (fun e => !e.stopsOnError) = true := by
  obtain ⟨h20, hsig, hpay⟩ := hb
  let f : FILE := { data := pre ++ (b.1 ++ b.2 ++ rest), pos := pre.length }
  have hrest : f.rest = b.1 ++ b.2 ++ rest := by simp [f, FILE.rest]
  have hhdr : headerV1At f = decodeV1 b.1 := by
    simp only [headerV1At, hrest, List.append_assoc]
    rw [List.take_append_of_le_length (by omega), List.take_of_length_le (by omega)]
  have hlen : f.pos + 20 ≤ f.data.length := by simp [f]; omega
  have hobs : observedLength 20 f (headerV1At f).DataLength = b.2.length := by
    simp only [observedLength, hhdr, ← hpay]
    simp [f]; omega
  have hdrop : f.data.drop (f.pos + 20) = b.2 ++ rest := by
    have : pre.length + 20 = (pre ++ b.1).length := by simp [h20]
    simp only [f, this]
    rw [show pre ++ (b.1 ++ b.2 ++ rest) = (pre ++ b.1) ++ (b.2 ++ rest) by simp,
      List.drop_left]
  have htake : f.data.take f.pos = pre := by simp [f]
  have hstep := ProcessFirmwareBlockV1_block tbl fix f hlen (by rw [hhdr]; exact hsig)
  rw [hobs, hhdr, ← hpay, beq_self_eq_true, hdrop, htake] at hstep
  have hrep : (reportV1 tbl f).stopsOnError = false := by
    simp only [reportV1, Report.stopsOnError]
    rw [hobs, hhdr, hpay]
    simp
  have hoff : (reportV1 tbl f).blockOffset = some pre.length := rfl
  have hpos : f.pos = pre.length := rfl
  have hfx : Report.headerFixed.blockOffset = none := rfl
  have hdat : f.data = pre ++ b.1 ++ b.2 ++ rest := by simp [f]
  by_cases hr : repairsV1 tbl fix f = true
  · refine ⟨pre ++ encodeV1 (repairedV1 tbl f) ++ b.2, [reportV1 tbl f, Report.headerFixed],
      ?_, ?_, ?_, ?_⟩
    · have e1 : pre ++ encodeV1 (repairedV1 tbl f) ++ (b.2 ++ rest) =
          pre ++ encodeV1 (repairedV1 tbl f) ++ b.2 ++ rest := by simp
      have e2 : f.pos + 20 + b.2.length =
          (pre ++ encodeV1 (repairedV1 tbl f) ++ b.2).length := by
        simp only [List.length_append, encodeV1_length, hpos]
      show ProcessFirmwareBlockV1 tbl fix f = _
      rw [hstep, if_pos hr, if_pos hr, e1, e2]
    · simp only [List.length_append, encodeV1_length, h20]; omega
    · simp only [blockOffsets, List.filterMap_cons, hoff, hfx, List.filterMap_nil]
    · simp only [List.all_cons, hrep, List.all_nil]; rfl
  · refine ⟨pre ++ b.1 ++ b.2, [reportV1 tbl f], ?_, ?_, ?_, ?_⟩
    · have e2 : f.pos + 20 + b.2.length = (pre ++ b.1 ++ b.2).length := by
        simp only [List.length_append, h20, hpos]
      show ProcessFirmwareBlockV1 tbl fix f = _
      rw [hstep, if_neg hr, if_neg hr, hdat, e2]
    · simp only [List.length_append]; omega
    · simp only [blockOffsets, List.filterMap_cons, hoff, List.filterMap_nil]
    · simp only [List.all_cons, hrep, List.all_nil]; rfl

theorem blockOffsets_append (a b : List Report) :
    blockOffsets (a ++ b) = blockOffsets a ++ blockOffsets b := by
  simp [blockOffsets, List.filterMap_append]

theorem blockStarts_length (blocks : List (List Byte × List Byte)) :
    ∀ o, (blockStarts o blocks).length = blocks.length := by
  induction blocks with
  | nil => intro o; rfl
  | cons b bs ih => intro o; simp [blockStarts, ih]

/-- The scan loop over a file that continues, after the bytes `pre`, with well-formed V1
blocks up to its end: every block is reported at its start, nothing stops the scan with
an error, and the loop ends with the cursor at the end of the file. -/
theorem scanLoop_wellFormedV1 (tbl : List Nat) (fix : Bool) :
    ∀ (blocks : List (List Byte × List Byte)), (∀ b ∈ blocks, wellFormedBlockV1 b) →
      ∀ (pre : List Byte) (fuel : Nat), (concatBlocks blocks).length < fuel →
        ∃ s, scanLoop (ProcessFirmwareBlockV1 tbl fix) fuel
              { data := pre ++ concatBlocks blocks, pos := pre.length } = some s ∧
          blockOffsets s.2 = blockStarts pre.length blocks ∧
          s.2.all (fun e => !e.stopsOnError) = true ∧
          s.1.pos = s.1.data.length := by
  intro blocks
  induction blocks with
  | nil =>
    intro _ pre fuel hfuel
    obtain ⟨k, rfl⟩ : ∃ k, fuel = k + 1 := ⟨fuel - 1, by omega⟩
    refine ⟨({ data := pre ++ concatBlocks [], pos := pre.length }, []), ?_, rfl, rfl, ?_⟩
    · simp only [scanLoop]
      rw [ProcessFirmwareBlockV1_at_end tbl fix _ (by simp [concatBlocks])]
      rfl
    · simp [concatBlocks]
  | cons b bs ih =>
    intro hwf pre fuel hfuel
    obtain ⟨k, rfl⟩ : ∃ k, fuel = k + 1 := ⟨fuel - 1, by omega⟩
    have hb : wellFormedBlockV1 b := hwf b (List.mem_cons_self _ _)
    obtain ⟨pre', out, hstep, hlen', hoffs, hclean⟩ :=
      ProcessFirmwareBlockV1_wellFormed tbl fix pre b (concatBlocks bs) hb
    have hk : (concatBlocks bs).length < k := by
      rw [concatBlocks_length_cons] at hfuel
      have := hb.1
      omega
    obtain ⟨s', hs', ho', hc', hp'⟩ :=
      ih (fun x hx => hwf x (List.mem_cons_of_mem _ hx)) pre' k hk
    refine ⟨(s'.1, out ++ s'.2), ?_, ?_, ?_, hp'⟩
    · simp only [scanLoop, concatBlocks]
      rw [hstep]
      simp only [if_true, hs']
    · rw [blockOffsets_append, hoffs, ho', hlen']
      rfl
    · rw [List.all_append, hclean, hc']
      rfl

theorem u8At_append_left (l m : List Byte) (i : Nat) (h : i < l.length) :
    u8At (l ++ m) i = u8At l i := by
  simp [u8At, List.getElem?_append_left h]

/-! ## Scan of a file made of V1 blocks: main statements -/

/-- C8 as stated fails: a file that is one V1 block with the V1 signature and a payload
of exactly the declared 0 bytes is 20 bytes long; the initial read of 24 bytes fails, no
block is scanned and the exit code is 1. -/
theorem single_empty_block_is_rejected :
    wellFormedBlockV1 (emptyBlockHeaderV1, []) ∧
    mainOpened 21 false (concatBlocks [(emptyBlockHeaderV1, [])]) =
      some { exitCode := 1, mode := none, data := emptyBlockHeaderV1, pos := 20,
             out := [Report.readError] } :=
  ⟨⟨rfl, rfl, rfl⟩, by decide⟩

/-- C8, amended: for a file of at least 24 bytes that is the concatenation of N V1
blocks, each with signature `0xAA55` and a payload of exactly the declared length, the
scan reports exactly N blocks, the i-th at the offset equal to the total size of the
blocks before it, no message stops the scan with an error, the cursor ends at the end of
the file, and the exit code is 0; with repair on or off. -/
theorem scan_of_wellFormed_V1_blocks (fuel : Nat) (fix : Bool)
    (blocks : List (List Byte × List Byte))
    (hwf : ∀ b ∈ blocks, wellFormedBlockV1 b)
    (hlen : 24 ≤ (concatBlocks blocks).length)
    (hfuel : (concatBlocks blocks).length < fuel) :
    ∃ r, mainOpened fuel fix (concatBlocks blocks) = some r ∧
      r.exitCode = 0 ∧ r.mode = some HeaderVersion.V1 ∧
      blockOffsets r.out = blockStarts 0 blocks ∧
      (blockOffsets r.out).length = blocks.length ∧
      r.out.all (fun e => !e.stopsOnError) = true ∧
      r.pos = r.data.length := by
  obtain ⟨s, hs, ho, hc, hp⟩ :=
    scanLoop_wellFormedV1 InitCRC32Table fix blocks hwf [] fuel hfuel
  have hsig : u16At (concatBlocks blocks) 0 = FirmwareBlockHeaderV1Signature := by
    cases blocks with
    | nil => simp [concatBlocks] at hlen
    | cons b bs =>
      obtain ⟨h20, hsg, _⟩ := hwf b (List.mem_cons_self _ _)
      have : u16At (concatBlocks (b :: bs)) 0 = u16At b.1 0 := by
        simp only [concatBlocks, List.append_assoc, u16At]
        rw [u8At_append_left _ _ _ (by omega), u8At_append_left _ _ _ (by omega)]
      rw [this]
      exact hsg
  refine ⟨{ exitCode := 0, mode := some HeaderVersion.V1, data := s.1.data, pos := s.1.pos,
            out := s.2 }, ?_, rfl, rfl, ho, ?_, hc, hp⟩
  · rw [mainOpened_long fuel fix _ hlen, if_neg (u32At_ne_of_u16At _ hsig), if_pos hsig]
    have := hs
    simp only [List.nil_append, List.length_nil] at this
    rw [this]
    rfl
  · show (blockOffsets s.2).length = blocks.length
    rw [ho, blockStarts_length]

/-- Witness of the amended C8: two copies of the block `sampleHeaderV1` with its 9
payload bytes, with repair enabled. -/
theorem scan_of_wellFormed_V1_blocks_witness :
    (∀ b ∈ [(sampleHeaderV1, checkString), (sampleHeaderV1, checkString)],
      wellFormedBlockV1 b) ∧
    24 ≤ (concatBlocks [(sampleHeaderV1, checkString), (sampleHeaderV1, checkString)]).length ∧
    ∃ r, mainOpened 59 true
          (concatBlocks [(sampleHeaderV1, checkString), (sampleHeaderV1, checkString)]) =
            some r ∧
      r.exitCode = 0 ∧ blockOffsets r.out = [0, 29] := by
  have hwf : ∀ b ∈ [(sampleHeaderV1, checkString), (sampleHeaderV1, checkString)],
      wellFormedBlockV1 b := by
    intro b hb
    simp only [List.mem_cons, List.mem_singleton, List.not_mem_nil, or_false, or_self] at hb
    subst hb
    exact ⟨rfl, rfl, rfl⟩
  obtain ⟨r, hr, he, _, ho, _⟩ :=
    scan_of_wellFormed_V1_blocks 59 true
      [(sampleHeaderV1, checkString), (sampleHeaderV1, checkString)] hwf (by decide) (by decide)
  exact ⟨hwf, by decide, r, hr, he, ho⟩

/-! ## Repair on a file without mismatches -/

/-- A call of `ProcessFirmwareBlockV1` whose messages show no mismatch did not call the
repair writer. -/
theorem ProcessFirmwareBlockV1_quiet (tbl : List Nat) (fix : Bool) (f : FILE)
    (hok : ∀ e ∈ (ProcessFirmwareBlockV1 tbl fix f).2.2, e.noMismatch = true) :
    Report.headerFixed ∉ (ProcessFirmwareBlockV1 tbl fix f).2.2 := by
  by_cases h1 : f.data.length ≤ f.pos
  · rw [ProcessFirmwareBlockV1_at_end tbl fix f h1]; simp
  by_cases h2 : f.data.length < f.pos + 20
  · rw [ProcessFirmwareBlockV1_incomplete tbl fix f (by omega) h2]; simp
  have h3 : f.pos + 20 ≤ f.data.length := by omega
  by_cases hsig : (headerV1At f).Signature = FirmwareBlockHeaderV1Signature
  · rw [ProcessFirmwareBlockV1_block tbl fix f h3 hsig] at hok ⊢
    have hrep : (reportV1 tbl f).noMismatch = true := hok _ (List.mem_cons_self _ _)
    have hr : repairsV1 tbl fix f = false := by
      simp only [reportV1, Report.noMismatch, Bool.and_eq_true, beq_iff_eq] at hrep
      simp only [repairsV1, hrep.1.symm, hrep.2, bne_self_eq_false, Bool.or_self,
        Bool.and_false]
    simp [hr, reportV1]
  · rw [ProcessFirmwareBlockV1_badSignature tbl fix f h3 hsig]; simp

/-- A call of `ProcessFirmwareBlockV2` whose messages show no mismatch did not call the
repair writer. -/
theorem ProcessFirmwareBlockV2_quiet (tbl : List Nat) (fix : Bool) (f : FILE)
    (hok : ∀ e ∈ (ProcessFirmwareBlockV2 tbl fix f).2.2, e.noMismatch = true) :
    Report.headerFixed ∉ (ProcessFirmwareBlockV2 tbl fix f).2.2 := by
  by_cases h1 : f.data.length ≤ f.pos
  · rw [ProcessFirmwareBlockV2_at_end tbl fix f h1]; simp
  by_cases h2 : f.data.length < f.pos + 24
  · rw [ProcessFirmwareBlockV2_incomplete tbl fix f (by omega) h2]; simp
  have h3 : f.pos + 24 ≤ f.data.length := by omega
  by_cases hsig : (headerV2At f).Signature = FirmwareBlockHeaderV2Signature
  · rw [ProcessFirmwareBlockV2_block tbl fix f h3 hsig] at hok ⊢
    have hrep : (reportV2 tbl f).noMismatch = true := hok _ (List.mem_cons_self _ _)
    have hr : repairsV2 tbl fix f = false := by
      simp only [reportV2, Report.noMismatch, Bool.and_eq_true, beq_iff_eq] at hrep
      simp only [repairsV2, hrep.1.1.symm, hrep.1.2, hrep.2, bne_self_eq_false, Bool.or_self,
        Bool.and_false]
    simp [hr, reportV2]
  · rw [ProcessFirmwareBlockV2_badSignature tbl fix f h3 hsig]; simp

theorem scanLoop_quiet (P : FILE → Bool × FILE × List Report)
    (hP : ∀ f, (∀ e ∈ (P f).2.2, e.noMismatch = true) → Report.headerFixed ∉ (P f).2.2) :
    ∀ (fuel : Nat) (f : FILE) (s : FILE × List Report), scanLoop P fuel f = some s →
      (∀ e ∈ s.2, e.noMismatch = true) → Report.headerFixed ∉ s.2 := by
  intro fuel
  induction fuel with
  | zero => intro f s h; simp [scanLoop] at h
  | succ fuel ih =>
    intro f s h hok
    simp only [scanLoop] at h
    by_cases hc : (P f).1 = true
    · simp only [hc, if_true] at h
      cases hrec : scanLoop P fuel (P f).2.1 with
      | none => simp [hrec] at h
      | some s' =>
        simp only [hrec, Option.some.injEq] at h
        subst h
        simp only [List.mem_append, not_or]
        exact ⟨hP f (fun e he => hok e (List.mem_append_left _ he)),
          ih _ _ hrec (fun e he => hok e (List.mem_append_right _ he))⟩
    · simp only [hc, Bool.false_eq_true, if_false, Option.some.injEq] at h
      subst h
      exact hP f hok

/-- C9: with repair enabled, when no block report of the run shows a mismatch (observed
length and CRC-32 equal to the declared ones and, for V2, recomputed header checksum equal
to the stored one), the repair writer is never called (its message is not in the output)
and the file after the run is the file before it. -/
theorem repair_keeps_file_without_mismatch (fuel : Nat) (data : List Byte)
    (hfuel : data.length < fuel)
    (hok : ∀ r, mainOpened fuel true data = some r → ∀ e ∈ r.out, e.noMismatch = true) :
    ∃ r, mainOpened fuel true data = some r ∧ Report.headerFixed ∉ r.out ∧
      r.data = data := by
  by_cases hlen : data.length < 24
  · exact ⟨_, mainOpened_short fuel true data hlen, by simp, rfl⟩
  have hlen' : 24 ≤ data.length := by omega
  by_cases h2 : u32At data 0 = FirmwareBlockHeaderV2Signature
  · obtain ⟨s, hs, hm, _⟩ := mainOpened_V2 fuel true data hfuel hlen' h2
    have hq := scanLoop_quiet _ (ProcessFirmwareBlockV2_quiet InitCRC32Table true) _ _ _ hs
      (hok _ hm)
    exact ⟨_, hm, hq, (scanLoop_frame (stepFrame_V2 InitCRC32Table true) _ _ _ hs).2.2 hq⟩
  by_cases h1 : u16At data 0 = FirmwareBlockHeaderV1Signature
  · obtain ⟨s, hs, hm, _⟩ := mainOpened_V1 fuel true data hfuel hlen' h1
    have hq := scanLoop_quiet _ (ProcessFirmwareBlockV1_quiet InitCRC32Table true) _ _ _ hs
      (hok _ hm)
    exact ⟨_, hm, hq, (scanLoop_frame (stepFrame_V1 InitCRC32Table true) _ _ _ hs).2.2 hq⟩
  · refine ⟨{ exitCode := 1, mode := none, data := data, pos := 0,
              out := [Report.unknownSignature (u32At data 0)] }, ?_, by simp, rfl⟩
    rw [mainOpened_long fuel true data hlen', if_neg h2, if_neg h1]

theorem sampleFileV1_run :
    mainOpened 30 true sampleFileV1 =
      some { exitCode := 0, mode := some HeaderVersion.V1, data := sampleFileV1, pos := 29,
             out := [Report.blockV1 0
               { Signature := 0xAA55, BlockType := 1, Unknown3 := 0, Unknown4 := 0,
                 DataLength := 9, DataCRC32 := 0xCBF43926, FirmwareVersion := 0x01020003 }
               " (CPU)" 9 0xCBF43926 (1, 2, 3) 20] } := by
  decide

/-- Witness of C9: the file `sampleFileV1`, one well-formed V1 block. -/
theorem repair_keeps_file_without_mismatch_witness :
    sampleFileV1.length < 30 ∧
    ∃ r, mainOpened 30 true sampleFileV1 = some r ∧ Report.headerFixed ∉ r.out ∧
      r.data = sampleFileV1 :=
  ⟨by decide,
    repair_keeps_file_without_mismatch 30 sampleFileV1 (by decide) (by
      intro r hr
      rw [sampleFileV1_run] at hr
      injection hr with hr
      subst hr
      decide)⟩

/-! ## Repair of a wrong CRC-32 in the first V1 block -/

/-- The memory of a V1 header whose `DataCRC32` field was overwritten: bytes 12..15
change, the other 16 bytes are as read. -/
theorem encodeV1_set_crc (h : List Byte) (hl : h.length = 20) (c : Nat) :
    encodeV1 { decodeV1 h with DataLength := (decodeV1 h).DataLength, DataCRC32 := c } =
      h.take 12 ++ bytes32 c ++ h.drop 16 := by
  match h, hl with
  | [b0, b1, b2, b3, b4, b5, b6, b7, b8, b9, b10, b11, b12, b13, b14, b15, b16, b17, b18, b19], _ =>
    simp [encodeV1, decodeV1, bytes8, bytes16, bytes32, u8At, u16At, u32At, byteAt_u8,
      byteAt_u16_0, byteAt_u16_1, byteAt_u32_0, byteAt_u32_1, byteAt_u32_2, byteAt_u32_3]

theorem take_drop_glue (l : List Byte) : (l.take 20).drop 16 ++ l.drop 20 = l.drop 16 := by
  have h1 : (l.take 20).drop 16 = (l.drop 16).take 4 := by
    rw [List.drop_take]
  have h2 : l.drop 20 = (l.drop 16).drop 4 := by
    rw [List.drop_drop]
  rw [h1, h2, List.take_append_drop]

theorem getElem?_of_take_eq (X Y : List Byte) (n i : Nat) (h : X.take n = Y.take n)
    (hi : i < n) : X[i]? = Y[i]? := by
  have hx : (X.take n)[i]? = X[i]? := by rw [List.getElem?_take, if_pos hi]
  have hy : (Y.take n)[i]? = Y[i]? := by rw [List.getElem?_take, if_pos hi]
  rw [← hx, ← hy, h]

theorem observedCRC_eq_ref (hs : Nat) (f : FILE) (n : Nat) :
    observedCRC InitCRC32Table hs f n = crc32Ref ((f.data.drop (f.pos + hs)).take n) := by
  have hf : crcTblByte InitCRC32Table = crc32ByteRef :=
    funext fun c => funext fun b => crcTblByte_eq_ref c b
  simp only [observedCRC, crc32Ref, hf]

theorem bytes32_u32 (c : Nat) (hc : c < 2 ^ 32) (l m : List Byte) (hl : l.length = 12) :
    u32At (l ++ bytes32 c ++ m) 12 = c := by
  have e : ∀ j, j < 4 → u8At (l ++ bytes32 c ++ m) (12 + j) = ((bytes32 c).getD j 0).val := by
    intro j hj
    have hlen : (bytes32 c).length = 4 := rfl
    simp only [u8At, List.append_assoc, List.getD_eq_getElem?_getD]
    rw [List.getElem?_append_right (by omega), hl, Nat.add_sub_cancel_left,
      List.getElem?_append_left (by omega)]
  have e0 : u8At (l ++ bytes32 c ++ m) 12 = c % 256 := by
    have := e 0 (by decide); simpa [bytes32, byteAt] using this
  have e1 : u8At (l ++ bytes32 c ++ m) (12 + 1) = c / 256 % 256 := by
    have := e 1 (by decide); simpa [bytes32, byteAt] using this
  have e2 : u8At (l ++ bytes32 c ++ m) (12 + 2) = c / 65536 % 256 := by
    have := e 2 (by decide); simpa [bytes32, byteAt] using this
  have e3 : u8At (l ++ bytes32 c ++ m) (12 + 3) = c / 16777216 % 256 := by
    have := e 3 (by decide); simpa [bytes32, byteAt] using this
  rw [u32At, e0, e1, e2, e3]
  omega

theorem crc32Ref_lt (s : List Byte) : crc32Ref s < 2 ^ 32 := by
  unfold crc32Ref not32
  omega

/-- The first call of `ProcessFirmwareBlockV1` on a V1 file whose first block has its
whole payload and a wrong declared CRC-32, with repair enabled: the call asks to go on,
the cursor is after the payload, and only bytes 12..15 of the file have changed. -/
theorem ProcessFirmwareBlockV1_first_wrong_crc (data : List Byte)
    (hsig : u16At data 0 = FirmwareBlockHeaderV1Signature)
    (hfull : 20 + u32At data 8 ≤ data.length)
    (hcrc : u32At data 12 ≠ crc32Ref ((data.drop 20).take (u32At data 8))) :
    (ProcessFirmwareBlockV1 InitCRC32Table true { data := data, pos := 0 }).1 = true ∧
    (ProcessFirmwareBlockV1 InitCRC32Table true { data := data, pos := 0 }).2.1 =
      { data := data.take 12 ++ bytes32 (crc32Ref ((data.drop 20).take (u32At data 8))) ++
          data.drop 16,
        pos := 20 + u32At data 8 } := by
  let f : FILE := { data := data, pos := 0 }
  have hpos : f.pos = 0 := rfl
  have hdat : f.data = data := rfl
  have hrest : f.rest = data := rfl
  have h20 : (data.take 20).length = 20 := by simp; omega
  have hhdr : headerV1At f = decodeV1 (data.take 20) := rfl
  have hS : (headerV1At f).Signature = FirmwareBlockHeaderV1Signature := by
    rw [hhdr]; exact (u16At_take data 20 0 (by omega)).trans hsig
  have hL : (headerV1At f).DataLength = u32At data 8 := by
    rw [hhdr]; exact u32At_take data 20 8 (by omega)
  have hC : (headerV1At f).DataCRC32 = u32At data 12 := by
    rw [hhdr]; exact u32At_take data 20 12 (by omega)
  have hobs : observedLength 20 f (u32At data 8) = u32At data 8 := by
    simp only [observedLength, hpos, hdat]; omega
  have hoc : observedCRC InitCRC32Table 20 f (u32At data 8) =
      crc32Ref ((data.drop 20).take (u32At data 8)) := by
    rw [observedCRC_eq_ref, hpos, hdat]
  have hr : repairsV1 InitCRC32Table true f = true := by
    simp only [repairsV1, hL, hC, hobs, hoc, Bool.true_and, Bool.or_eq_true, bne_iff_ne, ne_eq]
    exact Or.inr (fun h => hcrc h.symm)
  have hrep : encodeV1 (repairedV1 InitCRC32Table f) =
      data.take 12 ++ bytes32 (crc32Ref ((data.drop 20).take (u32At data 8))) ++
        (data.take 20).drop 16 := by
    have := encodeV1_set_crc (data.take 20) h20 (crc32Ref ((data.drop 20).take (u32At data 8)))
    have ht : (data.take 20).take 12 = data.take 12 := by rw [List.take_take]; rfl
    have hLd : (decodeV1 (data.take 20)).DataLength = u32At data 8 := hL
    rw [ht, hLd] at this
    simp only [repairedV1, hL, hobs, hoc]
    exact this
  have hstep := ProcessFirmwareBlockV1_block InitCRC32Table true f (by rw [hpos, hdat]; omega) hS
  rw [if_pos hr, if_pos hr, hL, hobs, hrep, hpos, hdat] at hstep
  show (ProcessFirmwareBlockV1 InitCRC32Table true f).1 = true ∧
    (ProcessFirmwareBlockV1 InitCRC32Table true f).2.1 = _
  rw [hstep]
  refine ⟨by simp, ?_⟩
  simp only [List.take_zero, List.nil_append, Nat.zero_add, List.append_assoc, take_drop_glue]

theorem scanLoop_step (P : FILE → Bool × FILE × List Report) (k : Nat) (f : FILE)
    (s : FILE × List Report) (hc : (P f).1 = true) (h : scanLoop P (k + 1) f = some s) :
    ∃ s', scanLoop P k (P f).2.1 = some s' ∧ s.1 = s'.1 := by
  simp only [scanLoop, hc, if_true] at h
  cases hrec : scanLoop P k (P f).2.1 with
  | none => simp [hrec] at h
  | some s' =>
    simp only [hrec, Option.some.injEq] at h
    exact ⟨s', rfl, by rw [← h]⟩

theorem patched_getElem?_low (data w : List Byte) (i : Nat) (hi : i < 12)
    (hlen : 12 ≤ data.length) :
    (data.take 12 ++ w ++ data.drop 16)[i]? = data[i]? := by
  rw [List.append_assoc, List.getElem?_append_left (by simp; omega), List.getElem?_take,
    if_pos hi]

theorem patched_getElem?_high (data w : List Byte) (i : Nat) (hi : 16 ≤ i) (hw : w.length = 4)
    (hlen : 12 ≤ data.length) :
    (data.take 12 ++ w ++ data.drop 16)[i]? = data[i]? := by
  have h12 : (data.take 12 ++ w).length = 16 := by simp [hw]; omega
  rw [List.getElem?_append_right (by omega), h12, List.getElem?_drop]
  congr 1
  omega

theorem patched_getElem?_mid (data w : List Byte) (j : Nat) (hj : j < 4) (hw : w.length = 4)
    (hlen : 12 ≤ data.length) :
    (data.take 12 ++ w ++ data.drop 16)[12 + j]? = w[j]? := by
  have h12 : (data.take 12).length = 12 := by simp; omega
  rw [List.append_assoc, List.getElem?_append_right (by omega), h12, Nat.add_sub_cancel_left,
    List.getElem?_append_left (by omega)]

/-- C10: with repair enabled, on a V1 file of at least 24 bytes whose first block has the
V1 signature, its whole payload and a declared CRC-32 different from the CRC-32 of the
payload, the file after the run has the same length, bytes 12..15 hold the observed
CRC-32 in little-endian order, and every other byte of the first block (header bytes
0..11 and 16..19, payload) is unchanged. -/
theorem repair_rewrites_only_crc_field (fuel : Nat) (data : List Byte)
    (hfuel : data.length < fuel) (hlen : 24 ≤ data.length)
    (hsig : u16At data 0 = 0xAA55)
    (hfull : 20 + u32At data 8 ≤ data.length)
    (hcrc : u32At data 12 ≠ crc32Ref ((data.drop 20).take (u32At data 8))) :
    ∃ r, mainOpened fuel true data = some r ∧
      r.data.length = data.length ∧
      (r.data.drop 12).take 4 = bytes32 (crc32Ref ((data.drop 20).take (u32At data 8))) ∧
      u32At r.data 12 = crc32Ref ((data.drop 20).take (u32At data 8)) ∧
      ∀ i, i < 20 + u32At data 8 → (i < 12 ∨ 16 ≤ i) → r.data[i]? = data[i]? := by
  obtain ⟨k, rfl⟩ : ∃ k, fuel = k + 1 := ⟨fuel - 1, by omega⟩
  obtain ⟨s, hs, hm, _⟩ := mainOpened_V1 (k + 1) true data hfuel hlen hsig
  obtain ⟨hret, hfile⟩ := ProcessFirmwareBlockV1_first_wrong_crc data hsig hfull hcrc
  obtain ⟨s', hs', hss⟩ := scanLoop_step _ k _ s hret hs
  obtain ⟨hl, ht, _⟩ := scanLoop_frame (stepFrame_V1 InitCRC32Table true) _ _ _ hs'
  rw [hfile] at hl ht
  simp only at hl ht
  have hw : (bytes32 (crc32Ref ((data.drop 20).take (u32At data 8)))).length = 4 := rfl
  have hlen1 : s.1.data.length = data.length := by
    rw [hss, hl]; simp [hw]; omega
  have hget : ∀ i, i < 20 + u32At data 8 → s.1.data[i]? =
      (data.take 12 ++ bytes32 (crc32Ref ((data.drop 20).take (u32At data 8))) ++
        data.drop 16)[i]? := by
    intro i hi
    rw [hss]
    exact getElem?_of_take_eq _ _ _ i ht hi
  have hmid : (s.1.data.drop 12).take 4 =
      bytes32 (crc32Ref ((data.drop 20).take (u32At data 8))) := by
    apply List.ext_getElem?
    intro j
    by_cases hj : j < 4
    · rw [List.getElem?_take, if_pos hj, List.getElem?_drop, hget _ (by omega),
        patched_getElem?_mid _ _ j hj hw (by omega)]
    · rw [List.getElem?_take, if_neg hj, List.getElem?_eq_none (by rw [hw]; omega)]
  refine ⟨_, hm, hlen1, hmid, ?_, ?_⟩
  · have hsplit : s.1.data = s.1.data.take 12 ++ (s.1.data.drop 12).take 4 ++
        s.1.data.drop 16 := by
      have h1 : s.1.data.drop 16 = (s.1.data.drop 12).drop 4 := by rw [List.drop_drop]
      rw [h1, List.append_assoc, List.take_append_drop, List.take_append_drop]
    show u32At s.1.data 12 = _
    rw [hsplit, hmid]
    exact bytes32_u32 _ (crc32Ref_lt _) _ _ (by simp; omega)
  · intro i hi hrange
    show s.1.data[i]? = data[i]?
    rw [hget i hi]
    rcases hrange with hlow | hhigh
    · exact patched_getElem?_low _ _ i hlow (by omega)
    · exact patched_getElem?_high _ _ i hhigh hw (by omega)

/-- Witness of C10: the file `wrongCrcFileV1`. -/
theorem repair_rewrites_only_crc_field_witness :
    wrongCrcFileV1.length < 30 ∧ 24 ≤ wrongCrcFileV1.length ∧
    u16At wrongCrcFileV1 0 = 0xAA55 ∧ 20 + u32At wrongCrcFileV1 8 ≤ wrongCrcFileV1.length ∧
    u32At wrongCrcFileV1 12 ≠
      crc32Ref ((wrongCrcFileV1.drop 20).take (u32At wrongCrcFileV1 8)) ∧
    ∃ r, mainOpened 30 true wrongCrcFileV1 = some r ∧
      r.data.length = wrongCrcFileV1.length ∧
      u32At r.data 12 = crc32Ref ((wrongCrcFileV1.drop 20).take (u32At wrongCrcFileV1 8)) := by
  have hcrc : u32At wrongCrcFileV1 12 ≠
      crc32Ref ((wrongCrcFileV1.drop 20).take (u32At wrongCrcFileV1 8)) := by
    rw [← observedCRC_eq_ref 20 { data := wrongCrcFileV1, pos := 0 }]
    decide
  obtain ⟨r, hr, hl, _, hu, _⟩ :=
    repair_rewrites_only_crc_field 30 wrongCrcFileV1 (by decide) (by decide) (by decide)
      (by decide) hcrc
  exact ⟨by decide, by decide, by decide, by decide, hcrc, r, hr, hl, hu⟩

/-! ## Short files, version triple, continuation and cursor: main statements -/

/-- C12: for every file shorter than the 24 bytes of the initial read, and so for the
empty file, the initial header read fails: the program prints the read error, exits with
1, starts no scan, reports no block, does not call the repair writer and leaves the file
as it is, with repair enabled or not. -/
theorem short_file_is_rejected (fuel : Nat) (fix : Bool) (data : List Byte)
    (h : data.length < 24) :
    ∃ r, mainOpened fuel fix data = some r ∧ r.exitCode = 1 ∧ r.mode = none ∧
      r.out = [Report.readError] ∧ blockOffsets r.out = [] ∧ Report.headerFixed ∉ r.out ∧
      r.data = data :=
  ⟨_, mainOpened_short fuel fix data h, rfl, rfl, rfl, rfl, by simp, rfl⟩

/-- Witness of C12: the empty file with repair enabled. -/
theorem short_file_is_rejected_witness :
    ([] : List Byte).length < 24 ∧
    ∃ r, mainOpened 1 true [] = some r ∧ r.exitCode = 1 ∧ r.mode = none ∧
      r.out = [Report.readError] ∧ blockOffsets r.out = [] ∧ Report.headerFixed ∉ r.out ∧
      r.data = [] :=
  ⟨by decide, short_file_is_rejected 1 true [] (by decide)⟩

/-- C13: for a 32-bit `FirmwareVersion` `v`, `printFirmwareVersion` prints
major `(v >> 24) & 0xFF`, minor `(v >> 16) & 0xFF` and patch `v & 0xFFFF`; major and
minor are below 256, patch is below 65536, and
`v = major * 2^24 + minor * 2^16 + patch`. -/
theorem printFirmwareVersion_triple (v : Nat) (hv : v < 2 ^ 32) :
    printFirmwareVersion v = ((v >>> 24) &&& 0xFF, (v >>> 16) &&& 0xFF, v &&& 0xFFFF) ∧
    (printFirmwareVersion v).1 < 256 ∧ (printFirmwareVersion v).2.1 < 256 ∧
    (printFirmwareVersion v).2.2 < 65536 ∧
    v = (printFirmwareVersion v).1 * 2 ^ 24 + (printFirmwareVersion v).2.1 * 2 ^ 16 +
      (printFirmwareVersion v).2.2 := by
  have h1 : (v >>> 24) &&& 0xFF = v / 2 ^ 24 % 2 ^ 8 := by
    rw [Nat.shiftRight_eq_div_pow]; exact Nat.and_pow_two_sub_one_eq_mod _ 8
  have h2 : (v >>> 16) &&& 0xFF = v / 2 ^ 16 % 2 ^ 8 := by
    rw [Nat.shiftRight_eq_div_pow]; exact Nat.and_pow_two_sub_one_eq_mod _ 8
  have h3 : v &&& 0xFFFF = v % 2 ^ 16 := Nat.and_pow_two_sub_one_eq_mod _ 16
  refine ⟨rfl, ?_⟩
  simp only [printFirmwareVersion, h1, h2, h3]
  omega

/-- Witness of C13: version 1.2.3, stored as `0x01020003`. -/
theorem printFirmwareVersion_triple_witness :
    0x01020003 < 2 ^ 32 ∧ printFirmwareVersion 0x01020003 = (1, 2, 3) ∧
    0x01020003 = (printFirmwareVersion 0x01020003).1 * 2 ^ 24 +
      (printFirmwareVersion 0x01020003).2.1 * 2 ^ 16 + (printFirmwareVersion 0x01020003).2.2 :=
  ⟨by decide, by decide,
    (printFirmwareVersion_triple 0x01020003 (by decide)).2.2.2.2⟩

theorem observedLength_eq_iff (hs : Nat) (f : FILE) (n : Nat) :
    (n == observedLength hs f n) = true ↔ n ≤ f.data.length - (f.pos + hs) := by
  simp only [observedLength, beq_iff_eq]
  omega

/-- C14: for a block whose header was read in full and has a valid signature, in V1 and
in V2 mode, with any table and with repair on or off, the processing call asks for the
next block exactly when the payload bytes available are at least the declared length,
that is when the observed length equals the declared one; the CRC-32 and the header
checksum play no part in it. -/
theorem scan_continues_iff_payload_complete (tbl : List Nat) (fix : Bool) (f : FILE) :
    (f.pos + 20 ≤ f.data.length → (headerV1At f).Signature = 0xAA55 →
      (((ProcessFirmwareBlockV1 tbl fix f).1 = true ↔
          (headerV1At f).DataLength ≤ f.data.length - (f.pos + 20)) ∧
       ((ProcessFirmwareBlockV1 tbl fix f).1 = true ↔
          observedLength 20 f (headerV1At f).DataLength = (headerV1At f).DataLength))) ∧
    (f.pos + 24 ≤ f.data.length → (headerV2At f).Signature = 0x5A →
      (((ProcessFirmwareBlockV2 tbl fix f).1 = true ↔
          (headerV2At f).DataLength ≤ f.data.length - (f.pos + 24)) ∧
       ((ProcessFirmwareBlockV2 tbl fix f).1 = true ↔
          observedLength 24 f (headerV2At f).DataLength = (headerV2At f).DataLength))) := by
  constructor
  · intro h hsig
    rw [ProcessFirmwareBlockV1_block tbl fix f h hsig]
    exact ⟨observedLength_eq_iff 20 f _, by simp only [beq_iff_eq]; exact eq_comm⟩
  · intro h hsig
    rw [ProcessFirmwareBlockV2_block tbl fix f h hsig]
    exact ⟨observedLength_eq_iff 24 f _, by simp only [beq_iff_eq]; exact eq_comm⟩

/-- Witness of C14: the first block of `wrongCrcFileV1` (complete payload, wrong CRC-32:
the scan goes on) and the block of `truncatedV2File` (payload 10 bytes short: it stops),
with repair enabled. -/
theorem scan_continues_iff_payload_complete_witness :
    (ProcessFirmwareBlockV1 InitCRC32Table true { data := wrongCrcFileV1, pos := 0 }).1 = true ∧
    ¬ ((ProcessFirmwareBlockV2 InitCRC32Table true { data := truncatedV2File, pos := 0 }).1
        = true) := by
  have h := scan_continues_iff_payload_complete InitCRC32Table true
    { data := wrongCrcFileV1, pos := 0 }
  have h' := scan_continues_iff_payload_complete InitCRC32Table true
    { data := truncatedV2File, pos := 0 }
  exact ⟨(h.1 (by decide) (by decide)).1.2 (by decide),
    fun hc => absurd ((h'.2 (by decide) (by decide)).1.1 hc) (by decide)⟩

/-- C15: for a block whose header was read in full and has a valid signature and that
starts at offset `o`, the cursor after the processing call is
`o + headerSize + observedByteCount`, with header size 20 for V1 and 24 for V2 and
`observedByteCount = min declaredDataLength (bytes after the header)`, with repair on or
off and whether or not the repair writer was called. -/
theorem cursor_after_block (tbl : List Nat) (fix : Bool) (f : FILE) :
    (f.pos + 20 ≤ f.data.length → (headerV1At f).Signature = 0xAA55 →
      (ProcessFirmwareBlockV1 tbl fix f).2.1.pos =
        f.pos + 20 + min (headerV1At f).DataLength (f.data.length - (f.pos + 20))) ∧
    (f.pos + 24 ≤ f.data.length → (headerV2At f).Signature = 0x5A →
      (ProcessFirmwareBlockV2 tbl fix f).2.1.pos =
        f.pos + 24 + min (headerV2At f).DataLength (f.data.length - (f.pos + 24))) := by
  constructor
  · intro h hsig
    rw [ProcessFirmwareBlockV1_block tbl fix f h hsig]; rfl
  · intro h hsig
    rw [ProcessFirmwareBlockV2_block tbl fix f h hsig]; rfl

/-- Witness of C15: the first block of `wrongCrcFileV1` and the block of
`truncatedV2File`, both rewritten by the repair writer. -/
theorem cursor_after_block_witness :
    (ProcessFirmwareBlockV1 InitCRC32Table true { data := wrongCrcFileV1, pos := 0 }).2.1.pos
      = 0 + 20 + min 9 (29 - (0 + 20)) ∧
    (ProcessFirmwareBlockV2 InitCRC32Table true { data := truncatedV2File, pos := 0 }).2.1.pos
      = 0 + 24 + min 19 (33 - (0 + 24)) :=
  ⟨(cursor_after_block InitCRC32Table true { data := wrongCrcFileV1, pos := 0 }).1
      (by decide) (by decide),
   (cursor_after_block InitCRC32Table true { data := truncatedV2File, pos := 0 }).2
      (by decide) (by decide)⟩

/-! ## Headers in range and the header left in the file by the repair writer -/

theorem u16At_lt (l : List Byte) (i : Nat) : u16At l i < 2 ^ 16 := by
  have h0 := u8At_lt l i
  have h1 := u8At_lt l (i + 1)
  simp only [u16At]; omega

theorem u32At_lt (l : List Byte) (i : Nat) : u32At l i < 2 ^ 32 := by
  have h0 := u8At_lt l i
  have h1 := u8At_lt l (i + 1)
  have h2 := u8At_lt l (i + 2)
  have h3 := u8At_lt l (i + 3)
  simp only [u32At]; omega

theorem decodeV1_inRange (buf : List Byte) : (decodeV1 buf).inRange :=
  ⟨u16At_lt _ _, u8At_lt _ _, u8At_lt _ _, u32At_lt _ _, u32At_lt _ _, u32At_lt _ _,
    u32At_lt _ _⟩

theorem decodeV2_inRange (buf : List Byte) : (decodeV2 buf).inRange :=
  ⟨u32At_lt _ _, u8At_lt _ _, u8At_lt _ _, u16At_lt _ _, u32At_lt _ _, u32At_lt _ _,
    u32At_lt _ _, u16At_lt _ _, u16At_lt _ _⟩

theorem decodeV1_encodeV1 (h : FirmwareBlockHeaderV1) (hr : h.inRange) :
    decodeV1 (encodeV1 h) = h := by
  obtain ⟨h1, h2, h3, h4, h5, h6, h7⟩ := hr
  cases h
  simp only [decodeV1, encodeV1, bytes8, bytes16, bytes32, byteAt, u8At, u16At, u32At,
    List.cons_append, List.nil_append, List.getD_cons_zero, List.getD_cons_succ,
    FirmwareBlockHeaderV1.mk.injEq] at *
  refine ⟨?_, ?_, ?_, ?_, ?_, ?_, ?_⟩ <;> omega

theorem decodeV2_encodeV2 (h : FirmwareBlockHeaderV2) (hr : h.inRange) :
    decodeV2 (encodeV2 h) = h := by
  obtain ⟨h1, h2, h3, h4, h5, h6, h7, h8, h9⟩ := hr
  cases h
  simp only [decodeV2, encodeV2, bytes8, bytes16, bytes32, byteAt, u8At, u16At, u32At,
    List.cons_append, List.nil_append, List.getD_cons_zero, List.getD_cons_succ,
    FirmwareBlockHeaderV2.mk.injEq] at *
  refine ⟨?_, ?_, ?_, ?_, ?_, ?_, ?_, ?_, ?_⟩ <;> omega

theorem not32_lt (x : Nat) : not32 x < 2 ^ 32 := by
  unfold not32; omega

theorem observedCRC_lt (tbl : List Nat) (hs : Nat) (f : FILE) (n : Nat) :
    observedCRC tbl hs f n < 2 ^ 32 := not32_lt _

theorem observedLength_le_declared (hs : Nat) (f : FILE) (n : Nat) :
    observedLength hs f n ≤ n := Nat.min_le_left _ _

theorem checksumBitStep_lt (s : Nat × Nat) (h : s.1 < 256) : (checksumBitStep s).1 < 256 := by
  simp only [checksumBitStep, Nat.shiftRight_one]
  have h1 : s.1 / 2 < 2 ^ 8 := by omega
  split
  · exact Nat.xor_lt_two_pow h1 (by decide)
  · exact h1

theorem checksumBitStep_iter_lt (n : Nat) :
    ∀ s : Nat × Nat, s.1 < 256 → (checksumBitStep^[n] s).1 < 256 := by
  induction n with
  | zero => intro s h; exact h
  | succ n ih =>
    intro s h
    simp only [Function.iterate_succ, Function.comp_apply]
    exact ih _ (checksumBitStep_lt s h)

theorem foldl_checksumByte_lt (l : List Byte) :
    ∀ r : Nat, r < 256 → l.foldl checksumByte r < 256 := by
  induction l with
  | nil => intro r h; exact h
  | cons b t ih =>
    intro r h
    exact ih _ (checksumBitStep_iter_lt 8 (r, b.val) h)

/-- The header checksum fits one byte. -/
theorem CalculateHeaderChecksum_lt (h : FirmwareBlockHeaderV2) :
    CalculateHeaderChecksum h < 256 :=
  foldl_checksumByte_lt _ 0 (by decide)

theorem repairedV1_inRange (tbl : List Nat) (f : FILE) : (repairedV1 tbl f).inRange := by
  obtain ⟨h1, h2, h3, h4, h5, h6, h7⟩ := decodeV1_inRange (f.rest.take 20)
  exact ⟨h1, h2, h3, h4,
    Nat.lt_of_le_of_lt (observedLength_le_declared _ _ _) h5, observedCRC_lt _ _ _ _, h7⟩

theorem repairedV2_inRange (tbl : List Nat) (f : FILE) : (repairedV2 tbl f).inRange := by
  obtain ⟨h1, h2, h3, h4, h5, h6, h7, h8, h9⟩ := decodeV2_inRange (f.rest.take 24)
  exact ⟨h1, Nat.mod_lt _ (by decide), h3, h4, h5, observedCRC_lt _ _ _ _,
    Nat.lt_of_le_of_lt (observedLength_le_declared _ _ _) h7, h8, h9⟩

/-- The stored checksum of the header handed to the repair writer is the checksum of that
header. -/
theorem repairedV2_verifies (tbl : List Nat) (f : FILE) :
    CalculateHeaderChecksum (repairedV2 tbl f) = (repairedV2 tbl f).HeaderChecksum := by
  have h : (repairedV2 tbl f).HeaderChecksum =
      CalculateHeaderChecksum (repairedV2 tbl f) % 256 := rfl
  rw [h, Nat.mod_eq_of_lt (CalculateHeaderChecksum_lt _)]

theorem spliced_drop (d w : List Byte) (p : Nat) (hp : p + 20 ≤ d.length) :
    (d.take p ++ w ++ d.drop (p + 20)).drop p = w ++ d.drop (p + 20) := by
  have hl : (d.take p).length = p := by simp; omega
  rw [List.append_assoc]
  exact List.drop_left' hl

theorem spliced_drop_after (d w : List Byte) (p : Nat) (hp : p + 20 ≤ d.length)
    (hw : w.length = 20) (k : Nat) :
    (d.take p ++ w ++ d.drop (p + 20)).drop (p + 20 + k) = d.drop (p + 20 + k) := by
  have hl : (d.take p ++ w).length = p + 20 := by simp [hw]; omega
  rw [← List.drop_drop, List.drop_left' hl, List.drop_drop]

theorem window_of_take_eq (X Y : List Byte) (q a n : Nat) (h : X.take q = Y.take q)
    (ha : a + n ≤ q) : (X.drop a).take n = (Y.drop a).take n := by
  have key : ∀ Z : List Byte, (Z.drop a).take n = ((Z.take q).drop a).take n := by
    intro Z
    rw [List.drop_take, List.take_take, Nat.min_eq_left (by omega)]
  rw [key X, key Y, h]

theorem take_min_length (l : List Byte) (n : Nat) : l.take (min n l.length) = l.take n := by
  rcases Nat.le_total n l.length with hle | hle
  · rw [Nat.min_eq_left hle]
  · rw [Nat.min_eq_right hle, List.take_length, List.take_of_length_le hle]

/-- The CRC-32 over the payload bytes found does not change when the declared length is
replaced by the observed one. -/
theorem observedCRC_observedLength (tbl : List Nat) (hs : Nat) (f : FILE) (n : Nat) :
    observedCRC tbl hs f (observedLength hs f n) = observedCRC tbl hs f n := by
  have h : observedLength hs f n = min n (f.data.drop (f.pos + hs)).length := by
    simp [observedLength]
  simp only [observedCRC, h, take_min_length]

/-- The file after a call of `ProcessFirmwareBlockV1` with repair enabled on a complete
header with the V1 signature: same length, same bytes after the header, and the header
now in the file declares the observed length and the observed CRC-32. -/
theorem ProcessFirmwareBlockV1_header_after (tbl : List Nat) (f : FILE)
    (h : f.pos + 20 ≤ f.data.length)
    (hsig : (headerV1At f).Signature = FirmwareBlockHeaderV1Signature) :
    (ProcessFirmwareBlockV1 tbl true f).2.1.data.length = f.data.length ∧
    (ProcessFirmwareBlockV1 tbl true f).2.1.data.drop (f.pos + 20) =
      f.data.drop (f.pos + 20) ∧
    headerV1At { data := (ProcessFirmwareBlockV1 tbl true f).2.1.data, pos := f.pos } =
      repairedV1 tbl f := by
  rw [ProcessFirmwareBlockV1_block tbl true f h hsig]
  by_cases hr : repairsV1 tbl true f = true
  · simp only [hr, if_true]
    refine ⟨spliced_length _ _ _ h (encodeV1_length _), ?_, ?_⟩
    · exact spliced_drop_after _ _ _ h (encodeV1_length _) 0
    · simp only [headerV1At, FILE.rest]
      rw [spliced_drop _ _ _ h, List.take_left' (encodeV1_length _)]
      exact decodeV1_encodeV1 _ (repairedV1_inRange tbl f)
  · simp only [hr, Bool.false_eq_true, if_false, true_and]
    have hr' : repairsV1 tbl true f = false := by simpa using hr
    simp only [repairsV1, Bool.true_and, Bool.or_eq_false_iff, bne_eq_false_iff_eq] at hr'
    show headerV1At f = repairedV1 tbl f
    simp only [repairedV1, ← hr'.1, hr'.2]

theorem header_window_length (f : FILE) (hs : Nat) (h : f.pos + hs ≤ f.data.length) :
    (f.rest.take hs).length = hs := by
  simp [FILE.rest]; omega

/-- The 24 bytes of the V2 header under the cursor are the memory of the decoded
header. -/
theorem encodeV2_headerV2At (f : FILE) (h : f.pos + 24 ≤ f.data.length) :
    encodeV2 (headerV2At f) = f.rest.take 24 :=
  encodeV2_decodeV2 _ (header_window_length f 24 h)

/-- The 20 bytes of the V1 header under the cursor are the memory of the decoded
header. -/
theorem encodeV1_headerV1At (f : FILE) (h : f.pos + 20 ≤ f.data.length) :
    encodeV1 (headerV1At f) = f.rest.take 20 :=
  encodeV1_decodeV1 _ (header_window_length f 20 h)

/-- The last four bytes of the header handed to the repair writer are the bytes 20..23 of
the header in the file. -/
theorem repairedV2_tail (tbl : List Nat) (f : FILE) (h : f.pos + 24 ≤ f.data.length) :
    (encodeV2 (repairedV2 tbl f)).drop 20 = (f.data.drop (f.pos + 20)).take 4 := by
  have h1 : (encodeV2 (repairedV2 tbl f)).drop 20 = (encodeV2 (headerV2At f)).drop 20 := rfl
  rw [h1, encodeV2_headerV2At f h, FILE.rest, List.drop_take, List.drop_drop]

/-- Without a mismatch the header handed to the repair writer would be the header as
read. -/
theorem repairedV2_of_no_repair (tbl : List Nat) (f : FILE)
    (hr : repairsV2 tbl true f = false) : repairedV2 tbl f = headerV2At f := by
  simp only [repairsV2, Bool.true_and, Bool.or_eq_false_iff, bne_eq_false_iff_eq] at hr
  obtain ⟨⟨hl, hc⟩, hk⟩ := hr
  have hin : ({ headerV2At f with
      DataLength := observedLength 24 f (headerV2At f).DataLength,
      DataCRC32 := observedCRC tbl 24 f (headerV2At f).DataLength } : FirmwareBlockHeaderV2)
      = headerV2At f := by
    rw [← hl, hc]
  simp only [repairedV2]
  rw [hin, Nat.mod_eq_of_lt (CalculateHeaderChecksum_lt _), hk, ← hl, hc]

/-- The file after a call of `ProcessFirmwareBlockV2` with repair enabled on a complete
header with the V2 signature: same length, same bytes after the header, and the 24 bytes
at the header offset are the memory of the corrected header. -/
theorem ProcessFirmwareBlockV2_header_after (tbl : List Nat) (f : FILE)
    (h : f.pos + 24 ≤ f.data.length)
    (hsig : (headerV2At f).Signature = FirmwareBlockHeaderV2Signature) :
    (ProcessFirmwareBlockV2 tbl true f).2.1.data.length = f.data.length ∧
    (ProcessFirmwareBlockV2 tbl true f).2.1.data.drop (f.pos + 24) =
      f.data.drop (f.pos + 24) ∧
    ((ProcessFirmwareBlockV2 tbl true f).2.1.data.drop f.pos).take 24 =
      encodeV2 (repairedV2 tbl f) ∧
    headerV2At { data := (ProcessFirmwareBlockV2 tbl true f).2.1.data, pos := f.pos } =
      repairedV2 tbl f := by
  have hbytes : ∀ X : List Byte, (X.drop f.pos).take 24 = encodeV2 (repairedV2 tbl f) →
      headerV2At { data := X, pos := f.pos } = repairedV2 tbl f := by
    intro X hX
    simp only [headerV2At, FILE.rest, hX]
    exact decodeV2_encodeV2 _ (repairedV2_inRange tbl f)
  have hmain : (ProcessFirmwareBlockV2 tbl true f).2.1.data.length = f.data.length ∧
      (ProcessFirmwareBlockV2 tbl true f).2.1.data.drop (f.pos + 24) =
        f.data.drop (f.pos + 24) ∧
      ((ProcessFirmwareBlockV2 tbl true f).2.1.data.drop f.pos).take 24 =
        encodeV2 (repairedV2 tbl f) := by
    rw [ProcessFirmwareBlockV2_block tbl true f h hsig]
    by_cases hr : repairsV2 tbl true f = true
    · simp only [hr, if_true]
      have hw : ((encodeV2 (repairedV2 tbl f)).take 20).length = 20 := rfl
      refine ⟨spliced_length _ _ _ (by omega) hw, ?_, ?_⟩
      · exact spliced_drop_after _ _ _ (by omega) hw 4
      · rw [spliced_drop _ _ _ (by omega), List.take_append_eq_append_take, hw,
          List.take_of_length_le (by rw [hw]; decide), ← repairedV2_tail tbl f h]
        exact List.take_append_drop 20 _
    · have hr' : repairsV2 tbl true f = false := by simpa using hr
      simp only [hr, Bool.false_eq_true, if_false, true_and]
      rw [repairedV2_of_no_repair tbl f hr', encodeV2_headerV2At f h]
      rfl
  exact ⟨hmain.1, hmain.2.1, hmain.2.2, hbytes _ hmain.2.2⟩

theorem observedLength_short (hs : Nat) (f : FILE) (n : Nat)
    (h : f.data.length - (f.pos + hs) < n) :
    observedLength hs f n = f.data.length - (f.pos + hs) := by
  unfold observedLength; omega

theorem observedCRC_short (hs : Nat) (f : FILE) (n : Nat)
    (h : f.data.length - (f.pos + hs) < n) :
    observedCRC InitCRC32Table hs f n = crc32Ref (f.data.drop (f.pos + hs)) := by
  rw [observedCRC_eq_ref, List.take_of_length_le (by simp; omega)]

/-! ## What the repair writer leaves in the file: main statements -/

/-- C16: with repair enabled, for a block (V1 or V2) whose payload is shorter than the
declared length, the repair writer is called and the header then found in the file at the
block offset has in its `DataLength` field the number of payload bytes present, which is
not the length declared before, and in its `DataCRC32` field the CRC-32 of the bytes
present. -/
theorem repair_stores_observed_length (f : FILE) :
    (f.pos + 20 ≤ f.data.length → (headerV1At f).Signature = 0xAA55 →
      f.data.length - (f.pos + 20) < (headerV1At f).DataLength →
      Report.headerFixed ∈ (ProcessFirmwareBlockV1 InitCRC32Table true f).2.2 ∧
      (headerV1At { data := (ProcessFirmwareBlockV1 InitCRC32Table true f).2.1.data,
                    pos := f.pos }).DataLength = f.data.length - (f.pos + 20) ∧
      (headerV1At { data := (ProcessFirmwareBlockV1 InitCRC32Table true f).2.1.data,
                    pos := f.pos }).DataLength ≠ (headerV1At f).DataLength ∧
      (headerV1At { data := (ProcessFirmwareBlockV1 InitCRC32Table true f).2.1.data,
                    pos := f.pos }).DataCRC32 = crc32Ref (f.data.drop (f.pos + 20))) ∧
    (f.pos + 24 ≤ f.data.length → (headerV2At f).Signature = 0x5A →
      f.data.length - (f.pos + 24) < (headerV2At f).DataLength →
      Report.headerFixed ∈ (ProcessFirmwareBlockV2 InitCRC32Table true f).2.2 ∧
      (headerV2At { data := (ProcessFirmwareBlockV2 InitCRC32Table true f).2.1.data,
                    pos := f.pos }).DataLength = f.data.length - (f.pos + 24) ∧
      (headerV2At { data := (ProcessFirmwareBlockV2 InitCRC32Table true f).2.1.data,
                    pos := f.pos }).DataLength ≠ (headerV2At f).DataLength ∧
      (headerV2At { data := (ProcessFirmwareBlockV2 InitCRC32Table true f).2.1.data,
                    pos := f.pos }).DataCRC32 = crc32Ref (f.data.drop (f.pos + 24))) := by
  constructor
  · intro h hsig hshort
    have hobs := observedLength_short 20 f _ hshort
    have hr : repairsV1 InitCRC32Table true f = true := by
      simp only [repairsV1, hobs, Bool.true_and, Bool.or_eq_true, bne_iff_ne, ne_eq]
      exact Or.inl (by omega)
    obtain ⟨_, _, hh⟩ := ProcessFirmwareBlockV1_header_after InitCRC32Table f h hsig
    rw [hh]
    refine ⟨?_, hobs, ?_, observedCRC_short 20 f _ hshort⟩
    · rw [ProcessFirmwareBlockV1_block InitCRC32Table true f h hsig]
      simp [hr]
    · show observedLength 20 f (headerV1At f).DataLength ≠ _
      omega
  · intro h hsig hshort
    have hobs := observedLength_short 24 f _ hshort
    have hr : repairsV2 InitCRC32Table true f = true := by
      simp only [repairsV2, hobs, Bool.true_and, Bool.or_eq_true, bne_iff_ne, ne_eq]
      exact Or.inl (Or.inl (by omega))
    obtain ⟨_, _, _, hh⟩ := ProcessFirmwareBlockV2_header_after InitCRC32Table f h hsig
    rw [hh]
    refine ⟨?_, hobs, ?_, observedCRC_short 24 f _ hshort⟩
    · rw [ProcessFirmwareBlockV2_block InitCRC32Table true f h hsig]
      simp [hr]
    · show observedLength 24 f (headerV2At f).DataLength ≠ _
      omega

/-- Witness of C16: the blocks of `truncatedV1File` and `truncatedV2File`, which declare
19 payload bytes and have 9: the header in the file then declares 9. -/
theorem repair_stores_observed_length_witness :
    (headerV1At { data := (ProcessFirmwareBlockV1 InitCRC32Table true
        { data := truncatedV1File, pos := 0 }).2.1.data, pos := 0 }).DataLength = 29 - (0 + 20) ∧
    (headerV2At { data := (ProcessFirmwareBlockV2 InitCRC32Table true
        { data := truncatedV2File, pos := 0 }).2.1.data, pos := 0 }).DataLength = 33 - (0 + 24) :=
  ⟨((repair_stores_observed_length { data := truncatedV1File, pos := 0 }).1
      (by decide) (by decide) (by decide)).2.1,
   ((repair_stores_observed_length { data := truncatedV2File, pos := 0 }).2
      (by decide) (by decide) (by decide)).2.1⟩

/-- C17: with repair enabled, for a V2 block on which the repair writer is called, the
24 bytes of the file at the header offset are afterwards the memory of the corrected
header: its `DataCRC32` is the observed CRC-32, its stored checksum byte is the checksum
of the updated bytes 5..23, so the header verifies, and the signature and the last four
bytes are as read. (The writer replaces only the first 20 bytes; the last four are never
changed in memory.) -/
theorem repaired_V2_header_verifies (f : FILE)
    (h : f.pos + 24 ≤ f.data.length) (hsig : (headerV2At f).Signature = 0x5A)
    (hfix : Report.headerFixed ∈ (ProcessFirmwareBlockV2 InitCRC32Table true f).2.2) :
    repairsV2 InitCRC32Table true f = true ∧
    ((ProcessFirmwareBlockV2 InitCRC32Table true f).2.1.data.drop f.pos).take 24 =
      encodeV2 (repairedV2 InitCRC32Table f) ∧
    (headerV2At { data := (ProcessFirmwareBlockV2 InitCRC32Table true f).2.1.data,
                  pos := f.pos }).DataCRC32 =
      crc32Ref ((f.data.drop (f.pos + 24)).take (headerV2At f).DataLength) ∧
    (headerV2At { data := (ProcessFirmwareBlockV2 InitCRC32Table true f).2.1.data,
                  pos := f.pos }).HeaderChecksum =
      headerChecksumRef
        ((((ProcessFirmwareBlockV2 InitCRC32Table true f).2.1.data.drop f.pos).take 24).drop 5) ∧
    CalculateHeaderChecksum
        (headerV2At { data := (ProcessFirmwareBlockV2 InitCRC32Table true f).2.1.data,
                      pos := f.pos }) =
      (headerV2At { data := (ProcessFirmwareBlockV2 InitCRC32Table true f).2.1.data,
                    pos := f.pos }).HeaderChecksum ∧
    (headerV2At { data := (ProcessFirmwareBlockV2 InitCRC32Table true f).2.1.data,
                  pos := f.pos }).Signature = (headerV2At f).Signature ∧
    ((ProcessFirmwareBlockV2 InitCRC32Table true f).2.1.data.drop (f.pos + 20)).take 4 =
      (f.data.drop (f.pos + 20)).take 4 := by
  have hr : repairsV2 InitCRC32Table true f = true := by
    rw [ProcessFirmwareBlockV2_block InitCRC32Table true f h hsig] at hfix
    by_contra hc
    simp [hc, reportV2] at hfix
  obtain ⟨hlen, hdrop, hbytes, hh⟩ :=
    ProcessFirmwareBlockV2_header_after InitCRC32Table f h hsig
  have hver := repairedV2_verifies InitCRC32Table f
  refine ⟨hr, hbytes, ?_, ?_, ?_, ?_, ?_⟩
  · rw [hh]; exact observedCRC_eq_ref 24 f _
  · rw [hh, ← hver, hbytes]
    have := CalculateHeaderChecksum_decodeV2 (encodeV2 (repairedV2 InitCRC32Table f)) rfl
    rwa [decodeV2_encodeV2 _ (repairedV2_inRange _ f)] at this
  · rw [hh]; exact hver
  · rw [hh]; rfl
  · have h1 := congrArg (List.drop 20) hbytes
    rw [List.drop_take, List.drop_drop, repairedV2_tail InitCRC32Table f h] at h1
    exact h1

/-- Witness of C17: the block of `truncatedV2File`. -/
theorem repaired_V2_header_verifies_witness :
    ((ProcessFirmwareBlockV2 InitCRC32Table true
        { data := truncatedV2File, pos := 0 }).2.1.data.drop 0).take 24 =
      encodeV2 (repairedV2 InitCRC32Table { data := truncatedV2File, pos := 0 }) ∧
    CalculateHeaderChecksum
        (headerV2At { data := (ProcessFirmwareBlockV2 InitCRC32Table true
          { data := truncatedV2File, pos := 0 }).2.1.data, pos := 0 }) =
      (headerV2At { data := (ProcessFirmwareBlockV2 InitCRC32Table true
          { data := truncatedV2File, pos := 0 }).2.1.data, pos := 0 }).HeaderChecksum := by
  have h := repaired_V2_header_verifies { data := truncatedV2File, pos := 0 }
    (by decide) (by decide) (by decide)
  exact ⟨h.2.1, h.2.2.2.2.1⟩

/-! ## A second look at a block after a repair run -/

/-- A call of `ProcessFirmwareBlockV1` on a block whose header declares a length that is
present and the CRC-32 of the payload: no repair, one report without mismatch, and the
scan goes on. -/
theorem ProcessFirmwareBlockV1_settled (tbl : List Nat) (fix : Bool) (g : FILE) (n : Nat)
    (h : g.pos + 20 + n ≤ g.data.length)
    (hsig : (headerV1At g).Signature = FirmwareBlockHeaderV1Signature)
    (hlen : (headerV1At g).DataLength = n)
    (hcrc : (headerV1At g).DataCRC32 = observedCRC tbl 20 g n) :
    ProcessFirmwareBlockV1 tbl fix g =
      (true, { data := g.data, pos := g.pos + 20 + n }, [reportV1 tbl g]) ∧
    (reportV1 tbl g).noMismatch = true := by
  have hobs : observedLength 20 g n = n := by unfold observedLength; omega
  have hr : repairsV1 tbl fix g = false := by
    simp only [repairsV1, hlen, hobs, hcrc, bne_self_eq_false, Bool.or_self, Bool.and_false]
  constructor
  · rw [ProcessFirmwareBlockV1_block tbl fix g (by omega) hsig, hlen, hobs]
    simp [hr]
  · simp only [reportV1, Report.noMismatch, hlen, hobs, hcrc, beq_self_eq_true, Bool.and_self]

/-- A call of `ProcessFirmwareBlockV2` on a block whose header verifies and declares a
length that is present and the CRC-32 of the payload: no repair, one report without
mismatch, and the scan goes on. -/
theorem ProcessFirmwareBlockV2_settled (tbl : List Nat) (fix : Bool) (g : FILE) (n : Nat)
    (h : g.pos + 24 + n ≤ g.data.length)
    (hsig : (headerV2At g).Signature = FirmwareBlockHeaderV2Signature)
    (hlen : (headerV2At g).DataLength = n)
    (hcrc : (headerV2At g).DataCRC32 = observedCRC tbl 24 g n)
    (hsum : CalculateHeaderChecksum (headerV2At g) = (headerV2At g).HeaderChecksum) :
    ProcessFirmwareBlockV2 tbl fix g =
      (true, { data := g.data, pos := g.pos + 24 + n }, [reportV2 tbl g]) ∧
    (reportV2 tbl g).noMismatch = true := by
  have hobs : observedLength 24 g n = n := by unfold observedLength; omega
  have hr : repairsV2 tbl fix g = false := by
    simp only [repairsV2, hlen, hobs, hcrc, hsum, bne_self_eq_false, Bool.or_self,
      Bool.and_false]
  constructor
  · rw [ProcessFirmwareBlockV2_block tbl fix g (by omega) hsig, hlen, hobs]
    simp [hr]
  · simp only [reportV2, Report.noMismatch, hlen, hobs, hcrc, hsum, beq_self_eq_true,
      Bool.and_self]

theorem observedCRC_congr (tbl : List Nat) (hs : Nat) (g g' : FILE) (n : Nat)
    (hw : (g.data.drop (g.pos + hs)).take n = (g'.data.drop (g'.pos + hs)).take n) :
    observedCRC tbl hs g n = observedCRC tbl hs g' n := by
  simp only [observedCRC, hw]

/-- After a repair-mode call of `ProcessFirmwareBlockV1` on a complete header with the V1
signature, a call at the same offset on any file of the same length that agrees with the
repaired file up to the end of the payload found shows no mismatch and goes on. -/
theorem ProcessFirmwareBlockV1_second (tbl : List Nat) (f : FILE) (D : List Byte)
    (h : f.pos + 20 ≤ f.data.length)
    (hsig : (headerV1At f).Signature = FirmwareBlockHeaderV1Signature)
    (hDlen : D.length = f.data.length)
    (hD : D.take (f.pos + 20 + observedLength 20 f (headerV1At f).DataLength) =
      (ProcessFirmwareBlockV1 tbl true f).2.1.data.take
        (f.pos + 20 + observedLength 20 f (headerV1At f).DataLength)) :
    ProcessFirmwareBlockV1 tbl true { data := D, pos := f.pos } =
      (true,
       { data := D, pos := f.pos + 20 + observedLength 20 f (headerV1At f).DataLength },
       [reportV1 tbl { data := D, pos := f.pos }]) ∧
    (reportV1 tbl { data := D, pos := f.pos }).noMismatch = true := by
  obtain ⟨_, hdrop, hh⟩ := ProcessFirmwareBlockV1_header_after tbl f h hsig
  have hobs := observedLength_le 20 f (headerV1At f).DataLength h
  have hhD : headerV1At { data := D, pos := f.pos } = repairedV1 tbl f := by
    rw [← hh]
    simp only [headerV1At, FILE.rest]
    rw [window_of_take_eq _ _ _ f.pos 20 hD (by omega)]
  have hcrcD : observedCRC tbl 20 { data := D, pos := f.pos }
      (observedLength 20 f (headerV1At f).DataLength) =
      observedCRC tbl 20 f (headerV1At f).DataLength := by
    rw [← observedCRC_observedLength tbl 20 f]
    refine observedCRC_congr tbl 20 { data := D, pos := f.pos } f _ ?_
    show (D.drop (f.pos + 20)).take _ = (f.data.drop (f.pos + 20)).take _
    rw [window_of_take_eq _ _ _ (f.pos + 20) _ hD (Nat.le_refl _), hdrop]
  exact ProcessFirmwareBlockV1_settled tbl true { data := D, pos := f.pos } _
    (by simp only [hDlen]; exact hobs) (by rw [hhD]; exact hsig) (by rw [hhD]; rfl)
    (by rw [hhD, hcrcD]; rfl)

/-- After a repair-mode call of `ProcessFirmwareBlockV2` on a complete header with the V2
signature, a call at the same offset on any file of the same length that agrees with the
repaired file up to the end of the payload found shows no mismatch and goes on. -/
theorem ProcessFirmwareBlockV2_second (tbl : List Nat) (f : FILE) (D : List Byte)
    (h : f.pos + 24 ≤ f.data.length)
    (hsig : (headerV2At f).Signature = FirmwareBlockHeaderV2Signature)
    (hDlen : D.length = f.data.length)
    (hD : D.take (f.pos + 24 + observedLength 24 f (headerV2At f).DataLength) =
      (ProcessFirmwareBlockV2 tbl true f).2.1.data.take
        (f.pos + 24 + observedLength 24 f (headerV2At f).DataLength)) :
    ProcessFirmwareBlockV2 tbl true { data := D, pos := f.pos } =
      (true,
       { data := D, pos := f.pos + 24 + observedLength 24 f (headerV2At f).DataLength },
       [reportV2 tbl { data := D, pos := f.pos }]) ∧
    (reportV2 tbl { data := D, pos := f.pos }).noMismatch = true := by
  obtain ⟨_, hdrop, _, hh⟩ := ProcessFirmwareBlockV2_header_after tbl f h hsig
  have hobs := observedLength_le 24 f (headerV2At f).DataLength h
  have hhD : headerV2At { data := D, pos := f.pos } = repairedV2 tbl f := by
    rw [← hh]
    simp only [headerV2At, FILE.rest]
    rw [window_of_take_eq _ _ _ f.pos 24 hD (by omega)]
  have hcrcD : observedCRC tbl 24 { data := D, pos := f.pos }
      (observedLength 24 f (headerV2At f).DataLength) =
      observedCRC tbl 24 f (headerV2At f).DataLength := by
    rw [← observedCRC_observedLength tbl 24 f]
    refine observedCRC_congr tbl 24 { data := D, pos := f.pos } f _ ?_
    show (D.drop (f.pos + 24)).take _ = (f.data.drop (f.pos + 24)).take _
    rw [window_of_take_eq _ _ _ (f.pos + 24) _ hD (Nat.le_refl _), hdrop]
  exact ProcessFirmwareBlockV2_settled tbl true { data := D, pos := f.pos } _
    (by simp only [hDlen]; exact hobs) (by rw [hhD]; exact hsig) (by rw [hhD]; rfl)
    (by rw [hhD, hcrcD]; rfl) (by rw [hhD]; exact repairedV2_verifies tbl f)

theorem ProcessFirmwareBlockV1_pos_ret (tbl : List Nat) (fix : Bool) (f : FILE)
    (h : f.pos + 20 ≤ f.data.length)
    (hsig : (headerV1At f).Signature = FirmwareBlockHeaderV1Signature) :
    (ProcessFirmwareBlockV1 tbl fix f).2.1.pos =
      f.pos + 20 + observedLength 20 f (headerV1At f).DataLength ∧
    (ProcessFirmwareBlockV1 tbl fix f).1 =
      ((headerV1At f).DataLength == observedLength 20 f (headerV1At f).DataLength) := by
  rw [ProcessFirmwareBlockV1_block tbl fix f h hsig]
  exact ⟨rfl, rfl⟩

theorem ProcessFirmwareBlockV2_pos_ret (tbl : List Nat) (fix : Bool) (f : FILE)
    (h : f.pos + 24 ≤ f.data.length)
    (hsig : (headerV2At f).Signature = FirmwareBlockHeaderV2Signature) :
    (ProcessFirmwareBlockV2 tbl fix f).2.1.pos =
      f.pos + 24 + observedLength 24 f (headerV2At f).DataLength ∧
    (ProcessFirmwareBlockV2 tbl fix f).1 =
      ((headerV2At f).DataLength == observedLength 24 f (headerV2At f).DataLength) := by
  rw [ProcessFirmwareBlockV2_block tbl fix f h hsig]
  exact ⟨rfl, rfl⟩

theorem observedLength_of_ne (hs : Nat) (f : FILE) (n : Nat) (h : f.pos + hs ≤ f.data.length)
    (hne : (n == observedLength hs f n) = false) :
    f.pos + hs + observedLength hs f n = f.data.length := by
  simp only [beq_eq_false_iff_ne, ne_eq] at hne
  unfold observedLength at *
  omega

theorem stepSettles_V1 (tbl : List Nat) : StepSettles (ProcessFirmwareBlockV1 tbl true) := by
  refine ⟨fun f h => ProcessFirmwareBlockV1_at_end tbl true f h, ?_⟩
  intro f
  by_cases h1 : f.data.length ≤ f.pos
  · left; rw [ProcessFirmwareBlockV1_at_end tbl true f h1]; simp
  by_cases h2 : f.data.length < f.pos + 20
  · left; rw [ProcessFirmwareBlockV1_incomplete tbl true f (by omega) h2]
    simp [Report.noMismatch]
  have h3 : f.pos + 20 ≤ f.data.length := by omega
  by_cases hsig : (headerV1At f).Signature = FirmwareBlockHeaderV1Signature
  · right
    obtain ⟨hpos, hret⟩ := ProcessFirmwareBlockV1_pos_ret tbl true f h3 hsig
    have hobs := observedLength_le 20 f (headerV1At f).DataLength h3
    refine ⟨by omega, by omega, ?_, ?_⟩
    · intro hfalse
      rw [hret] at hfalse
      rw [hpos]
      exact observedLength_of_ne 20 f _ h3 hfalse
    · intro D hDlen hD
      rw [hpos] at hD ⊢
      obtain ⟨hstep, hok⟩ := ProcessFirmwareBlockV1_second tbl f D h3 hsig hDlen hD
      refine ⟨_, hstep, ?_, ?_⟩
      · intro e he
        rw [List.mem_singleton.1 he]; exact hok
      · simp [reportV1]
  · left; rw [ProcessFirmwareBlockV1_badSignature tbl true f h3 hsig]
    simp [Report.noMismatch]

theorem stepSettles_V2 (tbl : List Nat) : StepSettles (ProcessFirmwareBlockV2 tbl true) := by
  refine ⟨fun f h => ProcessFirmwareBlockV2_at_end tbl true f h, ?_⟩
  intro f
  by_cases h1 : f.data.length ≤ f.pos
  · left; rw [ProcessFirmwareBlockV2_at_end tbl true f h1]; simp
  by_cases h2 : f.data.length < f.pos + 24
  · left; rw [ProcessFirmwareBlockV2_incomplete tbl true f (by omega) h2]
    simp [Report.noMismatch]
  have h3 : f.pos + 24 ≤ f.data.length := by omega
  by_cases hsig : (headerV2At f).Signature = FirmwareBlockHeaderV2Signature
  · right
    obtain ⟨hpos, hret⟩ := ProcessFirmwareBlockV2_pos_ret tbl true f h3 hsig
    have hobs := observedLength_le 24 f (headerV2At f).DataLength h3
    refine ⟨by omega, by omega, ?_, ?_⟩
    · intro hfalse
      rw [hret] at hfalse
      rw [hpos]
      exact observedLength_of_ne 24 f _ h3 hfalse
    · intro D hDlen hD
      rw [hpos] at hD ⊢
      obtain ⟨hstep, hok⟩ := ProcessFirmwareBlockV2_second tbl f D h3 hsig hDlen hD
      refine ⟨_, hstep, ?_, ?_⟩
      · intro e he
        rw [List.mem_singleton.1 he]; exact hok
      · simp [reportV2]
  · left; rw [ProcessFirmwareBlockV2_badSignature tbl true f h3 hsig]
    simp [Report.noMismatch]

/-- A second scan over the file left by a scan (both with a processing function that
satisfies `StepFrame` and `StepSettles`) ends, shows no mismatch, does not call the
repair writer and leaves the file as it is. -/
theorem scanLoop_settles {hs : Nat} {P : FILE → Bool × FILE × List Report}
    (hF : StepFrame hs P) (hS : StepSettles P) :
    ∀ (fuel : Nat) (f : FILE) (s : FILE × List Report), scanLoop P fuel f = some s →
      ∀ fuel2, s.1.data.length - f.pos < fuel2 →
        ∃ s2, scanLoop P fuel2 { data := s.1.data, pos := f.pos } = some s2 ∧
          s2.1.data = s.1.data ∧ (∀ e ∈ s2.2, e.noMismatch = true) ∧
          Report.headerFixed ∉ s2.2 := by
  intro fuel
  induction fuel with
  | zero => intro f s h; simp [scanLoop] at h
  | succ k ih =>
    intro f s h fuel2 hf2
    obtain ⟨j, rfl⟩ : ∃ j, fuel2 = j + 1 := ⟨fuel2 - 1, by omega⟩
    rcases hS.step f with ⟨hret, hdata, hok, hnf⟩ | ⟨hlt, hle, hlast, hsecond⟩
    · have hs : s = ((P f).2.1, (P f).2.2) := by
        simp only [scanLoop, hret, Bool.false_eq_true, if_false, Option.some.injEq] at h
        exact h.symm
      subst hs
      have hf : ({ data := (P f).2.1.data, pos := f.pos } : FILE) = f := by
        rw [hdata]
      refine ⟨((P f).2.1, (P f).2.2), ?_, rfl, hok, hnf⟩
      show scanLoop P (j + 1) { data := (P f).2.1.data, pos := f.pos } = _
      rw [hf]
      simp only [scanLoop, hret, Bool.false_eq_true, if_false]
    · by_cases hc : (P f).1 = true
      · obtain ⟨s', hs', hss⟩ := scanLoop_step P k f s hc h
        obtain ⟨fl, ft, _⟩ := scanLoop_frame hF _ _ _ hs'
        have hlenD : s.1.data.length = f.data.length := by
          rw [hss, fl, hF.length_eq]
        obtain ⟨out, hstep, hok, hnf⟩ := hsecond s.1.data hlenD (by rw [hss]; exact ft)
        obtain ⟨s2, hs2, hd2, hok2, hnf2⟩ := ih _ _ hs' j (by rw [← hss]; omega)
        refine ⟨(s2.1, out ++ s2.2), ?_, by rw [hss]; exact hd2, ?_, ?_⟩
        · simp only [scanLoop, hstep, if_true]
          rw [hss, hs2]
        · intro e he
          rcases List.mem_append.1 he with he | he
          · exact hok e he
          · exact hok2 e he
        · simp only [List.mem_append, not_or]
          exact ⟨hnf, hnf2⟩
      · have hfalse : (P f).1 = false := by simpa using hc
        have hs : s = ((P f).2.1, (P f).2.2) := by
          simp only [scanLoop, hfalse, Bool.false_eq_true, if_false, Option.some.injEq] at h
          exact h.symm
        subst hs
        have hq := hlast hfalse
        obtain ⟨out, hstep, hok, hnf⟩ := hsecond (P f).2.1.data (hF.length_eq f) rfl
        have hlen := hF.length_eq f
        obtain ⟨j', rfl⟩ : ∃ j', j = j' + 1 := ⟨j - 1, by simp only at hf2; omega⟩
        refine ⟨({ data := (P f).2.1.data, pos := (P f).2.1.pos }, out ++ []), ?_, rfl, ?_, ?_⟩
        · simp only [scanLoop, hstep, if_true]
          rw [hS.at_end _ (by simp only; omega)]
          rfl
        · simpa using hok
        · simpa using hnf

/-- The file at the end of a scan agrees with the file left by the first processing call
up to the cursor left by that call. -/
theorem scanLoop_first_call {hs : Nat} {P : FILE → Bool × FILE × List Report}
    (hF : StepFrame hs P) (fuel : Nat) (f : FILE) (s : FILE × List Report)
    (h : scanLoop P fuel f = some s) :
    s.1.data.take (P f).2.1.pos = (P f).2.1.data.take (P f).2.1.pos ∧
      s.1.data.length = f.data.length := by
  cases fuel with
  | zero => simp [scanLoop] at h
  | succ k =>
    by_cases hc : (P f).1 = true
    · obtain ⟨s', hs', hss⟩ := scanLoop_step P k f s hc h
      obtain ⟨fl, ft, _⟩ := scanLoop_frame hF _ _ _ hs'
      rw [hss]
      exact ⟨ft, by rw [fl, hF.length_eq]⟩
    · simp only [scanLoop, hc, Bool.false_eq_true, if_false, Option.some.injEq] at h
      rw [← h]
      exact ⟨rfl, hF.length_eq f⟩

/-- After a repair-mode scan of a V2 file, the file still starts with the V2
signature. -/
theorem scanLoop_V2_keeps_signature (fuel : Nat) (data : List Byte) (s : FILE × List Report)
    (hlen : 24 ≤ data.length) (hsig : u32At data 0 = FirmwareBlockHeaderV2Signature)
    (h : scanLoop (ProcessFirmwareBlockV2 InitCRC32Table true) fuel { data := data, pos := 0 }
      = some s) :
    u32At s.1.data 0 = FirmwareBlockHeaderV2Signature := by
  have h24 : (0 : Nat) + 24 ≤ data.length := by omega
  have hsig0 : (headerV2At { data := data, pos := 0 }).Signature =
      FirmwareBlockHeaderV2Signature := by rw [headerV2At_start]; exact hsig
  obtain ⟨ht, _⟩ := scanLoop_first_call (stepFrame_V2 InitCRC32Table true) fuel _ s h
  obtain ⟨hpos, _⟩ := ProcessFirmwareBlockV2_pos_ret InitCRC32Table true
    { data := data, pos := 0 } h24 hsig0
  obtain ⟨_, _, _, hh⟩ := ProcessFirmwareBlockV2_header_after InitCRC32Table
    { data := data, pos := 0 } h24 hsig0
  rw [hpos] at ht
  have hw := window_of_take_eq _ _ _ 0 24 ht (by simp only; omega)
  have hhD : headerV2At { data := s.1.data, pos := 0 } =
      repairedV2 InitCRC32Table { data := data, pos := 0 } := by
    rw [← hh]
    simp only [headerV2At, FILE.rest]
    rw [hw]
  rw [← headerV2At_start, hhD]
  exact hsig0

/-- After a repair-mode scan of a V1 file, the file still starts with the V1
signature. -/
theorem scanLoop_V1_keeps_signature (fuel : Nat) (data : List Byte) (s : FILE × List Report)
    (hlen : 24 ≤ data.length) (hsig : u16At data 0 = FirmwareBlockHeaderV1Signature)
    (h : scanLoop (ProcessFirmwareBlockV1 InitCRC32Table true) fuel { data := data, pos := 0 }
      = some s) :
    u16At s.1.data 0 = FirmwareBlockHeaderV1Signature := by
  have h20 : (0 : Nat) + 20 ≤ data.length := by omega
  have hsig0 : (headerV1At { data := data, pos := 0 }).Signature =
      FirmwareBlockHeaderV1Signature := by rw [headerV1At_start]; exact hsig
  obtain ⟨ht, _⟩ := scanLoop_first_call (stepFrame_V1 InitCRC32Table true) fuel _ s h
  obtain ⟨hpos, _⟩ := ProcessFirmwareBlockV1_pos_ret InitCRC32Table true
    { data := data, pos := 0 } h20 hsig0
  obtain ⟨_, _, hh⟩ := ProcessFirmwareBlockV1_header_after InitCRC32Table
    { data := data, pos := 0 } h20 hsig0
  rw [hpos] at ht
  have hw := window_of_take_eq _ _ _ 0 20 ht (by simp only; omega)
  have hhD : headerV1At { data := s.1.data, pos := 0 } =
      repairedV1 InitCRC32Table { data := data, pos := 0 } := by
    rw [← hh]
    simp only [headerV1At, FILE.rest]
    rw [hw]
  rw [← headerV1At_start, hhD]
  exact hsig0

/-! ## Idempotence of repair: main statement -/

/-- C11: a repair-mode run on any file ends and leaves a file on which a second
repair-mode run ends, shows no length, CRC-32 or header-checksum mismatch in any block
it reports, does not call the repair writer and leaves the file unchanged. -/
theorem repair_is_idempotent (fuel : Nat) (data : List Byte) (hfuel : data.length < fuel) :
    ∃ r1 r2, mainOpened fuel true data = some r1 ∧ mainOpened fuel true r1.data = some r2 ∧
      (∀ e ∈ r2.out, e.noMismatch = true) ∧ Report.headerFixed ∉ r2.out ∧
      r2.data = r1.data := by
  by_cases hlen : data.length < 24
  · have h := mainOpened_short fuel true data hlen
    exact ⟨_, _, h, h, by simp [Report.noMismatch], by simp, rfl⟩
  have hlen' : 24 ≤ data.length := by omega
  by_cases h2 : u32At data 0 = FirmwareBlockHeaderV2Signature
  · obtain ⟨s, hs, hm, _⟩ := mainOpened_V2 fuel true data hfuel hlen' h2
    have hl : s.1.data.length = data.length :=
      (scanLoop_frame (stepFrame_V2 InitCRC32Table true) _ _ _ hs).1
    have hsig' := scanLoop_V2_keeps_signature fuel data s hlen' h2 hs
    obtain ⟨s2, hs2, hm2, _⟩ := mainOpened_V2 fuel true s.1.data (by omega) (by omega) hsig'
    obtain ⟨s2', hs2', hd, hok, hnf⟩ := scanLoop_settles (stepFrame_V2 InitCRC32Table true)
      (stepSettles_V2 InitCRC32Table) fuel _ s hs fuel (by simp only; omega)
    have heq : s2 = s2' := by
      rw [hs2] at hs2'; exact Option.some.inj hs2'
    subst heq
    exact ⟨_, _, hm, hm2, hok, hnf, hd⟩
  by_cases h1 : u16At data 0 = FirmwareBlockHeaderV1Signature
  · obtain ⟨s, hs, hm, _⟩ := mainOpened_V1 fuel true data hfuel hlen' h1
    have hl : s.1.data.length = data.length :=
      (scanLoop_frame (stepFrame_V1 InitCRC32Table true) _ _ _ hs).1
    have hsig' := scanLoop_V1_keeps_signature fuel data s hlen' h1 hs
    obtain ⟨s2, hs2, hm2, _⟩ := mainOpened_V1 fuel true s.1.data (by omega) (by omega) hsig'
    obtain ⟨s2', hs2', hd, hok, hnf⟩ := scanLoop_settles (stepFrame_V1 InitCRC32Table true)
      (stepSettles_V1 InitCRC32Table) fuel _ s hs fuel (by simp only; omega)
    have heq : s2 = s2' := by
      rw [hs2] at hs2'; exact Option.some.inj hs2'
    subst heq
    exact ⟨_, _, hm, hm2, hok, hnf, hd⟩
  · have h : mainOpened fuel true data =
        some { exitCode := 1, mode := none, data := data, pos := 0,
               out := [Report.unknownSignature (u32At data 0)] } := by
      rw [mainOpened_long fuel true data hlen', if_neg h2, if_neg h1]
    exact ⟨_, _, h, h, by simp [Report.noMismatch], by simp, rfl⟩

/-- Witness of C11: the file `truncatedV2File`, whose only block ends in a truncated
payload. -/
theorem repair_is_idempotent_witness :
    truncatedV2File.length < 34 ∧
    ∃ r1 r2, mainOpened 34 true truncatedV2File = some r1 ∧
      mainOpened 34 true r1.data = some r2 ∧
      (∀ e ∈ r2.out, e.noMismatch = true) ∧ Report.headerFixed ∉ r2.out ∧
      r2.data = r1.data :=
  ⟨by decide, repair_is_idempotent 34 truncatedV2File (by decide)⟩

/-! ## Termination and bounds -/

theorem crcLoopCount_spec (tbl : List Nat) (k : Nat) :
    ∀ (i crc dl : Nat) (file : FILE),
      (crcLoopCount tbl k i crc dl file).1 = crcLoop tbl k i crc dl file ∧
        (crcLoopCount tbl k i crc dl file).2 ≤ k := by
  induction k with
  | zero => intro i crc dl file; exact ⟨rfl, Nat.le_refl _⟩
  | succ k ih =>
    intro i crc dl file
    simp only [crcLoopCount, crcLoop]
    cases hg : fgetc file with
    | mk ob file' =>
      cases ob with
      | none => exact ⟨rfl, by simp⟩
      | some b =>
        simp only
        exact ⟨(ih _ _ _ _).1, Nat.succ_le_succ (ih _ _ _ _).2⟩

theorem stepCount_V1 (tbl : List Nat) (fix : Bool) :
    StepCount 20 (ProcessFirmwareBlockV1 tbl fix) := by
  have key : ∀ f : FILE,
      (blockOffsets (ProcessFirmwareBlockV1 tbl fix f).2.2).length ≤ 1 ∧
      (blockOffsets (ProcessFirmwareBlockV1 tbl fix f).2.2 ≠ [] →
        f.pos + 20 ≤ f.data.length) := by
    intro f
    by_cases h1 : f.data.length ≤ f.pos
    · rw [ProcessFirmwareBlockV1_at_end tbl fix f h1]; simp [blockOffsets]
    by_cases h2 : f.data.length < f.pos + 20
    · rw [ProcessFirmwareBlockV1_incomplete tbl fix f (by omega) h2]
      simp [blockOffsets, Report.blockOffset]
    have h3 : f.pos + 20 ≤ f.data.length := by omega
    by_cases hsig : (headerV1At f).Signature = FirmwareBlockHeaderV1Signature
    · rw [ProcessFirmwareBlockV1_block tbl fix f h3 hsig]
      refine ⟨?_, fun _ => h3⟩
      by_cases hr : repairsV1 tbl fix f = true <;>
        simp [hr, blockOffsets, reportV1, Report.blockOffset]
    · rw [ProcessFirmwareBlockV1_badSignature tbl fix f h3 hsig]
      simp [blockOffsets, Report.blockOffset]
  exact ⟨fun f => (key f).1, fun f => (key f).2⟩

theorem stepCount_V2 (tbl : List Nat) (fix : Bool) :
    StepCount 24 (ProcessFirmwareBlockV2 tbl fix) := by
  have key : ∀ f : FILE,
      (blockOffsets (ProcessFirmwareBlockV2 tbl fix f).2.2).length ≤ 1 ∧
      (blockOffsets (ProcessFirmwareBlockV2 tbl fix f).2.2 ≠ [] →
        f.pos + 24 ≤ f.data.length) := by
    intro f
    by_cases h1 : f.data.length ≤ f.pos
    · rw [ProcessFirmwareBlockV2_at_end tbl fix f h1]; simp [blockOffsets]
    by_cases h2 : f.data.length < f.pos + 24
    · rw [ProcessFirmwareBlockV2_incomplete tbl fix f (by omega) h2]
      simp [blockOffsets, Report.blockOffset]
    have h3 : f.pos + 24 ≤ f.data.length := by omega
    by_cases hsig : (headerV2At f).Signature = FirmwareBlockHeaderV2Signature
    · rw [ProcessFirmwareBlockV2_block tbl fix f h3 hsig]
      refine ⟨?_, fun _ => h3⟩
      by_cases hr : repairsV2 tbl fix f = true <;>
        simp [hr, blockOffsets, reportV2, Report.blockOffset]
    · rw [ProcessFirmwareBlockV2_badSignature tbl fix f h3 hsig]
      simp [blockOffsets, Report.blockOffset]
  exact ⟨fun f => (key f).1, fun f => (key f).2⟩

/-- The blocks reported by a scan fit, header after header, between the starting cursor
and the end of the file. -/
theorem scanLoop_block_count {hs : Nat} {P : FILE → Bool × FILE × List Report}
    (hF : StepFrame hs P) (hC : StepCount hs P) :
    ∀ (fuel : Nat) (f : FILE) (s : FILE × List Report), scanLoop P fuel f = some s →
      (blockOffsets s.2).length * hs ≤ f.data.length - f.pos := by
  intro fuel
  induction fuel with
  | zero => intro f s h; simp [scanLoop] at h
  | succ k ih =>
    intro f s h
    have h1 := hC.at_most_one f
    have hone : (blockOffsets (P f).2.2).length * hs ≤ f.data.length - f.pos := by
      by_cases hn : blockOffsets (P f).2.2 = []
      · simp [hn]
      · have h2 := hC.header_read f hn
        calc (blockOffsets (P f).2.2).length * hs ≤ 1 * hs := Nat.mul_le_mul_right hs h1
          _ ≤ f.data.length - f.pos := by omega
    by_cases hc : (P f).1 = true
    · simp only [scanLoop, hc, if_true] at h
      cases hrec : scanLoop P k (P f).2.1 with
      | none => simp [hrec] at h
      | some s' =>
        simp only [hrec, Option.some.injEq] at h
        subst h
        have hi := ih _ _ hrec
        have hadv := hF.advance f hc
        have hlen := hF.length_eq f
        have hmul : (blockOffsets (P f).2.2).length * hs ≤ 1 * hs :=
          Nat.mul_le_mul_right hs h1
        rw [blockOffsets_append, List.length_append, Nat.add_mul]
        omega
    · simp only [scanLoop, hc, Bool.false_eq_true, if_false, Option.some.injEq] at h
      subst h
      exact hone

/-- C18: on every file, with repair on or off, the run ends once the loop may be
unrolled more often than the file has bytes; the blocks reported number at most
`fileLength / 20` in V1 mode and `fileLength / 24` in V2 mode (none when no scan is
started); every processing call that asks to go on has moved the cursor by at least the
header size; and the body of the payload loop of `CalculateBlockCRC32` is entered at most
`DataLength` times. -/
theorem scan_terminates_within_bounds (fuel : Nat) (fix : Bool) (data : List Byte)
    (hfuel : data.length < fuel) :
    (∃ r, mainOpened fuel fix data = some r ∧
      (r.mode = some HeaderVersion.V1 → (blockOffsets r.out).length ≤ data.length / 20) ∧
      (r.mode = some HeaderVersion.V2 → (blockOffsets r.out).length ≤ data.length / 24) ∧
      (r.mode = none → blockOffsets r.out = [])) ∧
    (∀ (tbl : List Nat) (f : FILE), (ProcessFirmwareBlockV1 tbl fix f).1 = true →
      f.pos + 20 ≤ (ProcessFirmwareBlockV1 tbl fix f).2.1.pos) ∧
    (∀ (tbl : List Nat) (f : FILE), (ProcessFirmwareBlockV2 tbl fix f).1 = true →
      f.pos + 24 ≤ (ProcessFirmwareBlockV2 tbl fix f).2.1.pos) ∧
    (∀ (tbl : List Nat) (file : FILE) (DataLength : Nat),
      (crcLoopCount tbl DataLength 0 0xFFFFFFFF DataLength file).1 =
          crcLoop tbl DataLength 0 0xFFFFFFFF DataLength file ∧
        (crcLoopCount tbl DataLength 0 0xFFFFFFFF DataLength file).2 ≤ DataLength) := by
  refine ⟨?_, fun tbl f h => ((stepFrame_V1 tbl fix).advance f h).1,
    fun tbl f h => ((stepFrame_V2 tbl fix).advance f h).1,
    fun tbl file n => crcLoopCount_spec tbl n 0 _ n file⟩
  by_cases hlen : data.length < 24
  · exact ⟨_, mainOpened_short fuel fix data hlen, by simp, by simp,
      fun _ => by simp [blockOffsets, Report.blockOffset]⟩
  have hlen' : 24 ≤ data.length := by omega
  by_cases h2 : u32At data 0 = FirmwareBlockHeaderV2Signature
  · obtain ⟨s, hs, hm, _⟩ := mainOpened_V2 fuel fix data hfuel hlen' h2
    have hb := scanLoop_block_count (stepFrame_V2 InitCRC32Table fix)
      (stepCount_V2 InitCRC32Table fix) _ _ _ hs
    refine ⟨_, hm, by simp, fun _ => ?_, by simp⟩
    exact (Nat.le_div_iff_mul_le (by decide)).2 (by simpa using hb)
  by_cases h1 : u16At data 0 = FirmwareBlockHeaderV1Signature
  · obtain ⟨s, hs, hm, _⟩ := mainOpened_V1 fuel fix data hfuel hlen' h1
    have hb := scanLoop_block_count (stepFrame_V1 InitCRC32Table fix)
      (stepCount_V1 InitCRC32Table fix) _ _ _ hs
    refine ⟨_, hm, fun _ => ?_, by simp, by simp⟩
    exact (Nat.le_div_iff_mul_le (by decide)).2 (by simpa using hb)
  · refine ⟨{ exitCode := 1, mode := none, data := data, pos := 0,
              out := [Report.unknownSignature (u32At data 0)] }, ?_, by simp, by simp,
      fun _ => by simp [blockOffsets, Report.blockOffset]⟩
    rw [mainOpened_long fuel fix data hlen', if_neg h2, if_neg h1]

/-- Witness of C18: the file `sampleFileV2` of 33 bytes, scanned in V2 mode: at most
`33 / 24 = 1` block. -/
theorem scan_terminates_within_bounds_witness :
    sampleFileV2.length < 34 ∧
    ∃ r, mainOpened 34 true sampleFileV2 = some r ∧
      (r.mode = some HeaderVersion.V2 → (blockOffsets r.out).length ≤ 33 / 24) :=
  ⟨by decide,
    match (scan_terminates_within_bounds 34 true sampleFileV2 (by decide)).1 with
    | ⟨r, hr, _, h2, _⟩ => ⟨r, hr, h2⟩⟩

/-! ## The command line -/

theorem land_mod_256 (x m : Nat) : (x &&& m) % 2 ^ 8 = (x % 2 ^ 8) &&& (m % 2 ^ 8) := by
  apply Nat.eq_of_testBit_eq
  intro i
  simp only [Nat.testBit_mod_two_pow, Nat.testBit_and]
  by_cases hi : i < 8 <;> simp [hi]

theorem land_div_256 (x m : Nat) : (x &&& m) / 2 ^ 8 = (x / 2 ^ 8) &&& (m / 2 ^ 8) := by
  apply Nat.eq_of_testBit_eq
  intro i
  simp only [← Nat.shiftRight_eq_div_pow, Nat.testBit_shiftRight, Nat.testBit_and]

theorem mask_low (a b : Byte) :
    (byteAt ((a.val + 256 * b.val) &&& 0xDFFD) 0).val = a.val &&& 0xFD := by
  have h := land_mod_256 (a.val + 256 * b.val) 0xDFFD
  have ha : (a.val + 256 * b.val) % 2 ^ 8 = a.val := by omega
  rw [ha] at h
  simp only [byteAt, Nat.pow_zero, Nat.div_one]
  exact h

theorem mask_high (a b : Byte) :
    (byteAt ((a.val + 256 * b.val) &&& 0xDFFD) 1).val = b.val &&& 0xDF := by
  have h := land_div_256 (a.val + 256 * b.val) 0xDFFD
  have hb : (a.val + 256 * b.val) / 2 ^ 8 = b.val := by omega
  rw [hb] at h
  have hlt : b.val &&& 0xDF < 2 ^ 8 := Nat.and_lt_two_pow _ (by decide)
  have h' : ((a.val + 256 * b.val) &&& 0xDFFD) / 256 = b.val &&& 0xDF := h
  simp only [byteAt, Nat.pow_one]
  rw [h']
  exact Nat.mod_eq_of_lt hlt

set_option maxRecDepth 100000 in
theorem mask_low_iff : ∀ a : Byte, a.val &&& 0xFD = 0x2D ↔ (a = 0x2D ∨ a = 0x2F) := by
  decide

set_option maxRecDepth 100000 in
theorem mask_high_iff : ∀ b : Byte, b.val &&& 0xDF = 0x46 ↔ (b = 0x46 ∨ b = 0x66) := by
  decide

theorem maskFlag_cons_cons (a b : Byte) (rest : List Byte) :
    maskFlag (a :: b :: rest) =
      byteAt ((a.val + 256 * b.val) &&& 0xDFFD) 0 ::
        byteAt ((a.val + 256 * b.val) &&& 0xDFFD) 1 :: (rest ++ [0, 0]) := rfl

theorem cstring_nil_of_append (rest : List Byte) (hz : (0 : Byte) ∉ rest)
    (h : cstring (rest ++ [0, 0]) = []) : rest = [] := by
  cases rest with
  | nil => rfl
  | cons c t =>
    have hc : c ≠ 0 := fun hc => hz (by simp [hc])
    simp [cstring, List.takeWhile_cons, hc] at h

/-- The test on the flag succeeds exactly for the four arguments of `repairFlags`. -/
theorem flagIsF_iff (Flag : List Byte) (hz : (0 : Byte) ∉ Flag) :
    flagIsF Flag = true ↔ Flag ∈ repairFlags := by
  match Flag, hz with
  | [], _ => exact ⟨fun h => absurd h (by decide), fun h => absurd h (by decide)⟩
  | [a], _ =>
    constructor
    · intro h
      exfalso
      simp only [flagIsF, maskFlag, cstring, beq_iff_eq, List.singleton_append, bytes16,
        List.cons_append, List.nil_append, List.drop_succ_cons, List.drop_zero] at h
      have h1 : (byteAt (u16At [a, 0, 0] 0 &&& 0xDFFD) 1).val = (0 : Byte).val &&& 0xDF :=
        mask_high a 0
      have h2 : byteAt (u16At [a, 0, 0] 0 &&& 0xDFFD) 1 = 0 := Fin.ext h1
      rw [h2] at h
      by_cases h0 : byteAt (u16At [a, 0, 0] 0 &&& 0xDFFD) 0 = 0 <;>
        simp [List.takeWhile_cons, h0] at h
    · intro h
      simp [repairFlags] at h
  | a :: b :: rest, hz =>
    have hrest : (0 : Byte) ∉ rest := fun h => hz (by simp [h])
    rw [flagIsF, maskFlag_cons_cons]
    have hlo := mask_low a b
    have hhi := mask_high a b
    constructor
    · intro h
      simp only [beq_iff_eq, cstring] at h
      by_cases h0 : byteAt ((a.val + 256 * b.val) &&& 0xDFFD) 0 = 0
      · simp [List.takeWhile_cons, h0] at h
      by_cases h1 : byteAt ((a.val + 256 * b.val) &&& 0xDFFD) 1 = 0
      · simp [List.takeWhile_cons, h0, h1] at h
      simp only [List.takeWhile_cons, h0, h1, ne_eq, not_false_eq_true, decide_True, if_true,
        List.cons.injEq] at h
      obtain ⟨ha, hb, ht⟩ := h
      have hr : rest = [] := cstring_nil_of_append rest hrest ht
      have ha' : a = 0x2D ∨ a = 0x2F := (mask_low_iff a).1 (by rw [← hlo, ha]; rfl)
      have hb' : b = 0x46 ∨ b = 0x66 := (mask_high_iff b).1 (by rw [← hhi, hb]; rfl)
      subst hr
      rcases ha' with rfl | rfl <;> rcases hb' with rfl | rfl <;> decide
    · intro h
      simp only [repairFlags, List.mem_cons, List.cons.injEq, List.mem_singleton,
        List.not_mem_nil, or_false] at h
      rcases h with ⟨rfl, rfl, rfl⟩ | ⟨rfl, rfl, rfl⟩ | ⟨rfl, rfl, rfl⟩ |
        ⟨rfl, rfl, rfl⟩ <;> decide

theorem main_three_args (fuel : Nat) (fopen : List Byte → String → Option (List Byte))
    (prog fwFileName Flag : List Byte) :
    main fuel fopen [prog, fwFileName, Flag] =
      if flagIsF Flag then
        match fopen fwFileName "r+b" with
        | none => some (Outcome.openError fwFileName "r+b")
        | some data => (mainOpened fuel true data).map (Outcome.scanned fwFileName "r+b")
      else some (Outcome.usage true) := by
  simp [main]

/-! ## The third command-line argument: main statements -/

/-- C19 as stated fails: the third argument `/f` is neither `-f` nor `-F`, yet it is not
rejected: the file is opened with mode `r+b` and scanned with repair enabled. -/
theorem slash_f_enables_repair :
    ([0x2F, 0x66] : List Byte) ≠ [0x2D, 0x66] ∧ ([0x2F, 0x66] : List Byte) ≠ [0x2D, 0x46] ∧
    main 30 (fun _ _ => some sampleFileV1) [[0x66], [0x61], [0x2F, 0x66]] =
      (mainOpened 30 true sampleFileV1).map (Outcome.scanned [0x61] "r+b") ∧
    main 30 (fun _ _ => some sampleFileV1) [[0x66], [0x61], [0x2F, 0x66]] ≠
      some (Outcome.usage true) := by
  refine ⟨by decide, by decide, ?_, ?_⟩
  · rw [main_three_args, if_pos (by decide)]
  · rw [main_three_args, if_pos (by decide)]
    show Option.map (Outcome.scanned [0x61] "r+b") (mainOpened 30 true sampleFileV1) ≠ _
    rw [sampleFileV1_run]
    exact fun h => Outcome.noConfusion (Option.some.inj h)

/-- C19, amended: when a third command-line argument is given (a C string, so without a
zero byte), repair mode is enabled (the file is opened with mode `r+b` and scanned with
`FixErrors` set) if the argument is `-f`, `-F`, `/f` or `/F`; every other argument is
rejected as a bad command line with exit code 1 and without a call of `fopen`. -/
theorem third_argument_selects_repair (fuel : Nat)
    (fopen : List Byte → String → Option (List Byte)) (prog fwFileName Flag : List Byte)
    (hz : (0 : Byte) ∉ Flag) :
    (Flag ∈ repairFlags →
      main fuel fopen [prog, fwFileName, Flag] =
        match fopen fwFileName "r+b" with
        | none => some (Outcome.openError fwFileName "r+b")
        | some data => (mainOpened fuel true data).map (Outcome.scanned fwFileName "r+b")) ∧
    (Flag ∉ repairFlags →
      main fuel fopen [prog, fwFileName, Flag] = some (Outcome.usage true) ∧
        (Outcome.usage true).exitCode = 1 ∧ (Outcome.usage true).opened = none) := by
  constructor
  · intro h
    rw [main_three_args, if_pos ((flagIsF_iff Flag hz).2 h)]
  · intro h
    have hf : ¬ (flagIsF Flag = true) := fun hc => h ((flagIsF_iff Flag hz).1 hc)
    rw [main_three_args, if_neg hf]
    exact ⟨rfl, rfl, rfl⟩

/-- Witness of the amended C19: the argument `-f` enables repair, the argument `-x` is
rejected. -/
theorem third_argument_selects_repair_witness :
    main 30 (fun _ _ => some sampleFileV1) [[0x66], [0x61], [0x2D, 0x66]] =
      (mainOpened 30 true sampleFileV1).map (Outcome.scanned [0x61] "r+b") ∧
    main 30 (fun _ _ => some sampleFileV1) [[0x66], [0x61], [0x2D, 0x78]] =
      some (Outcome.usage true) :=
  ⟨(third_argument_selects_repair 30 (fun _ _ => some sampleFileV1) [0x66] [0x61]
      [0x2D, 0x66] (by decide)).1 (by decide),
   ((third_argument_selects_repair 30 (fun _ _ => some sampleFileV1) [0x66] [0x61]
      [0x2D, 0x78] (by decide)).2 (by decide)).1⟩

end Fwinfo
